import Mathlib

/-! Procedural geometry and draw protocol of the 2D scene programs.

A shallow embedding of `shapes.cpp` and `creative.cpp`.

* A `std::vector<float>` is a `List α`. The builders are read in two arithmetics: the exact
  arithmetic of a field `α` (instantiated with `ℚ` or `ℝ`), for the geometry as it is
  designed, and the arithmetic of the program, `F32` for `float` and `F64` for `double`
  (IEEE 754 binary32 and binary64, every operation rounded to nearest with ties to even,
  gradual underflow, overflow to infinity), for the layer sizes of `buildZebraSquare` and for
  the closure of the fans, where rounding matters.
* A C++ `int` is an `Int`. Every loop below counts upwards from 0 and stops at the first
  value past its bound, so its counter stays inside `[0, bound + 1]`; these values are
  representable in 32 bits for every bound below `2^31 - 1`. At the bound `2^31 - 1` itself
  the increment of an `i <= bound` loop would overflow, which C++ leaves undefined and the
  model does not represent.
* `M_PI`, `cos` and `sin` come from `<cmath>` and are passed in as a `CMath` record.
* OpenGL / GLFW are an explicit state (`GL`) threaded through the calls, and the answers of
  the driver and of the window system are an explicit `Driver` record.
-/

/-! ## `std::vector<float>` -/

/-- The C++ call `vertices.clear()`. -/
def clear {α : Type} (_vertices : List α) : List α := []

/-- The C++ call `vertices.push_back(x)`. -/
def push_back {α : Type} (vertices : List α) (x : α) : List α := vertices ++ [x]

/-- The C++ call `vertices.insert(vertices.end(), sq, sq + n)` for an array `sq` of `n` floats. -/
def insert_end {α : Type} (vertices : List α) (sq : List α) : List α := vertices ++ sq

/-- The `k`-th vertex of an interleaved buffer: the five floats `x, y, r, g, b` at stride 5,
the layout that `glVertexAttribPointer` is given in both programs. -/
def vertexAt {α : Type} (vertices : List α) (k : Nat) : List α := (vertices.drop (5 * k)).take 5

/-- Position `(x, y)` of the `k`-th vertex (attribute 0: two floats at offset 0). -/
def positionAt {α : Type} (vertices : List α) (k : Nat) : List α := (vertexAt vertices k).take 2

/-- Colour `(r, g, b)` of the `k`-th vertex (attribute 1: three floats at offset 2). -/
def colourAt {α : Type} (vertices : List α) (k : Nat) : List α := (vertexAt vertices k).drop 2

/-- The positions of all vertices of an interleaved buffer, in order. -/
def positions {α : Type} : List α → List (α × α)
  | x :: y :: _ :: _ :: _ :: rest => (x, y) :: positions rest
  | _ => []

/-- The bounding box `(min x, max x, min y, max y)` of the vertex positions of a buffer
(`none` when it holds no vertex). -/
def boundingBox {α : Type} [LinearOrder α] (vertices : List α) : Option (α × α × α × α) :=
  match positions vertices with
  | [] => none
  | p :: ps =>
    some (ps.foldl
      (fun box q => (min box.1 q.1, max box.2.1 q.1, min box.2.2.1 q.2, max box.2.2.2 q.2))
      (p.1, p.1, p.2, p.2))

/-! ## IEEE 754 binary arithmetic -/

/-- Rounding of a rational number to the nearest integer, a tie going to the even one. -/
def roundHalfEven (x : ℚ) : ℤ :=
  if x - ⌊x⌋ < 1 / 2 then ⌊x⌋
  else if 1 / 2 < x - ⌊x⌋ then ⌊x⌋ + 1
  else if ⌊x⌋ % 2 = 0 then ⌊x⌋ else ⌊x⌋ + 1

/-- A binary floating-point format: the precision `p` in bits and the least and greatest
exponents of a normal number. -/
structure Format where
  /-- The number of bits of the significand, the implicit one included. -/
  p : Nat
  /-- The exponent of the least normal number `2 ^ emin`. -/
  emin : Int
  /-- The exponent of the greatest binade `[2 ^ emax, 2 ^ (emax + 1))`. -/
  emax : Int

/-- The format of `float`: IEEE 754 binary32. -/
def binary32 : Format := ⟨24, -126, 127⟩

/-- The format of `double`: IEEE 754 binary64. -/
def binary64 : Format := ⟨53, -1022, 1023⟩

/-- The exponent `e` of the binade `[2 ^ e, 2 ^ (e + 1))` that holds `|q|`, and `emin` for
zero and for the subnormal range. -/
def Format.binade (f : Format) (q : ℚ) : Int :=
  if q = 0 then f.emin else max (Int.log 2 |q|) f.emin

/-- The distance between neighbouring numbers of the format in the binade of `q`. -/
def Format.quantum (f : Format) (q : ℚ) : ℚ := 2 ^ (f.binade q - ((f.p : Int) - 1))

/-- Rounding to the nearest number of the format with unbounded exponent range above, ties to
even (the default rounding of IEEE 754). -/
def Format.rnd (f : Format) (q : ℚ) : ℚ :=
  (roundHalfEven (q / f.quantum q) : ℚ) * f.quantum q

/-- The least magnitude that rounds to infinity: the greatest finite number plus half a
quantum. -/
def Format.threshold (f : Format) : ℚ := (2 - 2 ^ (-(f.p : Int))) * 2 ^ f.emax

/-- An IEEE 754 datum: a finite number, an infinity or a NaN. The two zeros are identified;
the programs never divide by a negative zero. -/
inductive Fp where
  | finite (q : ℚ)
  | inf (negative : Bool)
  | nan
  deriving DecidableEq

/-- Rounding of an exactly computed result into the format, with overflow to infinity. -/
def Format.round (f : Format) : Fp → Fp
  | .finite q => if f.threshold ≤ |q| then .inf (decide (q < 0)) else .finite (f.rnd q)
  | .inf negative => .inf negative
  | .nan => .nan

/-- Exact negation. -/
def Fp.neg : Fp → Fp
  | .finite q => .finite (-q)
  | .inf negative => .inf (!negative)
  | .nan => .nan

/-- Exact sum, with the IEEE 754 rules for infinities and NaN. -/
def Fp.add : Fp → Fp → Fp
  | .nan, _ => .nan
  | _, .nan => .nan
  | .inf s, .inf t => if s = t then .inf s else .nan
  | .inf s, .finite _ => .inf s
  | .finite _, .inf t => .inf t
  | .finite a, .finite b => .finite (a + b)

/-- Exact product, with the IEEE 754 rules for infinities and NaN. -/
def Fp.mul : Fp → Fp → Fp
  | .nan, _ => .nan
  | _, .nan => .nan
  | .inf s, .inf t => .inf (s != t)
  | .inf s, .finite b => if b = 0 then .nan else .inf (s != decide (b < 0))
  | .finite a, .inf t => if a = 0 then .nan else .inf (decide (a < 0) != t)
  | .finite a, .finite b => .finite (a * b)

/-- Exact quotient, with the IEEE 754 rules for infinities, NaN and division by zero. -/
def Fp.div : Fp → Fp → Fp
  | .nan, _ => .nan
  | _, .nan => .nan
  | .inf _, .inf _ => .nan
  | .inf s, .finite b => .inf (s != decide (b < 0))
  | .finite _, .inf _ => .finite 0
  | .finite a, .finite b =>
    if b = 0 then (if a = 0 then .nan else .inf (decide (a < 0))) else .finite (a / b)

/-- A value of the floating-point type with format `f`. -/
structure Binary (f : Format) where
  /-- The datum. -/
  val : Fp
  deriving DecidableEq

/-- The C++ type `float`. -/
abbrev F32 : Type := Binary binary32

/-- The C++ type `double`. -/
abbrev F64 : Type := Binary binary64

/-- The value of the format nearest to a rational number. -/
def Binary.ofRat {f : Format} (q : ℚ) : Binary f := ⟨f.round (.finite q)⟩

instance {f : Format} : Neg (Binary f) := ⟨fun a => ⟨a.val.neg⟩⟩

instance {f : Format} : Add (Binary f) := ⟨fun a b => ⟨f.round (a.val.add b.val)⟩⟩

instance {f : Format} : Sub (Binary f) := ⟨fun a b => ⟨f.round (a.val.add b.val.neg)⟩⟩

instance {f : Format} : Mul (Binary f) := ⟨fun a b => ⟨f.round (a.val.mul b.val)⟩⟩

instance {f : Format} : Div (Binary f) := ⟨fun a b => ⟨f.round (a.val.div b.val)⟩⟩

/-- The conversion of an `int` to the floating-point type. -/
instance {f : Format} : IntCast (Binary f) := ⟨fun i => Binary.ofRat (i : ℚ)⟩

/-- A decimal literal of the floating-point type. -/
instance {f : Format} : OfScientific (Binary f) :=
  ⟨fun mantissa exponentSign decimalExponent =>
    Binary.ofRat (OfScientific.ofScientific mantissa exponentSign decimalExponent : ℚ)⟩

/-- The implicit conversion of a `float` to `double`, which is exact. -/
def Binary.toDouble (x : F32) : F64 := ⟨x.val⟩

/-- The conversion of a `double` to `float`, which rounds. -/
def Binary.toFloat (x : F64) : F32 := ⟨binary32.round x.val⟩

/-! ## Counted loops -/

/-- The loop `for (int i = i0; i <= segments; i++) body`, started at `i`, on the state `s`. -/
def forLE {σ : Type} (segments : Int) (body : Int → σ → σ) (i : Int) (s : σ) : σ :=
  if i ≤ segments then forLE segments body (i + 1) (body i s) else s
termination_by (segments + 1 - i).toNat
decreasing_by omega

/-- The loop `for (int i = i0; i < layers; i++) body`, started at `i`, on the state `s`. -/
def forLT {σ : Type} (layers : Int) (body : Int → σ → σ) (i : Int) (s : σ) : σ :=
  if i < layers then forLT layers body (i + 1) (body i s) else s
termination_by (layers - i).toNat
decreasing_by omega

/-- The blocks appended by passes `i, i + 1, ..., i + n - 1`. -/
def blocks {α : Type} (f : Int → List α) (i : Int) (n : Nat) : List α :=
  (List.range n).flatMap (fun k => f (i + (k : Int)))

/-- The parts of `<cmath>` the builders use. -/
structure CMath (α : Type) where
  /-- The constant `M_PI`. -/
  M_PI : α
  /-- The function `cos`. -/
  cos : α → α
  /-- The function `sin`. -/
  sin : α → α

/-! ## `shapes.cpp` -/

namespace Shapes

/-- One pass of the body of the loop of `buildCircle` (shapes.cpp, lines 85-96). -/
def buildCircle.body {α : Type} [Field α] (m : CMath α) (segments : Int) (r : α)
    (gradient : Bool) (i : Int) (vertices : List α) : List α :=
  let theta : α := 2 * m.M_PI * (i : α) / (segments : α)
  let x : α := r * m.cos theta
  let y : α := r * m.sin theta
  let vertices := push_back vertices x
  let vertices := push_back vertices y
  if gradient then
    let t : α := (m.sin theta + 1) / 2
    push_back (push_back (push_back vertices (1 - t)) 0) 0
  else
    push_back (push_back (push_back vertices 1) 0) 0

/-- The function `buildCircle(vertices, segments, r, gradient)` of shapes.cpp: the new contents
of `vertices`. -/
def buildCircle {α : Type} [Field α] (m : CMath α) (vertices : List α) (segments : Int) (r : α)
    (gradient : Bool) : List α :=
  let vertices := clear vertices
  let vertices := push_back (push_back vertices 0) 0
  let vertices := push_back (push_back (push_back vertices 1) 0) 0
  forLE segments (buildCircle.body m segments r gradient) 0 vertices

/-- One pass of the body of the loop of `buildEllipse` (shapes.cpp, lines 106-111). -/
def buildEllipse.body {α : Type} [Field α] (m : CMath α) (segments : Int) (rx ry : α)
    (i : Int) (vertices : List α) : List α :=
  let theta : α := 2 * m.M_PI * (i : α) / (segments : α)
  let x : α := rx * m.cos theta
  let y : α := ry * m.sin theta
  let vertices := push_back vertices x
  let vertices := push_back vertices y
  push_back (push_back (push_back vertices 1) 0) 0

/-- The function `buildEllipse(vertices, segments, rx, ry)` of shapes.cpp: the new contents of
`vertices`. -/
def buildEllipse {α : Type} [Field α] (m : CMath α) (vertices : List α) (segments : Int)
    (rx ry : α) : List α :=
  let vertices := clear vertices
  let vertices := push_back (push_back vertices 0) 0
  let vertices := push_back (push_back (push_back vertices 1) 0) 0
  forLE segments (buildEllipse.body m segments rx ry) 0 vertices

/-- The function `buildTriangle(vertices)` of shapes.cpp: the new contents of `vertices`. -/
def buildTriangle {α : Type} [Field α] (_vertices : List α) : List α :=
  [ 0.0,  0.2,  1.0, 0.0, 0.0,
   -0.2, -0.2,  0.0, 1.0, 0.0,
    0.2, -0.2,  0.0, 0.0, 1.0]

/-- One pass of the body of the loop of `buildZebraSquare` (shapes.cpp, lines 128-141);
`i % 2` is the truncating remainder of C++. The arithmetic is that of `α`: exact in a field,
and that of C++ `float` (every operation rounded to binary32) for `α = F32`. -/
def buildZebraSquare.body {α : Type} [OfScientific α] [IntCast α] [Mul α] [Sub α] [Neg α]
    (step : α) (i : Int) (vertices : List α) : List α :=
  let size : α := 0.9 - (i : α) * step
  let color : α := if Int.tmod i 2 = 0 then 1.0 else 0.0
  let sq : List α :=
    [-size, -size, color, color, color,
      size, -size, color, color, color,
      size,  size, color, color, color,
     -size, -size, color, color, color,
      size,  size, color, color, color,
     -size,  size, color, color, color]
  insert_end vertices sq

/-- The function `buildZebraSquare(vertices, layers)` of shapes.cpp: the new contents of
`vertices`. `0.9 / layers` converts `layers` to `α` and divides in `α`; for `α = F32` this is
the `float` division of the source. -/
def buildZebraSquare {α : Type} [OfScientific α] [IntCast α] [Mul α] [Sub α] [Neg α] [Div α]
    (vertices : List α) (layers : Int) : List α :=
  let vertices := clear vertices
  let step : α := 0.9 / (layers : α)
  forLT layers (buildZebraSquare.body step) 0 vertices

end Shapes

/-- The rational value of `size = 0.9f - i * step` with `step = 0.9f / layers` in
`buildZebraSquare`, every operation rounded to binary32. -/
def zebraSize (layers i : Int) : ℚ :=
  binary32.rnd (binary32.rnd 0.9 -
    binary32.rnd (binary32.rnd i * binary32.rnd (binary32.rnd 0.9 / binary32.rnd layers)))

/-! ## `creative.cpp` -/

namespace Creative

/-- The function `buildRectangle(w, h, r, g, b)` of creative.cpp. -/
def buildRectangle {α : Type} [Field α] (w h r g b : α) : List α :=
  [-w, -h, r, g, b,
    w, -h, r, g, b,
    w,  h, r, g, b,
   -w, -h, r, g, b,
    w,  h, r, g, b,
   -w,  h, r, g, b]

/-- The function `buildTriangle(size, r, g, b)` of creative.cpp. -/
def buildTriangle {α : Type} [Field α] (size r g b : α) : List α :=
  [ 0.0,  size, r, g, b,
   -size, -size, r, g, b,
    size, -size, r, g, b]

/-- One pass of the body of the loop of `buildCircle` (creative.cpp, lines 94-98). -/
def buildCircle.body {α : Type} [Field α] (m : CMath α) (segments : Int) (radius r g b : α)
    (i : Int) (verts : List α) : List α :=
  let theta : α := 2 * m.M_PI * (i : α) / (segments : α)
  let x : α := radius * m.cos theta
  let y : α := radius * m.sin theta
  let verts := push_back (push_back verts x) y
  push_back (push_back (push_back verts r) g) b

/-- The function `buildCircle(segments, radius, r, g, b)` of creative.cpp. -/
def buildCircle {α : Type} [Field α] (m : CMath α) (segments : Int) (radius r g b : α) :
    List α :=
  let verts : List α := []
  let verts := push_back (push_back verts 0) 0
  let verts := push_back (push_back (push_back verts r) g) b
  forLE segments (buildCircle.body m segments radius r g b) 0 verts

end Creative

/-! ## The circle and ellipse builders in the arithmetic of the program

In `float theta = 2.0f * M_PI * float(i) / float(segments)` the constant `M_PI` is a `double`,
so the product and the quotient are computed in `double` and the result is rounded to `float`
when it is stored in `theta`; `cos` and `sin` are the `double` functions of `<cmath>`, so
`r * cos(theta)` is a `double` product that is rounded when it is stored in the `float x`.
Every operation is rounded once, to the type C++ gives it. Were `cos(theta)` resolved to the
`float` overload instead, its result would be a `float`, the `double` product
`r * cos(theta)` of two `float` values would be exact, and the store into `x` would again be
the one rounding of the `float` product; that reading is the instance of this model in which
`m.cos` and `m.sin` return values of `float` precision. -/

namespace IEEE

namespace Shapes

/-- One pass of the body of the loop of `buildCircle` (shapes.cpp, lines 85-96). -/
def buildCircle.body (m : CMath F64) (segments : Int) (r : F32) (gradient : Bool) (i : Int)
    (vertices : List F32) : List F32 :=
  let theta : F32 := Binary.toFloat
    ((2.0 : F32).toDouble * m.M_PI * ((i : Int) : F32).toDouble /
      ((segments : Int) : F32).toDouble)
  let x : F32 := Binary.toFloat (r.toDouble * m.cos theta.toDouble)
  let y : F32 := Binary.toFloat (r.toDouble * m.sin theta.toDouble)
  let vertices := push_back vertices x
  let vertices := push_back vertices y
  if gradient then
    let t : F32 := Binary.toFloat
      ((m.sin theta.toDouble + (1.0 : F32).toDouble) / (2.0 : F32).toDouble)
    push_back (push_back (push_back vertices (1.0 - t)) 0.0) 0.0
  else
    push_back (push_back (push_back vertices 1.0) 0.0) 0.0

/-- The function `buildCircle(vertices, segments, r, gradient)` of shapes.cpp: the new contents
of `vertices`. -/
def buildCircle (m : CMath F64) (vertices : List F32) (segments : Int) (r : F32)
    (gradient : Bool) : List F32 :=
  let vertices := clear vertices
  let vertices := push_back (push_back vertices 0.0) 0.0
  let vertices := push_back (push_back (push_back vertices 1.0) 0.0) 0.0
  forLE segments (buildCircle.body m segments r gradient) 0 vertices

/-- One pass of the body of the loop of `buildEllipse` (shapes.cpp, lines 106-111). -/
def buildEllipse.body (m : CMath F64) (segments : Int) (rx ry : F32) (i : Int)
    (vertices : List F32) : List F32 :=
  let theta : F32 := Binary.toFloat
    ((2.0 : F32).toDouble * m.M_PI * ((i : Int) : F32).toDouble /
      ((segments : Int) : F32).toDouble)
  let x : F32 := Binary.toFloat (rx.toDouble * m.cos theta.toDouble)
  let y : F32 := Binary.toFloat (ry.toDouble * m.sin theta.toDouble)
  let vertices := push_back vertices x
  let vertices := push_back vertices y
  push_back (push_back (push_back vertices 1.0) 0.0) 0.0

/-- The function `buildEllipse(vertices, segments, rx, ry)` of shapes.cpp: the new contents of
`vertices`. -/
def buildEllipse (m : CMath F64) (vertices : List F32) (segments : Int) (rx ry : F32) :
    List F32 :=
  let vertices := clear vertices
  let vertices := push_back (push_back vertices 0.0) 0.0
  let vertices := push_back (push_back (push_back vertices 1.0) 0.0) 0.0
  forLE segments (buildEllipse.body m segments rx ry) 0 vertices

end Shapes

namespace Creative

/-- One pass of the body of the loop of `buildCircle` (creative.cpp, lines 94-98); here `i`
and `segments` are converted from `int` to `double`. -/
def buildCircle.body (m : CMath F64) (segments : Int) (radius r g b : F32) (i : Int)
    (verts : List F32) : List F32 :=
  let theta : F32 := Binary.toFloat
    ((2.0 : F32).toDouble * m.M_PI * ((i : Int) : F64) / ((segments : Int) : F64))
  let x : F32 := Binary.toFloat (radius.toDouble * m.cos theta.toDouble)
  let y : F32 := Binary.toFloat (radius.toDouble * m.sin theta.toDouble)
  let verts := push_back (push_back verts x) y
  push_back (push_back (push_back verts r) g) b

/-- The function `buildCircle(segments, radius, r, g, b)` of creative.cpp. -/
def buildCircle (m : CMath F64) (segments : Int) (radius r g b : F32) : List F32 :=
  let verts : List F32 := []
  let verts := push_back (push_back verts 0.0) 0.0
  let verts := push_back (push_back (push_back verts r) g) b
  forLE segments (buildCircle.body m segments radius r g b) 0 verts

end Creative

end IEEE

/-- The closing angle: the `float` nearest to `2π`, `6.2831854820251465`. -/
def closingAngle : ℚ := 13176795 / 2097152

/-- A function `f` of `<cmath>` is accurate at the finite argument `x` when it returns a finite
value within `2^-40` of the value of the real function `g`. -/
def AccurateAt (f : F64 → F64) (g : ℝ → ℝ) (x : ℚ) : Prop :=
  ∃ y : ℚ, f ⟨.finite x⟩ = ⟨.finite y⟩ ∧ |(y : ℝ) - g (x : ℝ)| ≤ 1 / 2 ^ 40

/-- What is assumed of `<cmath>`: `M_PI` is the `double` given by the decimal literal of
`math.h`, and `cos` and `sin` are accurate at the two angles at which the first and the last
rim vertex are computed, `0` and `closingAngle`. -/
def CMath.Accurate (m : CMath F64) : Prop :=
  m.M_PI = 3.14159265358979323846 ∧
  AccurateAt m.cos Real.cos 0 ∧ AccurateAt m.cos Real.cos closingAngle ∧
  AccurateAt m.sin Real.sin 0 ∧ AccurateAt m.sin Real.sin closingAngle

/-- A stand-in for `<cmath>` that is accurate in the sense of `CMath.Accurate`: `cos` returns
1 and `sin` returns 0 at 0 and `1.7484556e-7` elsewhere. -/
def sampleMath : CMath F64 :=
  { M_PI := 3.14159265358979323846
    cos := fun _ => ⟨.finite 1⟩
    sin := fun x => if x = ⟨.finite 0⟩ then ⟨.finite 0⟩ else ⟨.finite (174845560 / 10 ^ 15)⟩ }

/-! ## The shaders -/

/-- The `main` of the GLSL text `vertexShaderSource` (the same statement in shapes.cpp, line 21,
and creative.cpp, line 18): from the attributes `vPos`, `vColor` and the uniforms `offset`,
`scale` to `gl_Position` and the varying `ourColor`. `vPos * scale` multiplies both components
by the scalar, `+ offset` adds componentwise, and `vec4(v, 0.0, 1.0)` appends the two
constants. -/
def vertexShaderMain {α : Type} [Field α] (vPos : α × α) (vColor : α × α × α)
    (offset : α × α) (scale : α) : (α × α × α × α) × (α × α × α) :=
  let scaled : α × α := (vPos.1 * scale, vPos.2 * scale)
  let moved : α × α := (scaled.1 + offset.1, scaled.2 + offset.2)
  let gl_Position : α × α × α × α := (moved.1, moved.2, 0.0, 1.0)
  let ourColor : α × α × α := vColor
  (gl_Position, ourColor)

/-- The `main` of the GLSL text `fragmentShaderSource`: `gl_FragColor = vec4(ourColor, 1.0)`. -/
def fragmentShaderMain {α : Type} [Field α] (ourColor : α × α × α) : α × α × α × α :=
  (ourColor.1, ourColor.2.1, ourColor.2.2, 1.0)

/-! ## OpenGL, GLFW and the process -/

/-- The two shader stages given to `glCreateShader`. -/
inductive ShaderType where
  | GL_VERTEX_SHADER
  | GL_FRAGMENT_SHADER
  deriving DecidableEq, Repr

/-- The two draw modes given to `glDrawArrays`. -/
inductive DrawMode where
  | GL_TRIANGLES
  | GL_TRIANGLE_FAN
  deriving DecidableEq, Repr

/-- A call into GLFW, GLAD or OpenGL, with the arguments that matter here. Calls that only ask
for a value (`glGetShaderiv`, `glGetShaderInfoLog`, `glGetProgramiv`, `glGetProgramInfoLog`,
`glGetUniformLocation`, `glfwWindowShouldClose`) are answered by the `Driver` and not
recorded. -/
inductive Call (α : Type) where
  | glfwInit
  | glfwWindowHint
  | glfwCreateWindow (width height : Nat) (title : String)
  | glfwMakeContextCurrent
  | gladLoadGLLoader
  | glfwTerminate
  | glfwSwapBuffers
  | glfwPollEvents
  | glCreateShader (type : ShaderType) (shader : Nat)
  | glShaderSource (shader : Nat) (source : String)
  | glCompileShader (shader : Nat)
  | glCreateProgram (program : Nat)
  | glAttachShader (program shader : Nat)
  | glBindAttribLocation (program index : Nat) (name : String)
  | glLinkProgram (program : Nat)
  | glDeleteShader (shader : Nat)
  | glUseProgram (program : Nat)
  | glGenBuffers (buffer : Nat)
  | glBindBuffer (buffer : Nat)
  | glBufferData (data : List α)
  | glClearColor (r g b a : α)
  | glClear
  | glUniform2f (location : Int) (x y : α)
  | glUniform1f (location : Int) (x : α)
  | glVertexAttribPointer (index size strideFloats offsetFloats : Nat)
  | glEnableVertexAttribArray (index : Nat)
  | glDrawArrays (mode : DrawMode) (first count : Int)

/-- What a `glDrawArrays` call finds when it is made. -/
structure Draw where
  /-- The program made current by the last `glUseProgram`. -/
  program : Nat
  /-- The buffer bound to `GL_ARRAY_BUFFER`. -/
  buffer : Nat
  /-- The number of floats in the data store of that buffer. -/
  stored : Nat
  /-- The `mode` argument. -/
  mode : DrawMode
  /-- The `count` argument. -/
  count : Int
  deriving DecidableEq, Repr

/-- The answers of the window system and of the OpenGL driver. -/
structure Driver where
  /-- Whether `glfwCreateWindow` returns a window. -/
  window : Bool
  /-- Whether `gladLoadGLLoader` succeeds. -/
  loader : Bool
  /-- The `GL_COMPILE_STATUS` of a shader of this type compiled from this source. -/
  compileStatus : ShaderType → String → Bool
  /-- The text `glGetShaderInfoLog` writes into the 512-byte `infoLog` for that shader. -/
  shaderInfoLog : ShaderType → String → String
  /-- The `GL_LINK_STATUS` of the program linked from these vertex and fragment sources. -/
  linkStatus : String → String → Bool
  /-- The text `glGetProgramInfoLog` writes into `infoLog` for that program. -/
  programInfoLog : String → String → String
  /-- The answer of `glGetUniformLocation(program, name)`. -/
  uniformLocation : Nat → String → Int
  /-- How many times `glfwWindowShouldClose` answers false before it answers true. -/
  frames : Nat

/-- The state of the process: standard error, the calls made so far (oldest first), and the
part of the OpenGL context the draw calls depend on. -/
structure World (α : Type) where
  /-- The text written to `std::cerr`. -/
  cerr : String
  /-- The calls made so far, oldest first. -/
  calls : List (Call α)
  /-- The number of object names handed out so far; names are `1, 2, 3, ...`. -/
  names : Nat
  /-- The current program (`0`: none). -/
  currentProgram : Nat
  /-- The buffer bound to `GL_ARRAY_BUFFER` (`0`: none). -/
  arrayBuffer : Nat
  /-- The data stores of the buffer objects, newest first. -/
  buffers : List (Nat × List α)
  /-- One record per `glDrawArrays` call, oldest first. -/
  draws : List Draw

/-- The state in which `main` starts. -/
def World.start {α : Type} : World α :=
  { cerr := "", calls := [], names := 0, currentProgram := 0, arrayBuffer := 0,
    buffers := [], draws := [] }

/-- Records a call that changes nothing else in the modelled state. -/
def call {α : Type} (c : Call α) (w : World α) : World α :=
  { w with calls := w.calls ++ [c] }

/-- The statement `std::cerr << text`. -/
def cerrWrite {α : Type} (text : String) (w : World α) : World α :=
  { w with cerr := w.cerr ++ text }

/-- Hands out a fresh object name. -/
def freshName {α : Type} (w : World α) : Nat × World α :=
  (w.names + 1, { w with names := w.names + 1 })

/-- The call `glCreateShader(type)`. -/
def glCreateShader {α : Type} (type : ShaderType) (w : World α) : Nat × World α :=
  let (shader, w) := freshName w
  (shader, call (.glCreateShader type shader) w)

/-- The call `glCreateProgram()`. -/
def glCreateProgram {α : Type} (w : World α) : Nat × World α :=
  let (program, w) := freshName w
  (program, call (.glCreateProgram program) w)

/-- The call `glUseProgram(program)`. -/
def glUseProgram {α : Type} (program : Nat) (w : World α) : World α :=
  call (.glUseProgram program) { w with currentProgram := program }

/-- The call `glGenBuffers(1, &VBO)`. -/
def glGenBuffers {α : Type} (w : World α) : Nat × World α :=
  let (buffer, w) := freshName w
  (buffer, call (.glGenBuffers buffer) w)

/-- The call `glBindBuffer(GL_ARRAY_BUFFER, buffer)`. -/
def glBindBuffer {α : Type} (buffer : Nat) (w : World α) : World α :=
  call (.glBindBuffer buffer) { w with arrayBuffer := buffer }

/-- The call `glBufferData(GL_ARRAY_BUFFER, size, data, GL_STATIC_DRAW)`: a new data store for
the bound buffer. -/
def glBufferData {α : Type} (data : List α) (w : World α) : World α :=
  call (.glBufferData data) { w with buffers := (w.arrayBuffer, data) :: w.buffers }

/-- The data store of a buffer (empty when it has none). -/
def World.dataOf {α : Type} (w : World α) (buffer : Nat) : List α :=
  (w.buffers.lookup buffer).getD []

/-- The call `glDrawArrays(mode, 0, count)`. -/
def glDrawArrays {α : Type} (mode : DrawMode) (count : Int) (w : World α) : World α :=
  let draw : Draw :=
    { program := w.currentProgram, buffer := w.arrayBuffer,
      stored := (w.dataOf w.arrayBuffer).length, mode := mode, count := count }
  call (.glDrawArrays mode 0 count) { w with draws := w.draws ++ [draw] }

/-- The loop `while (!glfwWindowShouldClose(window)) body`, when the window system answers
false `frames` times and then true. -/
def whileOpen {α : Type} (body : World α → World α) : Nat → World α → World α
  | 0, w => w
  | frames + 1, w => whileOpen body frames (body w)

/-! ## `shapes.cpp`: shader program, buffers and `main` -/

namespace Shapes

/-- The constant `vertexShaderSource` of shapes.cpp. -/
def vertexShaderSource : String :=
  "\n#version 130\nattribute vec2 vPos;\nattribute vec3 vColor;\nvarying vec3 ourColor;\n\n" ++
  "uniform vec2 offset;\nuniform float scale;\n\nvoid main() \x7b\n" ++
  "    gl_Position = vec4((vPos * scale) + offset, 0.0, 1.0);\n    ourColor = vColor;\n\x7d\n"

/-- The constant `fragmentShaderSource` of shapes.cpp. -/
def fragmentShaderSource : String :=
  "\n#version 130\nvarying vec3 ourColor;\nvoid main() \x7b\n" ++
  "    gl_FragColor = vec4(ourColor, 1.0);\n\x7d\n"

/-- The function `createShaderProgram(vSource, fSource)` of shapes.cpp: the program name it
returns and the state it leaves. -/
def createShaderProgram {α : Type} (d : Driver) (vSource fSource : String) (w : World α) :
    Nat × World α :=
  let (vertexShader, w) := glCreateShader .GL_VERTEX_SHADER w
  let w := call (.glShaderSource vertexShader vSource) w
  let w := call (.glCompileShader vertexShader) w
  let success := d.compileStatus .GL_VERTEX_SHADER vSource
  let w :=
    if !success then
      let infoLog := d.shaderInfoLog .GL_VERTEX_SHADER vSource
      cerrWrite ("Vertex shader compile error:\n" ++ infoLog ++ "\n") w
    else w
  let (fragmentShader, w) := glCreateShader .GL_FRAGMENT_SHADER w
  let w := call (.glShaderSource fragmentShader fSource) w
  let w := call (.glCompileShader fragmentShader) w
  let success := d.compileStatus .GL_FRAGMENT_SHADER fSource
  let w :=
    if !success then
      let infoLog := d.shaderInfoLog .GL_FRAGMENT_SHADER fSource
      cerrWrite ("Fragment shader compile error:\n" ++ infoLog ++ "\n") w
    else w
  let (shaderProgram, w) := glCreateProgram w
  let w := call (.glAttachShader shaderProgram vertexShader) w
  let w := call (.glAttachShader shaderProgram fragmentShader) w
  let w := call (.glBindAttribLocation shaderProgram 0 "vPos") w
  let w := call (.glBindAttribLocation shaderProgram 1 "vColor") w
  let w := call (.glLinkProgram shaderProgram) w
  let success := d.linkStatus vSource fSource
  let w :=
    if !success then
      let infoLog := d.programInfoLog vSource fSource
      cerrWrite ("Shader link error:\n" ++ infoLog ++ "\n") w
    else w
  let w := call (.glDeleteShader vertexShader) w
  let w := call (.glDeleteShader fragmentShader) w
  (shaderProgram, w)

/-- The function `createVBO(vertices)` of shapes.cpp. -/
def createVBO {α : Type} (vertices : List α) (w : World α) : Nat × World α :=
  let (VBO, w) := glGenBuffers w
  let w := glBindBuffer VBO w
  let w := glBufferData vertices w
  (VBO, w)

/-- The four calls that set the attribute layout before each draw in `main` of shapes.cpp. -/
def attribPointers {α : Type} (w : World α) : World α :=
  let w := call (.glVertexAttribPointer 0 2 5 0) w
  let w := call (.glEnableVertexAttribArray 0) w
  let w := call (.glVertexAttribPointer 1 3 5 2) w
  call (.glEnableVertexAttribArray 1) w

/-- One pass of the body of the `while` loop of `main` of shapes.cpp (lines 183-225). -/
def frame {α : Type} [Field α] (ellipseVerts triangleVerts circleVerts squareVerts : List α)
    (ellipseVBO triangleVBO circleVBO squareVBO : Nat) (offsetLoc scaleLoc : Int)
    (w : World α) : World α :=
  let w := call (.glClearColor 0.0 0.0 0.0 1.0) w
  let w := call .glClear w
  -- Ellipse
  let w := call (.glUniform2f offsetLoc (-0.7) 0.8) w
  let w := call (.glUniform1f scaleLoc 1.0) w
  let w := glBindBuffer ellipseVBO w
  let w := attribPointers w
  let w := glDrawArrays .GL_TRIANGLE_FAN ((ellipseVerts.length / 5 : Nat) : Int) w
  -- Triangle
  let w := call (.glUniform2f offsetLoc 0.0 0.8) w
  let w := glBindBuffer triangleVBO w
  let w := attribPointers w
  let w := glDrawArrays .GL_TRIANGLES ((triangleVerts.length / 5 : Nat) : Int) w
  -- Circle
  let w := call (.glUniform2f offsetLoc 0.7 0.8) w
  let w := glBindBuffer circleVBO w
  let w := attribPointers w
  let w := glDrawArrays .GL_TRIANGLE_FAN ((circleVerts.length / 5 : Nat) : Int) w
  -- Zebra Square
  let w := call (.glUniform2f offsetLoc 0.0 (-0.2)) w
  let w := call (.glUniform1f scaleLoc 0.8) w
  let w := glBindBuffer squareVBO w
  let w := attribPointers w
  let w := glDrawArrays .GL_TRIANGLES ((squareVerts.length / 5 : Nat) : Int) w
  let w := call .glfwSwapBuffers w
  call .glfwPollEvents w

/-- The function `main` of shapes.cpp: its return value and the state it leaves. -/
def main {α : Type} [Field α] (m : CMath α) (d : Driver) : Int × World α :=
  let w : World α := World.start
  let w := call .glfwInit w
  let w := call .glfwWindowHint w
  let w := call .glfwWindowHint w
  let w := call (.glfwCreateWindow 500 500 "Figures (GLSL 130)") w
  if !d.window then
    let w := cerrWrite "Failed to create GLFW window\n" w
    let w := call .glfwTerminate w
    (-1, w)
  else
  let w := call .glfwMakeContextCurrent w
  let w := call .gladLoadGLLoader w
  if !d.loader then
    let w := cerrWrite "Failed to init GLAD\n" w
    (-1, w)
  else
  let (shaderProgram, w) := createShaderProgram d vertexShaderSource fragmentShaderSource w
  let w := glUseProgram shaderProgram w
  let ellipseVerts : List α := []
  let triangleVerts : List α := []
  let circleVerts : List α := []
  let squareVerts : List α := []
  let ellipseVerts := buildEllipse m ellipseVerts 64 0.25 0.15
  let triangleVerts := buildTriangle triangleVerts
  let circleVerts := buildCircle m circleVerts 64 0.2 true
  let squareVerts := buildZebraSquare squareVerts 8
  let (ellipseVBO, w) := createVBO ellipseVerts w
  let (triangleVBO, w) := createVBO triangleVerts w
  let (circleVBO, w) := createVBO circleVerts w
  let (squareVBO, w) := createVBO squareVerts w
  let offsetLoc := d.uniformLocation shaderProgram "offset"
  let scaleLoc := d.uniformLocation shaderProgram "scale"
  let w := whileOpen (frame ellipseVerts triangleVerts circleVerts squareVerts
    ellipseVBO triangleVBO circleVBO squareVBO offsetLoc scaleLoc) d.frames w
  let w := call .glfwTerminate w
  (0, w)

end Shapes

/-! ## `creative.cpp`: shader program, buffers and `main` -/

namespace Creative

/-- The constant `vertexShaderSource` of creative.cpp. -/
def vertexShaderSource : String :=
  "\n#version 130\nattribute vec2 vPos;\nattribute vec3 vColor;\nvarying vec3 ourColor;\n" ++
  "uniform vec2 offset;\nuniform float scale;\nvoid main() \x7b\n" ++
  "    gl_Position = vec4((vPos * scale) + offset, 0.0, 1.0);\n    ourColor = vColor;\n\x7d\n"

/-- The constant `fragmentShaderSource` of creative.cpp. -/
def fragmentShaderSource : String :=
  "\n#version 130\nvarying vec3 ourColor;\nvoid main() \x7b\n" ++
  "    gl_FragColor = vec4(ourColor, 1.0);\n\x7d\n"

/-- The function `createShaderProgram(vSource, fSource)` of creative.cpp: the program name it
returns and the state it leaves. -/
def createShaderProgram {α : Type} (d : Driver) (vSource fSource : String) (w : World α) :
    Nat × World α :=
  let (vShader, w) := glCreateShader .GL_VERTEX_SHADER w
  let w := call (.glShaderSource vShader vSource) w
  let w := call (.glCompileShader vShader) w
  let success := d.compileStatus .GL_VERTEX_SHADER vSource
  let w :=
    if !success then
      let infoLog := d.shaderInfoLog .GL_VERTEX_SHADER vSource
      cerrWrite ("Vertex shader error:\n" ++ infoLog ++ "\n") w
    else w
  let (fShader, w) := glCreateShader .GL_FRAGMENT_SHADER w
  let w := call (.glShaderSource fShader fSource) w
  let w := call (.glCompileShader fShader) w
  let success := d.compileStatus .GL_FRAGMENT_SHADER fSource
  let w :=
    if !success then
      let infoLog := d.shaderInfoLog .GL_FRAGMENT_SHADER fSource
      cerrWrite ("Fragment shader error:\n" ++ infoLog ++ "\n") w
    else w
  let (prog, w) := glCreateProgram w
  let w := call (.glAttachShader prog vShader) w
  let w := call (.glAttachShader prog fShader) w
  let w := call (.glBindAttribLocation prog 0 "vPos") w
  let w := call (.glBindAttribLocation prog 1 "vColor") w
  let w := call (.glLinkProgram prog) w
  let success := d.linkStatus vSource fSource
  let w :=
    if !success then
      let infoLog := d.programInfoLog vSource fSource
      cerrWrite ("Shader link error:\n" ++ infoLog ++ "\n") w
    else w
  let w := call (.glDeleteShader vShader) w
  let w := call (.glDeleteShader fShader) w
  (prog, w)

/-- The function `createVBO(vertices)` of creative.cpp. -/
def createVBO {α : Type} (vertices : List α) (w : World α) : Nat × World α :=
  let (VBO, w) := glGenBuffers w
  let w := glBindBuffer VBO w
  let w := glBufferData vertices w
  (VBO, w)

/-- The function `drawVBO(VBO, count, mode)` of creative.cpp. -/
def drawVBO {α : Type} (VBO : Nat) (count : Int) (mode : DrawMode) (w : World α) : World α :=
  let w := glBindBuffer VBO w
  let w := call (.glVertexAttribPointer 0 2 5 0) w
  let w := call (.glEnableVertexAttribArray 0) w
  let w := call (.glVertexAttribPointer 1 3 5 2) w
  let w := call (.glEnableVertexAttribArray 1) w
  glDrawArrays mode count w

/-- One pass of the body of the `while` loop of `main` of creative.cpp (lines 155-186). -/
def frame {α : Type} [Field α] (table leg : List α)
    (tableVBO legVBO redVBO greenVBO blueVBO circleVBO triangleVBO : Nat)
    (offsetLoc scaleLoc : Int) (w : World α) : World α :=
  let w := call (.glClearColor 0.8 0.9 1.0 1.0) w
  let w := call .glClear w
  -- Table top
  let w := call (.glUniform2f offsetLoc 0.0 (-0.6)) w
  let w := call (.glUniform1f scaleLoc 1.0) w
  let w := drawVBO tableVBO ((table.length / 5 : Nat) : Int) .GL_TRIANGLES w
  -- Table legs
  let w := call (.glUniform2f offsetLoc (-0.8) (-0.9)) w
  let w := drawVBO legVBO ((leg.length / 5 : Nat) : Int) .GL_TRIANGLES w
  let w := call (.glUniform2f offsetLoc 0.8 (-0.9)) w
  let w := drawVBO legVBO ((leg.length / 5 : Nat) : Int) .GL_TRIANGLES w
  -- Blocks on table
  let w := call (.glUniform2f offsetLoc (-0.4) (-0.4)) w
  let w := drawVBO redVBO 6 .GL_TRIANGLES w
  let w := call (.glUniform2f offsetLoc 0.0 (-0.4)) w
  let w := drawVBO greenVBO 6 .GL_TRIANGLES w
  let w := call (.glUniform2f offsetLoc 0.4 (-0.4)) w
  let w := drawVBO blueVBO 6 .GL_TRIANGLES w
  -- Circle on table
  let w := call (.glUniform2f offsetLoc (-0.6) (-0.4)) w
  let w := drawVBO circleVBO 42 .GL_TRIANGLE_FAN w
  -- Triangle on table
  let w := call (.glUniform2f offsetLoc 0.6 (-0.4)) w
  let w := drawVBO triangleVBO 3 .GL_TRIANGLES w
  let w := call .glfwSwapBuffers w
  call .glfwPollEvents w

/-- The function `main` of creative.cpp: its return value and the state it leaves. -/
def main {α : Type} [Field α] (m : CMath α) (d : Driver) : Int × World α :=
  let w : World α := World.start
  let w := call .glfwInit w
  let w := call .glfwWindowHint w
  let w := call .glfwWindowHint w
  let w := call (.glfwCreateWindow 600 600 "Table with Blocks") w
  if !d.window then
    let w := cerrWrite "Failed to create GLFW window\n" w
    let w := call .glfwTerminate w
    (-1, w)
  else
  let w := call .glfwMakeContextCurrent w
  let w := call .gladLoadGLLoader w
  if !d.loader then
    let w := cerrWrite "Failed to init GLAD\n" w
    (-1, w)
  else
  let (shaderProgram, w) := createShaderProgram d vertexShaderSource fragmentShaderSource w
  let w := glUseProgram shaderProgram w
  -- Table top
  let table : List α := buildRectangle 0.9 0.1 0.6 0.3 0.0
  let (tableVBO, w) := createVBO table w
  -- Table leg
  let leg : List α := buildRectangle 0.05 0.3 0.4 0.2 0.0
  let (legVBO, w) := createVBO leg w
  -- Blocks
  let (redVBO, w) := createVBO (buildRectangle 0.15 0.15 1.0 0.0 0.0) w
  let (greenVBO, w) := createVBO (buildRectangle 0.1 0.2 0.0 1.0 0.0) w
  let (blueVBO, w) := createVBO (buildRectangle 0.2 0.1 0.0 0.0 1.0) w
  -- Extra shapes
  let (circleVBO, w) := createVBO (buildCircle m 40 0.12 1.0 1.0 0.0) w
  let (triangleVBO, w) := createVBO (buildTriangle 0.15 1.0 0.0 1.0) w
  let offsetLoc := d.uniformLocation shaderProgram "offset"
  let scaleLoc := d.uniformLocation shaderProgram "scale"
  let w := whileOpen (frame table leg tableVBO legVBO redVBO greenVBO blueVBO circleVBO
    triangleVBO offsetLoc scaleLoc) d.frames w
  let w := call .glfwTerminate w
  (0, w)

end Creative

/-! ## Two drivers -/

/-- A driver that rejects every vertex shader with the log `"0:1(1): error: syntax error"`,
accepts every fragment shader, fails to link, knows no uniform, and keeps the window open for
one frame. -/
def rejectingDriver : Driver :=
  { window := true
    loader := true
    compileStatus := fun type _ => type != .GL_VERTEX_SHADER
    shaderInfoLog := fun type _ =>
      if type = .GL_VERTEX_SHADER then "0:1(1): error: syntax error" else ""
    linkStatus := fun _ _ => false
    programInfoLog := fun _ _ => "error: linking with uncompiled shader"
    uniformLocation := fun _ _ => -1
    frames := 1 }

/-- A driver that accepts and links every shader and keeps the window open for one frame. -/
def acceptingDriver : Driver :=
  { window := true
    loader := true
    compileStatus := fun _ _ => true
    shaderInfoLog := fun _ _ => ""
    linkStatus := fun _ _ => true
    programInfoLog := fun _ _ => ""
    uniformLocation := fun _ name => if name = "offset" then 0 else 1
    frames := 1 }

/-! ## Loop lemmas -/

theorem forLE_stop {σ : Type} (segments : Int) (body : Int → σ → σ) (i : Int) (s : σ)
    (h : segments < i) : forLE segments body i s = s := by
  rw [forLE, if_neg (by omega)]

theorem forLE_step {σ : Type} (segments : Int) (body : Int → σ → σ) (i : Int) (s : σ)
    (h : i ≤ segments) : forLE segments body i s = forLE segments body (i + 1) (body i s) := by
  rw [forLE, if_pos h]

theorem forLT_stop {σ : Type} (layers : Int) (body : Int → σ → σ) (i : Int) (s : σ)
    (h : layers ≤ i) : forLT layers body i s = s := by
  rw [forLT, if_neg (by omega)]

theorem forLT_step {σ : Type} (layers : Int) (body : Int → σ → σ) (i : Int) (s : σ)
    (h : i < layers) : forLT layers body i s = forLT layers body (i + 1) (body i s) := by
  rw [forLT, if_pos h]

theorem blocks_succ_left {α : Type} (f : Int → List α) (i : Int) (n : Nat) :
    blocks f i (n + 1) = f i ++ blocks f (i + 1) n := by
  unfold blocks
  induction n with
  | zero => simp [List.range_succ]
  | succ n ih =>
    rw [List.range_succ, List.flatMap_append, ih, List.range_succ, List.flatMap_append,
      List.append_assoc]
    congr 2
    simp only [List.flatMap_cons, List.flatMap_nil, List.append_nil]
    congr 1
    push_cast
    ring

theorem forLE_blocks {α : Type} (segments : Int) (body : Int → List α → List α)
    (f : Int → List α) (hbody : ∀ i vs, body i vs = vs ++ f i) (n : Nat) :
    ∀ (i : Int) (vs : List α), (segments + 1 - i).toNat = n →
      forLE segments body i vs = vs ++ blocks f i n := by
  induction n with
  | zero =>
    intro i vs h
    rw [forLE_stop _ _ _ _ (by omega)]
    simp [blocks]
  | succ n ih =>
    intro i vs h
    rw [forLE_step _ _ _ _ (by omega), ih (i + 1) _ (by omega), hbody, blocks_succ_left,
      List.append_assoc]

theorem forLT_blocks {α : Type} (layers : Int) (body : Int → List α → List α)
    (f : Int → List α) (hbody : ∀ i vs, body i vs = vs ++ f i) (n : Nat) :
    ∀ (i : Int) (vs : List α), (layers - i).toNat = n →
      forLT layers body i vs = vs ++ blocks f i n := by
  induction n with
  | zero =>
    intro i vs h
    rw [forLT_stop _ _ _ _ (by omega)]
    simp [blocks]
  | succ n ih =>
    intro i vs h
    rw [forLT_step _ _ _ _ (by omega), ih (i + 1) _ (by omega), hbody, blocks_succ_left,
      List.append_assoc]

theorem blocks_length {α : Type} (f : Int → List α) (c : Nat) (hf : ∀ i, (f i).length = c)
    (i : Int) (n : Nat) : (blocks f i n).length = c * n := by
  induction n generalizing i with
  | zero => simp [blocks]
  | succ n ih =>
    rw [blocks_succ_left, List.length_append, hf, ih]
    ring

theorem blocks_drop_take {α : Type} (f : Int → List α) (c : Nat)
    (hf : ∀ i, (f i).length = c) (n : Nat) :
    ∀ (i : Int) (k : Nat), k < n →
      ((blocks f i n).drop (c * k)).take c = f (i + (k : Int)) := by
  induction n with
  | zero => intro i k hk; omega
  | succ n ih =>
    intro i k hk
    rw [blocks_succ_left]
    cases k with
    | zero =>
      simp only [Nat.mul_zero, List.drop_zero, Nat.cast_zero, add_zero]
      rw [List.take_append_of_le_length (by rw [hf]), ← hf i, List.take_length]
    | succ k =>
      have h1 : c * (k + 1) = (f i).length + c * k := by rw [hf]; ring
      rw [h1, List.drop_append, ih (i + 1) k (by omega)]
      congr 1
      push_cast
      ring

/-! ## Closed forms of the builders -/

theorem vertexAt_head {α : Type} (c rest : List α) (hc : c.length = 5) :
    vertexAt (c ++ rest) 0 = c := by
  unfold vertexAt
  rw [Nat.mul_zero, List.drop_zero, List.take_append_of_le_length (by omega), ← hc,
    List.take_length]

theorem vertexAt_fan {α : Type} (c : List α) (f : Int → List α) (hc : c.length = 5)
    (hf : ∀ i, (f i).length = 5) (n k : Nat) (hk : k < n) :
    vertexAt (c ++ blocks f 0 n) (k + 1) = f (k : Int) := by
  unfold vertexAt
  have h1 : 5 * (k + 1) = c.length + 5 * k := by omega
  rw [h1, List.drop_append, blocks_drop_take f 5 hf n 0 k hk, zero_add]

theorem shapes_buildCircle_eq {α : Type} [Field α] (m : CMath α) (vertices : List α)
    (segments : Int) (r : α) (gradient : Bool) :
    Shapes.buildCircle m vertices segments r gradient =
      [0, 0, 1, 0, 0] ++
        blocks (fun i => Shapes.buildCircle.body m segments r gradient i []) 0
          (segments + 1).toNat := by
  unfold Shapes.buildCircle
  refine forLE_blocks segments _ _ ?_ _ 0 _ (by simp)
  intro i vs
  cases gradient <;> simp [Shapes.buildCircle.body, push_back]

theorem shapes_buildEllipse_eq {α : Type} [Field α] (m : CMath α) (vertices : List α)
    (segments : Int) (rx ry : α) :
    Shapes.buildEllipse m vertices segments rx ry =
      [0, 0, 1, 0, 0] ++
        blocks (fun i => Shapes.buildEllipse.body m segments rx ry i []) 0
          (segments + 1).toNat := by
  unfold Shapes.buildEllipse
  refine forLE_blocks segments _ _ ?_ _ 0 _ (by simp)
  intro i vs
  simp [Shapes.buildEllipse.body, push_back]

theorem creative_buildCircle_eq {α : Type} [Field α] (m : CMath α) (segments : Int)
    (radius r g b : α) :
    Creative.buildCircle m segments radius r g b =
      [0, 0, r, g, b] ++
        blocks (fun i => Creative.buildCircle.body m segments radius r g b i []) 0
          (segments + 1).toNat := by
  unfold Creative.buildCircle
  refine forLE_blocks segments _ _ ?_ _ 0 _ (by simp)
  intro i vs
  simp [Creative.buildCircle.body, push_back]

theorem shapes_buildZebraSquare_eq {α : Type} [OfScientific α] [IntCast α] [Mul α] [Sub α] [Neg α] [Div α]
    (vertices : List α) (layers : Int) :
    Shapes.buildZebraSquare vertices layers =
      blocks (fun i => Shapes.buildZebraSquare.body (0.9 / (layers : α)) i []) 0
        layers.toNat := by
  unfold Shapes.buildZebraSquare
  have h := forLT_blocks layers (Shapes.buildZebraSquare.body (0.9 / (layers : α)))
    (fun i => Shapes.buildZebraSquare.body (0.9 / (layers : α)) i []) (by
      intro i vs
      simp [Shapes.buildZebraSquare.body, insert_end]) layers.toNat 0 (clear vertices) (by simp)
  simpa [clear] using h

theorem shapes_circle_body_length {α : Type} [Field α] (m : CMath α) (segments : Int) (r : α)
    (gradient : Bool) (i : Int) :
    (Shapes.buildCircle.body m segments r gradient i []).length = 5 := by
  cases gradient <;> simp [Shapes.buildCircle.body, push_back]

theorem shapes_ellipse_body_length {α : Type} [Field α] (m : CMath α) (segments : Int)
    (rx ry : α) (i : Int) : (Shapes.buildEllipse.body m segments rx ry i []).length = 5 := by
  simp [Shapes.buildEllipse.body, push_back]

theorem creative_circle_body_length {α : Type} [Field α] (m : CMath α) (segments : Int)
    (radius r g b : α) (i : Int) :
    (Creative.buildCircle.body m segments radius r g b i []).length = 5 := by
  simp [Creative.buildCircle.body, push_back]

theorem shapes_zebra_body_length {α : Type} [OfScientific α] [IntCast α] [Mul α] [Sub α] [Neg α]
    (step : α) (i : Int) :
    (Shapes.buildZebraSquare.body step i []).length = 30 := by
  simp [Shapes.buildZebraSquare.body, insert_end]

theorem shapes_buildCircle_length {α : Type} [Field α] (m : CMath α) (vertices : List α)
    (segments : Int) (r : α) (gradient : Bool) :
    (Shapes.buildCircle m vertices segments r gradient).length =
      5 + 5 * (segments + 1).toNat := by
  rw [shapes_buildCircle_eq, List.length_append,
    blocks_length _ 5 (shapes_circle_body_length m segments r gradient)]
  rfl

theorem shapes_buildEllipse_length {α : Type} [Field α] (m : CMath α) (vertices : List α)
    (segments : Int) (rx ry : α) :
    (Shapes.buildEllipse m vertices segments rx ry).length = 5 + 5 * (segments + 1).toNat := by
  rw [shapes_buildEllipse_eq, List.length_append,
    blocks_length _ 5 (shapes_ellipse_body_length m segments rx ry)]
  rfl

theorem creative_buildCircle_length {α : Type} [Field α] (m : CMath α) (segments : Int)
    (radius r g b : α) :
    (Creative.buildCircle m segments radius r g b).length = 5 + 5 * (segments + 1).toNat := by
  rw [creative_buildCircle_eq, List.length_append,
    blocks_length _ 5 (creative_circle_body_length m segments radius r g b)]
  rfl

theorem shapes_buildZebraSquare_length {α : Type} [OfScientific α] [IntCast α] [Mul α] [Sub α] [Neg α] [Div α]
    (vertices : List α) (layers : Int) :
    (Shapes.buildZebraSquare vertices layers).length = 30 * layers.toNat := by
  rw [shapes_buildZebraSquare_eq, blocks_length _ 30 (shapes_zebra_body_length _)]

theorem shapes_buildCircle_rim {α : Type} [Field α] (m : CMath α) (vertices : List α)
    (segments : Int) (r : α) (gradient : Bool) (i : Nat) (hi : (i : Int) ≤ segments) :
    vertexAt (Shapes.buildCircle m vertices segments r gradient) (i + 1) =
      Shapes.buildCircle.body m segments r gradient i [] := by
  rw [shapes_buildCircle_eq]
  exact vertexAt_fan _ _ (by rfl) (shapes_circle_body_length m segments r gradient) _ i (by omega)

theorem shapes_buildEllipse_rim {α : Type} [Field α] (m : CMath α) (vertices : List α)
    (segments : Int) (rx ry : α) (i : Nat) (hi : (i : Int) ≤ segments) :
    vertexAt (Shapes.buildEllipse m vertices segments rx ry) (i + 1) =
      Shapes.buildEllipse.body m segments rx ry i [] := by
  rw [shapes_buildEllipse_eq]
  exact vertexAt_fan _ _ (by rfl) (shapes_ellipse_body_length m segments rx ry) _ i (by omega)

theorem creative_buildCircle_rim {α : Type} [Field α] (m : CMath α) (segments : Int)
    (radius r g b : α) (i : Nat) (hi : (i : Int) ≤ segments) :
    vertexAt (Creative.buildCircle m segments radius r g b) (i + 1) =
      Creative.buildCircle.body m segments radius r g b i [] := by
  rw [creative_buildCircle_eq]
  exact vertexAt_fan _ _ (by rfl) (creative_circle_body_length m segments radius r g b) _ i
    (by omega)

theorem vertexAt_quads {α : Type} (f : Int → List α) (hf : ∀ i, (f i).length = 30)
    (n i j : Nat) (hi : i < n) (hj : j < 6) :
    vertexAt (blocks f 0 n) (6 * i + j) = vertexAt (f (i : Int)) j := by
  unfold vertexAt
  have hb := blocks_drop_take f 30 hf n 0 i hi
  rw [zero_add] at hb
  rw [← hb, List.drop_take, List.take_take, List.drop_drop]
  have h1 : 5 * (6 * i + j) = 30 * i + 5 * j := by ring
  have h2 : min 5 (30 - 5 * j) = 5 := by omega
  rw [h1, h2]

theorem zebra_color_parity {α : Type} [OfScientific α] (i : Nat) :
    (if Int.tmod (i : Int) 2 = 0 then (1.0 : α) else 0.0) = if i % 2 = 0 then 1.0 else 0.0 := by
  have h : Int.tmod (i : Int) 2 = 0 ↔ i % 2 = 0 := by
    rw [Int.tmod_eq_emod (by omega) (by omega)]
    omega
  by_cases hp : i % 2 = 0
  · rw [if_pos (h.mpr hp), if_pos hp]
  · rw [if_neg (fun hq => hp (h.mp hq)), if_neg hp]

theorem zebra_quad {α : Type} [OfScientific α] [IntCast α] [Mul α] [Sub α] [Neg α] [Div α]
    (vertices : List α) (layers : Int) (i j : Nat)
    (hi : (i : Int) < layers) (hj : j < 6) :
    vertexAt (Shapes.buildZebraSquare vertices layers) (6 * i + j) =
      vertexAt (Shapes.buildZebraSquare.body (0.9 / (layers : α)) i []) j := by
  rw [shapes_buildZebraSquare_eq]
  exact vertexAt_quads _ (shapes_zebra_body_length _) _ i j (by omega) hj

/-! ## The claims -/

/-- C1: for every `segments ≥ 3` and every radius, `buildCircle` of shapes.cpp with
`gradient = false` and `buildCircle` of creative.cpp each produce `5 * (segments + 2)` floats,
that is `segments + 2` vertices: vertex 0 is the centre at `(0, 0)`, and vertices
`1 .. segments + 1` are the rim, vertex `i + 1` at `(r cos θ, r sin θ)` for
`θ = 2π i / segments`. -/
theorem circle_vertex_count {α : Type} [Field α] (m : CMath α) (vertices : List α)
    (segments : Int) (radius r g b : α) (h : 3 ≤ segments) :
    (((Shapes.buildCircle m vertices segments radius false).length : Int) = 5 * (segments + 2) ∧
      positionAt (Shapes.buildCircle m vertices segments radius false) 0 = [0, 0] ∧
      ∀ i : Nat, (i : Int) ≤ segments →
        positionAt (Shapes.buildCircle m vertices segments radius false) (i + 1) =
          [radius * m.cos (2 * m.M_PI * (i : α) / (segments : α)),
           radius * m.sin (2 * m.M_PI * (i : α) / (segments : α))]) ∧
    (((Creative.buildCircle m segments radius r g b).length : Int) = 5 * (segments + 2) ∧
      positionAt (Creative.buildCircle m segments radius r g b) 0 = [0, 0] ∧
      ∀ i : Nat, (i : Int) ≤ segments →
        positionAt (Creative.buildCircle m segments radius r g b) (i + 1) =
          [radius * m.cos (2 * m.M_PI * (i : α) / (segments : α)),
           radius * m.sin (2 * m.M_PI * (i : α) / (segments : α))]) := by
  refine ⟨⟨?_, ?_, ?_⟩, ?_, ?_, ?_⟩
  · rw [shapes_buildCircle_length]
    omega
  · rw [shapes_buildCircle_eq]
    unfold positionAt
    rw [vertexAt_head _ _ (by rfl)]
    rfl
  · intro i hi
    unfold positionAt
    rw [shapes_buildCircle_rim m vertices segments radius false i hi]
    simp [Shapes.buildCircle.body, push_back]
  · rw [creative_buildCircle_length]
    omega
  · rw [creative_buildCircle_eq]
    unfold positionAt
    rw [vertexAt_head _ _ (by rfl)]
    rfl
  · intro i hi
    unfold positionAt
    rw [creative_buildCircle_rim m segments radius r g b i hi]
    simp [Creative.buildCircle.body, push_back]

/-- Witness of C1: the statement at `segments = 3` over the rationals. -/
theorem circle_vertex_count_witness :
    (3 : Int) ≤ 3 ∧
    ((Shapes.buildCircle (⟨3, fun _ => 1, fun _ => 0⟩ : CMath ℚ) [7] 3 2 false).length : Int)
      = 5 * (3 + 2) :=
  ⟨by decide,
    (circle_vertex_count (⟨3, fun _ => 1, fun _ => 0⟩ : CMath ℚ) [7] 3 2 1 1 0
      (by decide)).1.1⟩

/-- C2: for every `layers ≥ 1`, `buildZebraSquare(vertices, layers)` leaves `vertices` holding
`30 * layers` floats, that is `6 * layers` vertices of five floats, whatever `vertices` held
before the call. -/
theorem zebra_vertex_count {α : Type} [Field α] (vertices : List α) (layers : Int)
    (h : 1 ≤ layers) :
    ((Shapes.buildZebraSquare vertices layers).length : Int) = 30 * layers ∧
    (((Shapes.buildZebraSquare vertices layers).length / 5 : Nat) : Int) = 6 * layers := by
  rw [shapes_buildZebraSquare_length]
  constructor <;> omega

/-- Witness of C2: the statement at `layers = 8`, the value `main` passes, on a vector that is
not empty. -/
theorem zebra_vertex_count_witness :
    (1 : Int) ≤ 8 ∧
    ((Shapes.buildZebraSquare ([1, 2, 3] : List ℚ) 8).length : Int) = 30 * 8 :=
  ⟨by decide, (zebra_vertex_count ([1, 2, 3] : List ℚ) 8 (by decide)).1⟩

/-- C6: for every vertex position `(px, py)`, offset `(ox, oy)` and scale `s`, the vertex
shader sets `gl_Position` to `(px * s + ox, py * s + oy, 0, 1)`: the position is scaled first
and translated afterwards; at `p = (0.6, -0.6)`, `s = 1`, `o = (0, -0.6)` this is
`(0.6, -1.2, 0, 1)`. -/
theorem vertex_transform :
    (∀ (α : Type) [Field α] (px py ox oy s : α) (vColor : α × α × α),
      (vertexShaderMain (px, py) vColor (ox, oy) s).1 = (px * s + ox, py * s + oy, 0, 1)) ∧
    (∀ vColor : ℚ × ℚ × ℚ,
      (vertexShaderMain ((0.6, -0.6) : ℚ × ℚ) vColor (0, -0.6) 1).1 = (0.6, -1.2, 0, 1)) := by
  constructor
  · intro α _ px py ox oy s vColor
    simp only [vertexShaderMain]
    norm_num
  · intro vColor
    simp only [vertexShaderMain]
    norm_num

/-- C7: for every `w ≥ 0`, `h ≥ 0` and every colour, `buildRectangle(w, h, r, g, b)` returns
six vertices (30 floats); each position is one of the corners `(-w,-h)`, `(w,-h)`, `(w,h)`,
`(-w,h)`; the bounding box of the positions is exactly `[-w, w] x [-h, h]`; and every vertex
has the colour `(r, g, b)`. -/
theorem rectangle_box {α : Type} [LinearOrderedField α] (w h r g b : α) (hw : 0 ≤ w)
    (hh : 0 ≤ h) :
    (Creative.buildRectangle w h r g b).length = 5 * 6 ∧
    (∀ k : Nat, k < 6 →
      positionAt (Creative.buildRectangle w h r g b) k ∈
        [[-w, -h], [w, -h], [w, h], [-w, h]]) ∧
    boundingBox (Creative.buildRectangle w h r g b) = some (-w, w, -h, h) ∧
    (∀ k : Nat, k < 6 → colourAt (Creative.buildRectangle w h r g b) k = [r, g, b]) := by
  have hw2 : -w ≤ w := by linarith
  have hh2 : -h ≤ h := by linarith
  refine ⟨rfl, ?_, ?_, ?_⟩
  · intro k hk
    interval_cases k <;> simp [Creative.buildRectangle, positionAt, vertexAt]
  · simp [boundingBox, positions, Creative.buildRectangle, hw2, hh2]
  · intro k hk
    interval_cases k <;> simp [Creative.buildRectangle, colourAt, vertexAt]

/-- Witness of C7: the table top of `main`, `buildRectangle(0.9, 0.1, 0.6, 0.3, 0.0)`. -/
theorem rectangle_box_witness :
    (0 : ℚ) ≤ 0.9 ∧ (0 : ℚ) ≤ 0.1 ∧
    boundingBox (Creative.buildRectangle (0.9 : ℚ) 0.1 0.6 0.3 0.0) =
      some (-0.9, 0.9, -0.1, 0.1) :=
  ⟨by norm_num, by norm_num,
    (rectangle_box (0.9 : ℚ) 0.1 0.6 0.3 0.0 (by norm_num) (by norm_num)).2.2.1⟩

theorem closing_angle (segments : Int) (h : 3 ≤ segments) :
    2 * Real.pi * (((segments.toNat : Nat) : Int) : ℝ) / (segments : ℝ) = 2 * Real.pi := by
  have hs : (segments : ℝ) ≠ 0 := by
    have : (0 : ℝ) < (segments : ℝ) := by exact_mod_cast (by omega : (0 : Int) < segments)
    exact ne_of_gt this
  rw [Int.toNat_of_nonneg (by omega)]
  field_simp

theorem opening_angle (segments : Int) :
    2 * Real.pi * (((0 : Nat) : Int) : ℝ) / (segments : ℝ) = 0 := by
  simp

/-- Over the real numbers, for every `segments ≥ 3` and every radius, the fans built by
`buildCircle` of shapes.cpp, by `buildCircle` of creative.cpp and by `buildEllipse` are closed:
the last rim vertex (rim index `segments`, angle `2π`) has exactly the position of the first
rim vertex (rim index `0`, angle `0`), namely `(r, 0)`, for the ellipse `(rx, 0)`. -/
theorem fan_closed_exact (vertices : List ℝ) (segments : Int) (radius rx ry r g b : ℝ)
    (gradient : Bool) (h : 3 ≤ segments) :
    (positionAt (Shapes.buildCircle ⟨Real.pi, Real.cos, Real.sin⟩ vertices segments radius
        gradient) (segments.toNat + 1) =
      positionAt (Shapes.buildCircle ⟨Real.pi, Real.cos, Real.sin⟩ vertices segments radius
        gradient) 1 ∧
     positionAt (Shapes.buildCircle ⟨Real.pi, Real.cos, Real.sin⟩ vertices segments radius
        gradient) 1 = [radius, 0]) ∧
    (positionAt (Creative.buildCircle ⟨Real.pi, Real.cos, Real.sin⟩ segments radius r g b)
        (segments.toNat + 1) =
      positionAt (Creative.buildCircle ⟨Real.pi, Real.cos, Real.sin⟩ segments radius r g b)
        1 ∧
     positionAt (Creative.buildCircle ⟨Real.pi, Real.cos, Real.sin⟩ segments radius r g b)
        1 = [radius, 0]) ∧
    (positionAt (Shapes.buildEllipse ⟨Real.pi, Real.cos, Real.sin⟩ vertices segments rx ry)
        (segments.toNat + 1) =
      positionAt (Shapes.buildEllipse ⟨Real.pi, Real.cos, Real.sin⟩ vertices segments rx ry)
        1 ∧
     positionAt (Shapes.buildEllipse ⟨Real.pi, Real.cos, Real.sin⟩ vertices segments rx ry)
        1 = [rx, 0]) := by
  have hlast : ((segments.toNat : Nat) : Int) ≤ segments := by omega
  have hfirst : ((0 : Nat) : Int) ≤ segments := by omega
  have h2 := closing_angle segments h
  have h0 := opening_angle segments
  have c1 := shapes_buildCircle_rim ⟨Real.pi, Real.cos, Real.sin⟩ vertices segments radius
    gradient 0 hfirst
  have c2 := creative_buildCircle_rim ⟨Real.pi, Real.cos, Real.sin⟩ segments radius r g b 0
    hfirst
  have c3 := shapes_buildEllipse_rim ⟨Real.pi, Real.cos, Real.sin⟩ vertices segments rx ry 0
    hfirst
  rw [Nat.zero_add] at c1 c2 c3
  unfold positionAt
  rw [shapes_buildCircle_rim _ vertices segments radius gradient _ hlast, c1,
    creative_buildCircle_rim _ segments radius r g b _ hlast, c2,
    shapes_buildEllipse_rim _ vertices segments rx ry _ hlast, c3]
  refine ⟨⟨?_, ?_⟩, ⟨?_, ?_⟩, ⟨?_, ?_⟩⟩
  · cases gradient <;> simp only [Shapes.buildCircle.body, push_back, h2, h0] <;> simp
  · cases gradient <;> simp only [Shapes.buildCircle.body, push_back, h0] <;> simp
  · simp only [Creative.buildCircle.body, push_back, h2, h0]
    simp
  · simp only [Creative.buildCircle.body, push_back, h0]
    simp
  · simp only [Shapes.buildEllipse.body, push_back, h2, h0]
    simp
  · simp only [Shapes.buildEllipse.body, push_back, h0]
    simp

/-- C9: in `buildCircle` of shapes.cpp over the real numbers, for every `segments ≥ 3` and
every rim index `i ≤ segments` with `θ = 2π i / segments`: with `gradient = true` the rim
vertex `i` has colour `(1 - t, 0, 0)` for `t = (sin θ + 1) / 2`, whose red component lies in
`[0, 1]`; with `gradient = false` it has colour `(1, 0, 0)`; and the centre vertex has colour
`(1, 0, 0)` in both cases. -/
theorem circle_colours (vertices : List ℝ) (segments : Int) (radius : ℝ) (h : 3 ≤ segments) :
    (∀ i : Nat, (i : Int) ≤ segments →
      ∀ t : ℝ, t = (Real.sin (2 * Real.pi * (i : ℝ) / (segments : ℝ)) + 1) / 2 →
        colourAt (Shapes.buildCircle ⟨Real.pi, Real.cos, Real.sin⟩ vertices segments radius
          true) (i + 1) = [1 - t, 0, 0] ∧
        0 ≤ 1 - t ∧ 1 - t ≤ 1 ∧
        colourAt (Shapes.buildCircle ⟨Real.pi, Real.cos, Real.sin⟩ vertices segments radius
          false) (i + 1) = [1, 0, 0]) ∧
    (∀ gradient : Bool,
      colourAt (Shapes.buildCircle ⟨Real.pi, Real.cos, Real.sin⟩ vertices segments radius
        gradient) 0 = [1, 0, 0]) := by
  have _hs : (0 : Int) < segments := by omega
  constructor
  · intro i hi t ht
    have hlo := Real.neg_one_le_sin (2 * Real.pi * (i : ℝ) / (segments : ℝ))
    have hhi := Real.sin_le_one (2 * Real.pi * (i : ℝ) / (segments : ℝ))
    unfold colourAt
    rw [shapes_buildCircle_rim _ vertices segments radius true i hi,
      shapes_buildCircle_rim _ vertices segments radius false i hi]
    refine ⟨?_, ?_, ?_, ?_⟩
    · simp [Shapes.buildCircle.body, push_back, ht]
    · rw [ht]; linarith
    · rw [ht]; linarith
    · simp [Shapes.buildCircle.body, push_back]
  · intro gradient
    unfold colourAt
    rw [shapes_buildCircle_eq, vertexAt_head _ _ (by rfl)]
    rfl

/-- Witness of C9: the circle of `main` of shapes.cpp, 64 segments, at the rim index 16. -/
theorem circle_colours_witness :
    (3 : Int) ≤ 64 ∧
    colourAt (Shapes.buildCircle ⟨Real.pi, Real.cos, Real.sin⟩ [] 64 0.2 false) (16 + 1) =
      [1, 0, 0] :=
  ⟨by decide,
    ((circle_colours [] 64 0.2 (by decide)).1 16 (by decide) _ rfl).2.2.2⟩

/-- Counterexample to C4: called with `segments = 2` both circle builders return a vertex
list, the four-vertex fan with rim `(1, 0), (-1, 0), (1, 0)`, and `buildZebraSquare` called
with `layers = 0` returns the empty vertex list; none of them fails. -/
theorem degenerate_accepted :
    Shapes.buildCircle ⟨Real.pi, Real.cos, Real.sin⟩ [] 2 1 false =
      [0, 0, 1, 0, 0,  1, 0, 1, 0, 0,  -1, 0, 1, 0, 0,  1, 0, 1, 0, 0] ∧
    Creative.buildCircle ⟨Real.pi, Real.cos, Real.sin⟩ 2 1 1 0 0 =
      [0, 0, 1, 0, 0,  1, 0, 1, 0, 0,  -1, 0, 1, 0, 0,  1, 0, 1, 0, 0] ∧
    Shapes.buildZebraSquare ([] : List ℝ) 0 = [] := by
  have h3 : ((2 : Int) + 1).toNat = 3 := by decide
  have hpi : 2 * Real.pi * (((1 : Nat) : Int) : ℝ) / ((2 : Int) : ℝ) = Real.pi := by
    push_cast
    ring
  have h2pi : 2 * Real.pi * (((2 : Nat) : Int) : ℝ) / ((2 : Int) : ℝ) = 2 * Real.pi := by
    push_cast
    ring
  have h0 := opening_angle 2
  refine ⟨?_, ?_, ?_⟩
  · rw [shapes_buildCircle_eq, h3]
    simp only [blocks, List.range_succ, List.range_zero, List.nil_append, List.flatMap_cons,
      List.flatMap_nil, List.append_nil, List.cons_append, zero_add,
      Shapes.buildCircle.body, push_back, h0, hpi, h2pi]
    simp
  · rw [creative_buildCircle_eq, h3]
    simp only [blocks, List.range_succ, List.range_zero, List.nil_append, List.flatMap_cons,
      List.flatMap_nil, List.append_nil, List.cons_append, zero_add,
      Creative.buildCircle.body, push_back, h0, hpi, h2pi]
    simp
  · rw [shapes_buildZebraSquare_eq]
    rfl

/-- C4, amended: the builders check no parameter and never fail. For `segments < 3` both circle
builders still return a vertex list, of `5 + 5 * max (segments + 1) 0` floats (the centre and
one rim vertex per pass of the loop), and for `layers < 1` `buildZebraSquare` returns the empty
vertex list. -/
theorem degenerate_parameters {α : Type} [Field α] (m : CMath α) (vertices : List α)
    (segments layers : Int) (radius r g b : α) (gradient : Bool) :
    (segments < 3 →
      (Shapes.buildCircle m vertices segments radius gradient).length =
        5 + 5 * (segments + 1).toNat ∧
      (Creative.buildCircle m segments radius r g b).length = 5 + 5 * (segments + 1).toNat) ∧
    (layers < 1 → Shapes.buildZebraSquare vertices layers = []) := by
  refine ⟨fun _ => ⟨shapes_buildCircle_length m vertices segments radius gradient,
    creative_buildCircle_length m segments radius r g b⟩, fun hl => ?_⟩
  rw [shapes_buildZebraSquare_eq]
  have h0 : layers.toNat = 0 := by omega
  rw [h0]
  rfl

/-- Witness of C4, amended: `segments = 2` and `layers = 0` over the rationals. -/
theorem degenerate_parameters_witness :
    ((2 : Int) < 3 ∧
      (Shapes.buildCircle (⟨3, fun _ => 1, fun _ => 0⟩ : CMath ℚ) [] 2 1 false).length = 20) ∧
    ((0 : Int) < 1 ∧ Shapes.buildZebraSquare ([9, 9] : List ℚ) 0 = []) :=
  ⟨⟨by decide,
      ((degenerate_parameters (⟨3, fun _ => 1, fun _ => 0⟩ : CMath ℚ) [] 2 0 1 1 0 0
        false).1 (by decide)).1⟩,
    by decide,
    (degenerate_parameters (⟨3, fun _ => 1, fun _ => 0⟩ : CMath ℚ) [9, 9] 2 0 1 1 0 0
      false).2 (by decide)⟩

/-! ## The state after the calls of `main` -/

theorem whileOpen_invariant {α : Type} (body : World α → World α) (P : World α → Prop)
    (hbody : ∀ w, P w → P (body w)) :
    ∀ (n : Nat) (w : World α), P w → P (whileOpen body n w) := by
  intro n
  induction n with
  | zero => intro w hw; exact hw
  | succ n ih => intro w hw; exact ih (body w) (hbody w hw)

theorem whileOpen_draws_length {α : Type} (body : World α → World α) (k : Nat)
    (hbody : ∀ w, (body w).draws.length = w.draws.length + k) :
    ∀ (n : Nat) (w : World α),
      (whileOpen body n w).draws.length = w.draws.length + k * n := by
  intro n
  induction n with
  | zero => intro w; rfl
  | succ n ih =>
    intro w
    show (whileOpen body n (body w)).draws.length = _
    rw [ih (body w), hbody w]
    ring

theorem shapes_program_name {α : Type} (d : Driver) (vSource fSource : String)
    (w : World α) :
    (Shapes.createShaderProgram d vSource fSource w).1 = w.names + 3 ∧
    (Shapes.createShaderProgram d vSource fSource w).2.names = w.names + 3 ∧
    (Shapes.createShaderProgram d vSource fSource w).2.currentProgram = w.currentProgram ∧
    (Shapes.createShaderProgram d vSource fSource w).2.arrayBuffer = w.arrayBuffer ∧
    (Shapes.createShaderProgram d vSource fSource w).2.buffers = w.buffers ∧
    (Shapes.createShaderProgram d vSource fSource w).2.draws = w.draws := by
  simp only [Shapes.createShaderProgram, glCreateShader, glCreateProgram, freshName, call,
    cerrWrite]
  split_ifs <;> simp

theorem creative_program_name {α : Type} (d : Driver) (vSource fSource : String)
    (w : World α) :
    (Creative.createShaderProgram d vSource fSource w).1 = w.names + 3 ∧
    (Creative.createShaderProgram d vSource fSource w).2.names = w.names + 3 ∧
    (Creative.createShaderProgram d vSource fSource w).2.currentProgram = w.currentProgram ∧
    (Creative.createShaderProgram d vSource fSource w).2.arrayBuffer = w.arrayBuffer ∧
    (Creative.createShaderProgram d vSource fSource w).2.buffers = w.buffers ∧
    (Creative.createShaderProgram d vSource fSource w).2.draws = w.draws := by
  simp only [Creative.createShaderProgram, glCreateShader, glCreateProgram, freshName, call,
    cerrWrite]
  split_ifs <;> simp

theorem shapes_createVBO_state {α : Type} (vertices : List α) (w : World α) :
    (Shapes.createVBO vertices w).1 = w.names + 1 ∧
    (Shapes.createVBO vertices w).2.names = w.names + 1 ∧
    (Shapes.createVBO vertices w).2.currentProgram = w.currentProgram ∧
    (Shapes.createVBO vertices w).2.buffers = (w.names + 1, vertices) :: w.buffers ∧
    (Shapes.createVBO vertices w).2.draws = w.draws ∧
    (∀ x ∈ w.calls, x ∈ (Shapes.createVBO vertices w).2.calls) := by
  simp only [Shapes.createVBO, glGenBuffers, glBindBuffer, glBufferData, freshName, call]
  simp
  intro x hx
  simp [hx]

theorem creative_createVBO_state {α : Type} (vertices : List α) (w : World α) :
    (Creative.createVBO vertices w).1 = w.names + 1 ∧
    (Creative.createVBO vertices w).2.names = w.names + 1 ∧
    (Creative.createVBO vertices w).2.currentProgram = w.currentProgram ∧
    (Creative.createVBO vertices w).2.buffers = (w.names + 1, vertices) :: w.buffers ∧
    (Creative.createVBO vertices w).2.draws = w.draws := by
  simp only [Creative.createVBO, glGenBuffers, glBindBuffer, glBufferData, freshName, call]
  simp

theorem shapes_frame_state {α : Type} [Field α] (e t c s : List α) (eb tb cb sb : Nat)
    (ol sl : Int) (w : World α) :
    (Shapes.frame e t c s eb tb cb sb ol sl w).currentProgram = w.currentProgram ∧
    (Shapes.frame e t c s eb tb cb sb ol sl w).draws.length = w.draws.length + 4 ∧
    (∀ x ∈ w.calls, x ∈ (Shapes.frame e t c s eb tb cb sb ol sl w).calls) := by
  simp only [Shapes.frame, Shapes.attribPointers, call, glBindBuffer, glDrawArrays]
  simp
  intro x hx
  simp [hx]

theorem shapes_vertex_message {α : Type} (d : Driver) (vSource fSource : String)
    (w : World α) (hfail : d.compileStatus .GL_VERTEX_SHADER vSource = false) :
    (∃ rest, (Shapes.createShaderProgram d vSource fSource w).2.cerr =
      w.cerr ++ ("Vertex shader compile error:\n" ++
        d.shaderInfoLog .GL_VERTEX_SHADER vSource ++ "\n") ++ rest) ∧
    Call.glCreateProgram (Shapes.createShaderProgram d vSource fSource w).1 ∈
      (Shapes.createShaderProgram d vSource fSource w).2.calls := by
  simp only [Shapes.createShaderProgram, glCreateShader, glCreateProgram, freshName, call,
    cerrWrite, hfail]
  constructor
  · refine ⟨(if d.compileStatus .GL_FRAGMENT_SHADER fSource then "" else
        "Fragment shader compile error:\n" ++
          d.shaderInfoLog .GL_FRAGMENT_SHADER fSource ++ "\n") ++
      (if d.linkStatus vSource fSource then "" else
        "Shader link error:\n" ++ d.programInfoLog vSource fSource ++ "\n"), ?_⟩
    cases d.compileStatus .GL_FRAGMENT_SHADER fSource <;>
      cases d.linkStatus vSource fSource <;> simp [String.append_assoc]
  · split_ifs <;> simp

theorem shapes_main_runs {α : Type} [Field α] (m : CMath α) (d : Driver)
    (hw : d.window = true) (hl : d.loader = true) :
    (Shapes.main m d).1 = 0 ∧ (Shapes.main m d).2.currentProgram = 3 ∧
    Call.glUseProgram 3 ∈ (Shapes.main m d).2.calls ∧
    (Shapes.main m d).2.draws.length = 4 * d.frames := by
  refine ⟨?_, ?_, ?_, ?_⟩
  · simp [Shapes.main, hw, hl]
  · simp only [Shapes.main, hw, hl, Bool.not_true, Bool.false_eq_true, if_false]
    show (whileOpen _ _ _).currentProgram = 3
    refine whileOpen_invariant _ (fun w => w.currentProgram = 3) ?_ _ _ ?_
    · intro w hw
      rw [(shapes_frame_state _ _ _ _ _ _ _ _ _ _ w).1]
      exact hw
    · simp only [(shapes_createVBO_state _ _).2.2.1]
      simp [glUseProgram, call, (shapes_program_name _ _ _ _).1, World.start]
  · simp only [Shapes.main, hw, hl, Bool.not_true, Bool.false_eq_true, if_false]
    have hin : ∀ w : World α, Call.glUseProgram 3 ∈ w.calls →
        Call.glUseProgram 3 ∈ (call Call.glfwTerminate w).calls := by
      intro w hw
      simp [call, hw]
    refine hin _ (whileOpen_invariant _ (fun w => Call.glUseProgram 3 ∈ w.calls) ?_ _ _ ?_)
    · intro w hw
      exact (shapes_frame_state _ _ _ _ _ _ _ _ _ _ w).2.2 _ hw
    · refine (shapes_createVBO_state _ _).2.2.2.2.2 _ ?_
      refine (shapes_createVBO_state _ _).2.2.2.2.2 _ ?_
      refine (shapes_createVBO_state _ _).2.2.2.2.2 _ ?_
      refine (shapes_createVBO_state _ _).2.2.2.2.2 _ ?_
      simp [glUseProgram, call, (shapes_program_name _ _ _ _).1, World.start]
  · simp only [Shapes.main, hw, hl, Bool.not_true, Bool.false_eq_true, if_false]
    show (whileOpen _ _ _).draws.length = 4 * d.frames
    rw [whileOpen_draws_length _ 4 (fun w => (shapes_frame_state _ _ _ _ _ _ _ _ _ _ w).2.1)]
    simp only [(shapes_createVBO_state _ _).2.2.2.2.1]
    simp [glUseProgram, call, (shapes_program_name _ _ _ _).2.2.2.2.2, World.start]

theorem creative_vertex_message {α : Type} (d : Driver) (vSource fSource : String)
    (w : World α) (hfail : d.compileStatus .GL_VERTEX_SHADER vSource = false) :
    (∃ rest, (Creative.createShaderProgram d vSource fSource w).2.cerr =
      w.cerr ++ ("Vertex shader error:\n" ++
        d.shaderInfoLog .GL_VERTEX_SHADER vSource ++ "\n") ++ rest) ∧
    Call.glCreateProgram (Creative.createShaderProgram d vSource fSource w).1 ∈
      (Creative.createShaderProgram d vSource fSource w).2.calls := by
  simp only [Creative.createShaderProgram, glCreateShader, glCreateProgram, freshName, call,
    cerrWrite, hfail]
  constructor
  · refine ⟨(if d.compileStatus .GL_FRAGMENT_SHADER fSource then "" else
        "Fragment shader error:\n" ++
          d.shaderInfoLog .GL_FRAGMENT_SHADER fSource ++ "\n") ++
      (if d.linkStatus vSource fSource then "" else
        "Shader link error:\n" ++ d.programInfoLog vSource fSource ++ "\n"), ?_⟩
    cases d.compileStatus .GL_FRAGMENT_SHADER fSource <;>
      cases d.linkStatus vSource fSource <;> simp [String.append_assoc]
  · split_ifs <;> simp

theorem whileOpen_draws {α : Type} (body : World α → World α) (P : World α → Prop)
    (L : List Draw) (hbody : ∀ w, P w → P (body w) ∧ (body w).draws = w.draws ++ L) :
    ∀ (n : Nat) (w : World α), P w →
      P (whileOpen body n w) ∧
      (whileOpen body n w).draws = w.draws ++ (List.replicate n L).flatten := by
  intro n
  induction n with
  | zero => intro w hw; exact ⟨hw, by simp [whileOpen]⟩
  | succ n ih =>
    intro w hw
    obtain ⟨h1, h2⟩ := hbody w hw
    obtain ⟨h3, h4⟩ := ih (body w) h1
    refine ⟨h3, ?_⟩
    show (whileOpen body n (body w)).draws = _
    rw [h4, h2, List.replicate_succ, List.flatten_cons, List.append_assoc]

theorem creative_frame_draws {α : Type} [Field α] (m : CMath α) (ol sl : Int) (w : World α)
    (hp : w.currentProgram = 3)
    (hb : w.buffers =
      [(10, Creative.buildTriangle 0.15 1.0 0.0 1.0),
       (9, Creative.buildCircle m 40 0.12 1.0 1.0 0.0),
       (8, Creative.buildRectangle 0.2 0.1 0.0 0.0 1.0),
       (7, Creative.buildRectangle 0.1 0.2 0.0 1.0 0.0),
       (6, Creative.buildRectangle 0.15 0.15 1.0 0.0 0.0),
       (5, Creative.buildRectangle 0.05 0.3 0.4 0.2 0.0),
       (4, Creative.buildRectangle 0.9 0.1 0.6 0.3 0.0)]) :
    ((Creative.frame (Creative.buildRectangle 0.9 0.1 0.6 0.3 0.0)
        (Creative.buildRectangle 0.05 0.3 0.4 0.2 0.0) 4 5 6 7 8 9 10 ol sl w).currentProgram = 3 ∧
      (Creative.frame (Creative.buildRectangle 0.9 0.1 0.6 0.3 0.0)
        (Creative.buildRectangle 0.05 0.3 0.4 0.2 0.0) 4 5 6 7 8 9 10 ol sl w).buffers =
        w.buffers) ∧
    (Creative.frame (Creative.buildRectangle 0.9 0.1 0.6 0.3 0.0)
        (Creative.buildRectangle 0.05 0.3 0.4 0.2 0.0) 4 5 6 7 8 9 10 ol sl w).draws =
      w.draws ++
        [⟨3, 4, 30, .GL_TRIANGLES, 6⟩, ⟨3, 5, 30, .GL_TRIANGLES, 6⟩,
         ⟨3, 5, 30, .GL_TRIANGLES, 6⟩, ⟨3, 6, 30, .GL_TRIANGLES, 6⟩,
         ⟨3, 7, 30, .GL_TRIANGLES, 6⟩, ⟨3, 8, 30, .GL_TRIANGLES, 6⟩,
         ⟨3, 9, 210, .GL_TRIANGLE_FAN, 42⟩, ⟨3, 10, 15, .GL_TRIANGLES, 3⟩] := by
  have hc : (Creative.buildCircle m 40 0.12 1.0 1.0 0.0).length = 210 := by
    rw [creative_buildCircle_length]
    rfl
  have hr : ∀ a b c d e : α, (Creative.buildRectangle a b c d e).length = 30 :=
    fun _ _ _ _ _ => rfl
  have ht : ∀ a b c d : α, (Creative.buildTriangle a b c d).length = 15 :=
    fun _ _ _ _ => rfl
  simp only [Creative.frame, Creative.drawVBO, call, glBindBuffer, glDrawArrays, World.dataOf,
    hp, hb]
  simp [List.lookup, hc, hr, ht]

theorem creative_main_draws {α : Type} [Field α] (m : CMath α) (d : Driver)
    (hw : d.window = true) (hl : d.loader = true) :
    (Creative.main m d).2.draws =
      (List.replicate d.frames
        [(⟨3, 4, 30, .GL_TRIANGLES, 6⟩ : Draw), ⟨3, 5, 30, .GL_TRIANGLES, 6⟩,
         ⟨3, 5, 30, .GL_TRIANGLES, 6⟩, ⟨3, 6, 30, .GL_TRIANGLES, 6⟩,
         ⟨3, 7, 30, .GL_TRIANGLES, 6⟩, ⟨3, 8, 30, .GL_TRIANGLES, 6⟩,
         ⟨3, 9, 210, .GL_TRIANGLE_FAN, 42⟩, ⟨3, 10, 15, .GL_TRIANGLES, 3⟩]).flatten := by
  simp only [Creative.main, hw, hl, Bool.not_true, Bool.false_eq_true, if_false]
  show (whileOpen _ _ _).draws = _
  simp only [(creative_createVBO_state _ _).1, (creative_createVBO_state _ _).2.1,
    (creative_program_name _ _ _ _).1, (creative_program_name _ _ _ _).2.1,
    glUseProgram, call, World.start, Nat.zero_add, Nat.reduceAdd]
  have key := whileOpen_draws
    (Creative.frame (Creative.buildRectangle (0.9 : α) 0.1 0.6 0.3 0.0)
      (Creative.buildRectangle 0.05 0.3 0.4 0.2 0.0) 4 5 6 7 8 9 10
      (d.uniformLocation 3 "offset") (d.uniformLocation 3 "scale"))
    (fun w => w.currentProgram = 3 ∧ w.buffers =
      [(10, Creative.buildTriangle 0.15 1.0 0.0 1.0),
       (9, Creative.buildCircle m 40 0.12 1.0 1.0 0.0),
       (8, Creative.buildRectangle 0.2 0.1 0.0 0.0 1.0),
       (7, Creative.buildRectangle 0.1 0.2 0.0 1.0 0.0),
       (6, Creative.buildRectangle 0.15 0.15 1.0 0.0 0.0),
       (5, Creative.buildRectangle 0.05 0.3 0.4 0.2 0.0),
       (4, Creative.buildRectangle 0.9 0.1 0.6 0.3 0.0)]) _
    (fun w hP =>
      ⟨⟨(creative_frame_draws m _ _ w hP.1 hP.2).1.1,
          (creative_frame_draws m _ _ w hP.1 hP.2).1.2.trans hP.2⟩,
        (creative_frame_draws m _ _ w hP.1 hP.2).2⟩) d.frames
  refine (key _ ⟨?_, ?_⟩).2.trans ?_
  · simp only [(creative_createVBO_state _ _).2.2.1]
  · simp only [(creative_createVBO_state _ _).2.2.2.1, (creative_createVBO_state _ _).2.1,
      (creative_program_name _ _ _ _).2.2.2.2.1]
  · simp only [(creative_createVBO_state _ _).2.2.2.2, (creative_program_name _ _ _ _).2.2.2.2.2,
      List.nil_append]

/-- Counterexample to C5: with a driver that rejects the vertex shader, `createShaderProgram`
still returns a program name (3), and `main` of shapes.cpp activates that program with
`glUseProgram`, runs the frame loop (four draw calls in the one frame before the window
closes) and returns 0. -/
theorem failed_shader_is_used :
    rejectingDriver.compileStatus .GL_VERTEX_SHADER Shapes.vertexShaderSource = false ∧
    (Shapes.createShaderProgram rejectingDriver Shapes.vertexShaderSource
      Shapes.fragmentShaderSource (World.start : World ℝ)).1 = 3 ∧
    Call.glUseProgram 3 ∈
      (Shapes.main (⟨Real.pi, Real.cos, Real.sin⟩ : CMath ℝ) rejectingDriver).2.calls ∧
    (Shapes.main (⟨Real.pi, Real.cos, Real.sin⟩ : CMath ℝ) rejectingDriver).2.draws.length
      = 4 ∧
    (Shapes.main (⟨Real.pi, Real.cos, Real.sin⟩ : CMath ℝ) rejectingDriver).1 = 0 := by
  have h := shapes_main_runs (⟨Real.pi, Real.cos, Real.sin⟩ : CMath ℝ) rejectingDriver rfl rfl
  exact ⟨rfl, (shapes_program_name _ _ _ _).1, h.2.2.1, h.2.2.2, h.1⟩

/-- C5, amended: when the vertex shader fails to compile, `createShaderProgram` writes
`"Vertex shader compile error:\n"` (shapes.cpp; `"Vertex shader error:\n"` in creative.cpp),
the info log of the driver and a newline to standard error, and still returns the name of the
program it created; when the window and the loader succeed, `main` of shapes.cpp then
activates that program (name 3) with `glUseProgram`, runs the frame loop with four draw
calls in every frame, and returns 0. -/
theorem vertex_compile_failure {α : Type} [Field α] (m : CMath α) (d : Driver) :
    (∀ (vSource fSource : String) (w : World α),
      d.compileStatus .GL_VERTEX_SHADER vSource = false →
        ((∃ rest, (Shapes.createShaderProgram d vSource fSource w).2.cerr =
            w.cerr ++ ("Vertex shader compile error:\n" ++
              d.shaderInfoLog .GL_VERTEX_SHADER vSource ++ "\n") ++ rest) ∧
          Call.glCreateProgram (Shapes.createShaderProgram d vSource fSource w).1 ∈
            (Shapes.createShaderProgram d vSource fSource w).2.calls) ∧
        ((∃ rest, (Creative.createShaderProgram d vSource fSource w).2.cerr =
            w.cerr ++ ("Vertex shader error:\n" ++
              d.shaderInfoLog .GL_VERTEX_SHADER vSource ++ "\n") ++ rest) ∧
          Call.glCreateProgram (Creative.createShaderProgram d vSource fSource w).1 ∈
            (Creative.createShaderProgram d vSource fSource w).2.calls)) ∧
    (d.compileStatus .GL_VERTEX_SHADER Shapes.vertexShaderSource = false →
      d.window = true → d.loader = true →
        (Shapes.main m d).1 = 0 ∧
        (Shapes.main m d).2.currentProgram = 3 ∧
        Call.glUseProgram 3 ∈ (Shapes.main m d).2.calls ∧
        (Shapes.main m d).2.draws.length = 4 * d.frames) :=
  ⟨fun vSource fSource w hfail =>
      ⟨shapes_vertex_message d vSource fSource w hfail,
        creative_vertex_message d vSource fSource w hfail⟩,
    fun _ hw hl => shapes_main_runs m d hw hl⟩

/-- Witness of C5, amended: the rejecting driver, over the rationals. -/
theorem vertex_compile_failure_witness :
    (rejectingDriver.compileStatus .GL_VERTEX_SHADER "void main() \x7b" = false ∧
      Call.glCreateProgram
          (Shapes.createShaderProgram rejectingDriver "void main() \x7b" ""
            (World.start : World ℚ)).1 ∈
        (Shapes.createShaderProgram rejectingDriver "void main() \x7b" ""
          (World.start : World ℚ)).2.calls) ∧
    (rejectingDriver.compileStatus .GL_VERTEX_SHADER Shapes.vertexShaderSource = false ∧
      rejectingDriver.window = true ∧ rejectingDriver.loader = true ∧
      (Shapes.main (⟨3, fun _ => 1, fun _ => 0⟩ : CMath ℚ) rejectingDriver).2.draws.length
        = 4 * rejectingDriver.frames) :=
  ⟨⟨rfl,
      ((vertex_compile_failure (⟨3, fun _ => 1, fun _ => 0⟩ : CMath ℚ) rejectingDriver).1
        "void main() \x7b" "" World.start rfl).1.2⟩,
    rfl, rfl, rfl,
    ((vertex_compile_failure (⟨3, fun _ => 1, fun _ => 0⟩ : CMath ℚ) rejectingDriver).2
      rfl rfl rfl).2.2.2⟩

/-- C10: every draw call of `main` of creative.cpp passes a vertex count equal to the number
of 5-float vertices stored in the buffer bound when it is made, and every count drawn with
`GL_TRIANGLES` is divisible by 3. When the window and the loader succeed, each frame issues
the same eight calls, on the buffers 4 .. 10 holding 30, 30, 30, 30, 30, 210 and 15 floats.
`table.size()/5` and `leg.size()/5` are 6, as is the vertex count of every `buildRectangle`;
`buildCircle(40, ...)` has 42 vertices and `buildTriangle` has 3. -/
theorem draw_counts {α : Type} [Field α] (m : CMath α) (d : Driver) :
    (∀ draw ∈ (Creative.main m d).2.draws,
      draw.count = ((draw.stored / 5 : Nat) : Int) ∧
      (draw.mode = .GL_TRIANGLES → draw.count % 3 = 0)) ∧
    (d.window = true → d.loader = true →
      (Creative.main m d).2.draws =
        (List.replicate d.frames
          [(⟨3, 4, 30, .GL_TRIANGLES, 6⟩ : Draw), ⟨3, 5, 30, .GL_TRIANGLES, 6⟩,
           ⟨3, 5, 30, .GL_TRIANGLES, 6⟩, ⟨3, 6, 30, .GL_TRIANGLES, 6⟩,
           ⟨3, 7, 30, .GL_TRIANGLES, 6⟩, ⟨3, 8, 30, .GL_TRIANGLES, 6⟩,
           ⟨3, 9, 210, .GL_TRIANGLE_FAN, 42⟩, ⟨3, 10, 15, .GL_TRIANGLES, 3⟩]).flatten) ∧
    (Creative.buildRectangle (0.9 : α) 0.1 0.6 0.3 0.0).length / 5 = 6 ∧
    (Creative.buildRectangle (0.05 : α) 0.3 0.4 0.2 0.0).length / 5 = 6 ∧
    (∀ w h r g b : α, (Creative.buildRectangle w h r g b).length / 5 = 6) ∧
    (Creative.buildCircle m 40 0.12 1.0 1.0 0.0).length / 5 = 42 ∧
    (Creative.buildTriangle (0.15 : α) 1.0 0.0 1.0).length / 5 = 3 := by
  refine ⟨?_, creative_main_draws m d, by simp [Creative.buildRectangle],
    by simp [Creative.buildRectangle], fun _ _ _ _ _ => by simp [Creative.buildRectangle], ?_,
    by simp [Creative.buildTriangle]⟩
  · intro draw hdraw
    by_cases hw : d.window = true
    · by_cases hl : d.loader = true
      · rw [creative_main_draws m d hw hl] at hdraw
        obtain ⟨L, hL, hmem⟩ := List.mem_flatten.mp hdraw
        rw [(List.mem_replicate.mp hL).2] at hmem
        simp only [List.mem_cons, List.mem_singleton, List.not_mem_nil, or_false] at hmem
        rcases hmem with h | h | h | h | h | h | h | h <;> subst h <;> decide
      · simp [Creative.main, hw, hl, cerrWrite, call, World.start] at hdraw
    · simp [Creative.main, hw, cerrWrite, call, World.start] at hdraw
  · rw [creative_buildCircle_length]
    decide

/-- Witness of C10: the circle draw of the one frame run under the accepting driver. -/
theorem draw_counts_witness :
    (⟨3, 9, 210, .GL_TRIANGLE_FAN, 42⟩ : Draw) ∈
      (Creative.main (⟨Real.pi, Real.cos, Real.sin⟩ : CMath ℝ) acceptingDriver).2.draws ∧
    (42 : Int) = ((210 / 5 : Nat) : Int) ∧
    acceptingDriver.window = true ∧ acceptingDriver.loader = true ∧
    (Creative.main (⟨Real.pi, Real.cos, Real.sin⟩ : CMath ℝ) acceptingDriver).2.draws.length
      = 8 :=
  have hmem : (⟨3, 9, 210, .GL_TRIANGLE_FAN, 42⟩ : Draw) ∈
      (Creative.main (⟨Real.pi, Real.cos, Real.sin⟩ : CMath ℝ) acceptingDriver).2.draws := by
    rw [creative_main_draws _ _ rfl rfl]
    decide
  ⟨hmem,
    ((draw_counts (⟨Real.pi, Real.cos, Real.sin⟩ : CMath ℝ) acceptingDriver).1 _ hmem).1,
    rfl, rfl,
    congrArg List.length
      ((draw_counts (⟨Real.pi, Real.cos, Real.sin⟩ : CMath ℝ) acceptingDriver).2.1 rfl rfl)⟩

/-! ## Rounding to a binary format -/

theorem roundHalfEven_cases (x : ℚ) :
    roundHalfEven x = ⌊x⌋ ∧ x - ⌊x⌋ ≤ 1 / 2 ∨ roundHalfEven x = ⌊x⌋ + 1 ∧ 1 / 2 ≤ x - ⌊x⌋ := by
  unfold roundHalfEven
  split_ifs with h1 h2 h3
  · exact Or.inl ⟨rfl, le_of_lt h1⟩
  · exact Or.inr ⟨rfl, le_of_lt h2⟩
  · exact Or.inl ⟨rfl, not_lt.mp h2⟩
  · exact Or.inr ⟨rfl, not_lt.mp h1⟩

theorem roundHalfEven_error (x : ℚ) : |(roundHalfEven x : ℚ) - x| ≤ 1 / 2 := by
  have h0 : (⌊x⌋ : ℚ) ≤ x := Int.floor_le x
  have h1 : x < (⌊x⌋ : ℚ) + 1 := Int.lt_floor_add_one x
  rcases roundHalfEven_cases x with ⟨h, hd⟩ | ⟨h, hd⟩
  · rw [h, abs_le]
    constructor <;> linarith
  · rw [h, abs_le]
    push_cast
    constructor <;> linarith

theorem roundHalfEven_intCast (n : ℤ) : roundHalfEven (n : ℚ) = n := by
  unfold roundHalfEven
  rw [Int.floor_intCast, if_pos (by norm_num)]

theorem roundHalfEven_mono {x y : ℚ} (h : x ≤ y) : roundHalfEven x ≤ roundHalfEven y := by
  by_contra hc
  have hlt : roundHalfEven y + 1 ≤ roundHalfEven x := by omega
  have hq : (roundHalfEven y : ℚ) + 1 ≤ (roundHalfEven x : ℚ) := by exact_mod_cast hlt
  have ex := abs_le.mp (roundHalfEven_error x)
  have ey := abs_le.mp (roundHalfEven_error y)
  have hxy : x = y := by linarith [ex.1, ex.2, ey.1, ey.2]
  rw [hxy] at hc
  exact hc le_rfl

theorem roundHalfEven_eq_of_near (x : ℚ) (m : ℤ) (h : |x - (m : ℚ)| < 1 / 2) :
    roundHalfEven x = m := by
  have e := abs_le.mp (roundHalfEven_error x)
  have h' := abs_lt.mp h
  have h1 : ((roundHalfEven x - m : ℤ) : ℚ) < 1 := by push_cast; linarith [e.1, e.2, h'.1, h'.2]
  have h2 : (-1 : ℚ) < ((roundHalfEven x - m : ℤ) : ℚ) := by
    push_cast; linarith [e.1, e.2, h'.1, h'.2]
  have h3 : roundHalfEven x - m < 1 := by exact_mod_cast h1
  have h4 : -1 < roundHalfEven x - m := by exact_mod_cast h2
  omega

theorem roundHalfEven_neg (x : ℚ) : roundHalfEven (-x) = -roundHalfEven x := by
  by_cases hx : (⌊x⌋ : ℚ) = x
  · rw [← hx, ← Int.cast_neg, roundHalfEven_intCast, roundHalfEven_intCast]
  · have h0 : (⌊x⌋ : ℚ) < x := lt_of_le_of_ne (Int.floor_le x) hx
    have h1 : x < (⌊x⌋ : ℚ) + 1 := Int.lt_floor_add_one x
    have hf : ⌊-x⌋ = -⌊x⌋ - 1 := by
      rw [Int.floor_eq_iff]
      push_cast
      constructor <;> linarith
    unfold roundHalfEven
    rw [hf]
    push_cast
    by_cases c1 : x - (⌊x⌋ : ℚ) < 1 / 2
    · rw [if_pos c1, if_neg (by linarith), if_pos (by linarith)]
      ring
    · by_cases c2 : 1 / 2 < x - (⌊x⌋ : ℚ)
      · rw [if_neg c1, if_pos c2, if_pos (by linarith)]
        ring
      · have c3 : x - (⌊x⌋ : ℚ) = 1 / 2 := by linarith [not_lt.mp c1, not_lt.mp c2]
        rw [if_neg c1, if_neg c2, if_neg (by linarith), if_neg (by linarith)]
        by_cases c4 : ⌊x⌋ % 2 = 0
        · rw [if_pos c4, if_neg (by omega)]
          ring
        · rw [if_neg c4, if_pos (by omega)]
          ring



theorem binade_ge (f : Format) (q : ℚ) : f.emin ≤ f.binade q := by
  unfold Format.binade
  split_ifs
  · exact le_rfl
  · exact le_max_right _ _

theorem abs_lt_binade (f : Format) (q : ℚ) : |q| < 2 ^ (f.binade q + 1) := by
  unfold Format.binade
  split_ifs with h
  · rw [h, abs_zero]
    positivity
  · have h1 : |q| < ((2 : ℕ) : ℚ) ^ (Int.log 2 |q| + 1) :=
      Int.lt_zpow_succ_log_self (by norm_num) |q|
    refine lt_of_lt_of_le h1 ?_
    push_cast
    exact zpow_le_zpow_right₀ (by norm_num) (by have := le_max_left (Int.log 2 |q|) f.emin; omega)

theorem binade_le_abs (f : Format) (q : ℚ) (h : f.emin < f.binade q) :
    2 ^ f.binade q ≤ |q| := by
  unfold Format.binade at h ⊢
  split_ifs at h ⊢ with h0
  · omega
  · have hpos : 0 < |q| := abs_pos.mpr h0
    have hmax : max (Int.log 2 |q|) f.emin = Int.log 2 |q| := by
      rcases le_total (Int.log 2 |q|) f.emin with hle | hle
      · rw [max_eq_right hle] at h; omega
      · exact max_eq_left hle
    rw [hmax]
    have := Int.zpow_log_le_self (b := 2) (r := |q|) (by norm_num) hpos
    exact_mod_cast this

theorem binade_mono (f : Format) {x y : ℚ} (h : |x| ≤ |y|) :
    f.binade x ≤ f.binade y := by
  by_cases h1 : x = 0
  · have : f.binade x = f.emin := by unfold Format.binade; rw [if_pos h1]
    rw [this]
    exact binade_ge f y
  · have hpos : 0 < |x| := abs_pos.mpr h1
    have h2 : y ≠ 0 := by
      intro h2
      rw [h2, abs_zero] at h
      linarith
    unfold Format.binade
    rw [if_neg h1, if_neg h2]
    exact max_le_max (Int.log_mono_right hpos h) le_rfl

theorem binade_eq (f : Format) (q : ℚ) (e : ℤ) (hlo : 2 ^ e ≤ |q|) (hhi : |q| < 2 ^ (e + 1)) :
    f.binade q = max e f.emin := by
  have hpos : 0 < |q| := lt_of_lt_of_le (by positivity) hlo
  have h0 : q ≠ 0 := abs_pos.mp hpos
  unfold Format.binade
  rw [if_neg h0]
  have h1 : e ≤ Int.log 2 |q| := by
    rw [← Int.zpow_le_iff_le_log (by norm_num) hpos]
    exact_mod_cast hlo
  have h2 : Int.log 2 |q| < e + 1 := by
    rw [← Int.lt_zpow_iff_log_lt (by norm_num) hpos]
    exact_mod_cast hhi
  have : Int.log 2 |q| = e := by omega
  rw [this]

theorem quantum_pos (f : Format) (q : ℚ) : 0 < f.quantum q := by
  unfold Format.quantum
  positivity

theorem quantum_mono (f : Format) {x y : ℚ} (h : |x| ≤ |y|) :
    f.quantum x ≤ f.quantum y := by
  unfold Format.quantum
  exact zpow_le_zpow_right₀ (by norm_num) (by have := binade_mono f h; omega)

theorem quantum_neg (f : Format) (q : ℚ) : f.quantum (-q) = f.quantum q := by
  unfold Format.quantum Format.binade
  rw [abs_neg]
  simp only [neg_eq_zero]



theorem rnd_zero (f : Format) : f.rnd 0 = 0 := by
  unfold Format.rnd
  rw [zero_div]
  have : roundHalfEven 0 = 0 := by simpa using roundHalfEven_intCast 0
  rw [this]
  simp

theorem rnd_neg (f : Format) (q : ℚ) : f.rnd (-q) = -f.rnd q := by
  unfold Format.rnd
  rw [quantum_neg, neg_div, roundHalfEven_neg]
  push_cast
  ring

theorem rnd_error (f : Format) (q : ℚ) : |f.rnd q - q| ≤ f.quantum q / 2 := by
  have hu := quantum_pos f q
  have h := roundHalfEven_error (q / f.quantum q)
  have e : f.rnd q - q = ((roundHalfEven (q / f.quantum q) : ℚ) - q / f.quantum q) *
      f.quantum q := by
    unfold Format.rnd
    field_simp
  rw [e, abs_mul, abs_of_pos hu]
  calc |(roundHalfEven (q / f.quantum q) : ℚ) - q / f.quantum q| * f.quantum q
      ≤ 1 / 2 * f.quantum q := mul_le_mul_of_nonneg_right h (le_of_lt hu)
    _ = f.quantum q / 2 := by ring

theorem rnd_mono_same (f : Format) {x y : ℚ} (h : x ≤ y)
    (hb : f.quantum x = f.quantum y) : f.rnd x ≤ f.rnd y := by
  unfold Format.rnd
  rw [hb]
  have hu := quantum_pos f y
  refine mul_le_mul_of_nonneg_right ?_ (le_of_lt hu)
  exact_mod_cast roundHalfEven_mono (div_le_div_of_nonneg_right h (le_of_lt hu))

theorem rnd_nonneg (f : Format) {q : ℚ} (h : 0 ≤ q) : 0 ≤ f.rnd q := by
  unfold Format.rnd
  have hu := quantum_pos f q
  refine mul_nonneg ?_ (le_of_lt hu)
  have := roundHalfEven_mono (div_nonneg h (le_of_lt hu))
  rw [show roundHalfEven 0 = 0 by simpa using roundHalfEven_intCast 0] at this
  exact_mod_cast this

theorem rnd_le_top (f : Format) {q : ℚ} (h : 0 ≤ q) : f.rnd q ≤ 2 ^ (f.binade q + 1) := by
  have hu := quantum_pos f q
  have hq : q < 2 ^ (f.binade q + 1) := by
    have := abs_lt_binade f q
    rwa [abs_of_nonneg h] at this
  have hsplit : (2 : ℚ) ^ (f.binade q + 1) = (((2 : ℤ) ^ f.p : ℤ) : ℚ) * f.quantum q := by
    unfold Format.quantum
    push_cast
    rw [← zpow_natCast, ← zpow_add₀ (by norm_num : (2 : ℚ) ≠ 0)]
    congr 1
    ring
  have hdiv : q / f.quantum q ≤ (((2 : ℤ) ^ f.p : ℤ) : ℚ) := by
    rw [div_le_iff₀ hu, ← hsplit]
    exact le_of_lt hq
  have hr := roundHalfEven_mono hdiv
  rw [roundHalfEven_intCast] at hr
  rw [hsplit]
  unfold Format.rnd
  exact mul_le_mul_of_nonneg_right (by exact_mod_cast hr) (le_of_lt hu)

theorem rnd_ge_bot (f : Format) (hp : 1 ≤ f.p) {q : ℚ} (h : 0 ≤ q)
    (hb : f.emin < f.binade q) : 2 ^ f.binade q ≤ f.rnd q := by
  have hu := quantum_pos f q
  have hq : 2 ^ f.binade q ≤ q := by
    have := binade_le_abs f q hb
    rwa [abs_of_nonneg h] at this
  have hsplit : (2 : ℚ) ^ f.binade q = (((2 : ℤ) ^ (f.p - 1) : ℤ) : ℚ) * f.quantum q := by
    unfold Format.quantum
    push_cast
    rw [← zpow_natCast, ← zpow_add₀ (by norm_num : (2 : ℚ) ≠ 0)]
    congr 1
    rw [Nat.cast_sub hp]
    push_cast
    ring
  have hdiv : (((2 : ℤ) ^ (f.p - 1) : ℤ) : ℚ) ≤ q / f.quantum q := by
    rw [le_div_iff₀ hu, ← hsplit]
    exact hq
  have hr := roundHalfEven_mono hdiv
  rw [roundHalfEven_intCast] at hr
  rw [hsplit]
  unfold Format.rnd
  exact mul_le_mul_of_nonneg_right (by exact_mod_cast hr) (le_of_lt hu)

theorem rnd_mono_nonneg (f : Format) (hp : 1 ≤ f.p) {x y : ℚ} (h0 : 0 ≤ x)
    (h : x ≤ y) : f.rnd x ≤ f.rnd y := by
  have habs : |x| ≤ |y| := by rw [abs_of_nonneg h0, abs_of_nonneg (le_trans h0 h)]; exact h
  rcases lt_or_eq_of_le (binade_mono f habs) with hlt | heq
  · calc f.rnd x ≤ 2 ^ (f.binade x + 1) := rnd_le_top f h0
      _ ≤ 2 ^ f.binade y := zpow_le_zpow_right₀ (by norm_num) (by omega)
      _ ≤ f.rnd y := rnd_ge_bot f hp (le_trans h0 h) (by have := binade_ge f x; omega)
  · exact rnd_mono_same f h (by unfold Format.quantum; rw [heq])

theorem rnd_mono (f : Format) (hp : 1 ≤ f.p) {x y : ℚ} (h : x ≤ y) :
    f.rnd x ≤ f.rnd y := by
  rcases le_or_lt 0 x with h1 | h1
  · exact rnd_mono_nonneg f hp h1 h
  · rcases le_or_lt 0 y with h2 | h2
    · have := rnd_nonneg f (q := -x) (by linarith)
      rw [rnd_neg] at this
      linarith [rnd_nonneg f h2]
    · have := rnd_mono_nonneg f hp (x := -y) (y := -x) (by linarith) (by linarith)
      rw [rnd_neg, rnd_neg] at this
      linarith

theorem rnd_eq_of_near (f : Format) (q : ℚ) (e m : ℤ) (hlo : 2 ^ e ≤ |q|)
    (hhi : |q| < 2 ^ (e + 1)) (he : f.emin ≤ e)
    (hm : |q / 2 ^ (e - ((f.p : ℤ) - 1)) - (m : ℚ)| < 1 / 2) :
    f.rnd q = (m : ℚ) * 2 ^ (e - ((f.p : ℤ) - 1)) := by
  have hb : f.binade q = e := by rw [binade_eq f q e hlo hhi, max_eq_left he]
  unfold Format.rnd Format.quantum
  rw [hb, roundHalfEven_eq_of_near _ m hm]

theorem rnd_eq_of_near_pos (f : Format) (q : ℚ) (e m : ℤ) (hlo : 2 ^ e ≤ q)
    (hhi : q < 2 ^ (e + 1)) (he : f.emin ≤ e)
    (h1 : ((m : ℚ) - 1 / 2) * 2 ^ (e - ((f.p : ℤ) - 1)) < q)
    (h2 : q < ((m : ℚ) + 1 / 2) * 2 ^ (e - ((f.p : ℤ) - 1))) :
    f.rnd q = (m : ℚ) * 2 ^ (e - ((f.p : ℤ) - 1)) := by
  have hq : 0 < q := lt_of_lt_of_le (by positivity) hlo
  have hu : (0 : ℚ) < 2 ^ (e - ((f.p : ℤ) - 1)) := by positivity
  refine rnd_eq_of_near f q e m (by rwa [abs_of_pos hq]) (by rwa [abs_of_pos hq]) he ?_
  rw [abs_lt]
  constructor
  · rw [lt_sub_iff_add_lt, lt_div_iff₀ hu]
    linarith
  · rw [sub_lt_iff_lt_add, div_lt_iff₀ hu]
    linarith

theorem rnd_two_zpow (f : Format) (hp : 1 ≤ f.p) (k : ℤ) (hk : f.emin ≤ k) :
    f.rnd (2 ^ k) = 2 ^ k := by
  have hu : (0 : ℚ) < 2 ^ (k - ((f.p : ℤ) - 1)) := by positivity
  have hsplit : (2 : ℚ) ^ k = (((2 : ℤ) ^ (f.p - 1) : ℤ) : ℚ) * 2 ^ (k - ((f.p : ℤ) - 1)) := by
    push_cast
    rw [← zpow_natCast, ← zpow_add₀ (by norm_num : (2 : ℚ) ≠ 0)]
    congr 1
    rw [Nat.cast_sub hp]
    push_cast
    ring
  rw [rnd_eq_of_near_pos f (2 ^ k) k ((2 : ℤ) ^ (f.p - 1)) le_rfl
    (zpow_lt_zpow_right₀ (by norm_num) (by omega)) hk
    (by rw [hsplit]; linarith) (by rw [hsplit]; linarith)]
  exact hsplit.symm

theorem rnd_abs_le (f : Format) (hp : 1 ≤ f.p) (k : ℤ) (hk : f.emin ≤ k) {q : ℚ}
    (h : |q| ≤ 2 ^ k) : |f.rnd q| ≤ 2 ^ k := by
  have h' := abs_le.mp h
  rw [abs_le]
  constructor
  · have := rnd_mono f hp h'.1
    rwa [rnd_neg, rnd_two_zpow f hp k hk] at this
  · have := rnd_mono f hp h'.2
    rwa [rnd_two_zpow f hp k hk] at this

theorem quantum_le_of_abs_lt (f : Format) (k : ℤ) (hk : f.emin < k) {q : ℚ}
    (h : |q| < 2 ^ k) : f.quantum q ≤ 2 ^ (k - 1 - ((f.p : ℤ) - 1)) := by
  have hb : f.binade q ≤ k - 1 := by
    by_contra hc
    have h1 : f.emin < f.binade q := by omega
    have h2 := binade_le_abs f q h1
    have h3 : (2 : ℚ) ^ k ≤ 2 ^ f.binade q := zpow_le_zpow_right₀ (by norm_num) (by omega)
    linarith
  unfold Format.quantum
  exact zpow_le_zpow_right₀ (by norm_num) (by omega)

theorem quantum_le_rel (f : Format) (k : ℤ) (hk : f.emin < k) {q : ℚ} (h : 2 ^ k ≤ |q|) :
    f.quantum q ≤ |q| * 2 ^ (-((f.p : ℤ) - 1)) := by
  have hb : f.emin < f.binade q := by
    by_contra hc
    have h1 := abs_lt_binade f q
    have h3 : (2 : ℚ) ^ (f.binade q + 1) ≤ 2 ^ k := zpow_le_zpow_right₀ (by norm_num) (by omega)
    linarith
  have h2 := binade_le_abs f q hb
  unfold Format.quantum
  rw [sub_eq_add_neg, zpow_add₀ (by norm_num : (2 : ℚ) ≠ 0)]
  exact mul_le_mul_of_nonneg_right h2 (by positivity)

theorem rnd_intCast (f : Format) (hp : 1 ≤ f.p) (he : f.emin ≤ 0) (n : ℤ)
    (h : |n| ≤ 2 ^ f.p) : f.rnd (n : ℚ) = n := by
  by_cases h0 : n = 0
  · rw [h0]
    simpa using rnd_zero f
  have hpos : (1 : ℚ) ≤ |(n : ℚ)| := by
    have : 1 ≤ |n| := Int.one_le_abs h0
    exact_mod_cast this
  have hb1 : f.emin < f.binade (n : ℚ) ∨ f.binade (n : ℚ) = 0 := by
    have := binade_mono f (x := 1) (y := (n : ℚ)) (by simpa using hpos)
    have h1 : f.binade 1 = max 0 f.emin :=
      binade_eq f 1 0 (by norm_num) (by norm_num)
    rw [h1, max_eq_left he] at this
    omega
  have hlo : (2 : ℚ) ^ f.binade (n : ℚ) ≤ |(n : ℚ)| := by
    rcases hb1 with hb | hb
    · exact binade_le_abs f _ hb
    · rw [hb]
      simpa using hpos
  have hhi : |(n : ℚ)| ≤ 2 ^ (f.p : ℤ) := by
    rw [zpow_natCast]
    exact_mod_cast h
  have hbp : f.binade (n : ℚ) ≤ f.p := by
    by_contra hc
    have h3 : (2 : ℚ) ^ ((f.p : ℤ) + 1) ≤ 2 ^ f.binade (n : ℚ) :=
      zpow_le_zpow_right₀ (by norm_num) (by omega)
    have h4 : (2 : ℚ) ^ (f.p : ℤ) < 2 ^ ((f.p : ℤ) + 1) :=
      zpow_lt_zpow_right₀ (by norm_num) (by omega)
    linarith
  have hb0 : 0 ≤ f.binade (n : ℚ) := by
    rcases hb1 with hb | hb
    · have := binade_mono f (x := 1) (y := (n : ℚ)) (by simpa using hpos)
      have h1 : f.binade 1 = max 0 f.emin := binade_eq f 1 0 (by norm_num) (by norm_num)
      rw [h1, max_eq_left he] at this
      exact this
    · omega
  obtain ⟨m, hm⟩ : ∃ m : ℤ, (n : ℚ) / f.quantum (n : ℚ) = (m : ℚ) := by
    rcases lt_or_eq_of_le hbp with hlt | heq
    · refine ⟨n * 2 ^ ((f.p : ℤ) - 1 - f.binade (n : ℚ)).toNat, ?_⟩
      unfold Format.quantum
      push_cast
      rw [← zpow_natCast, Int.toNat_of_nonneg (by omega), div_eq_mul_inv, ← zpow_neg]
      congr 2
      ring
    · have habs : |(n : ℚ)| = 2 ^ (f.p : ℤ) := by
        rw [heq] at hlo
        exact le_antisymm hhi hlo
      have hq : f.quantum (n : ℚ) = 2 := by
        unfold Format.quantum
        rw [heq]
        norm_num
      rcases abs_choice (n : ℚ) with hc | hc
      · refine ⟨2 ^ (f.p - 1), ?_⟩
        rw [hq, ← hc, habs]
        push_cast
        rw [← zpow_natCast, Nat.cast_sub hp, div_eq_iff (by norm_num)]
        rw [show (2 : ℚ) ^ (f.p : ℤ) = 2 ^ (((f.p : ℤ) - ((1 : ℕ) : ℤ)) + 1) by congr 1; simp]
        rw [zpow_add₀ (by norm_num : (2 : ℚ) ≠ 0)]
        norm_num
      · refine ⟨-2 ^ (f.p - 1), ?_⟩
        have hn : (n : ℚ) = -(2 ^ (f.p : ℤ)) := by rw [← habs, hc]; ring
        rw [hq, hn]
        push_cast
        rw [← zpow_natCast, Nat.cast_sub hp, div_eq_iff (by norm_num)]
        rw [show (2 : ℚ) ^ (f.p : ℤ) = 2 ^ (((f.p : ℤ) - ((1 : ℕ) : ℤ)) + 1) by congr 1; simp]
        rw [zpow_add₀ (by norm_num : (2 : ℚ) ≠ 0)]
        norm_num
  have hu := quantum_pos f (n : ℚ)
  unfold Format.rnd
  rw [hm, roundHalfEven_intCast, ← hm]
  field_simp

/-! ## Arithmetic on finite values -/

theorem ofRat_finite (f : Format) (q : ℚ) (h : |q| < f.threshold) :
    (Binary.ofRat q : Binary f) = ⟨.finite (f.rnd q)⟩ := by
  simp only [Binary.ofRat, Format.round]
  rw [if_neg (not_le.mpr h)]

theorem binary_intCast (f : Format) (n : ℤ) (h : |(n : ℚ)| < f.threshold) :
    ((n : ℤ) : Binary f) = ⟨.finite (f.rnd n)⟩ :=
  ofRat_finite f n h

theorem binary_mul (f : Format) (a b : ℚ) (h : |a * b| < f.threshold) :
    (⟨.finite a⟩ * ⟨.finite b⟩ : Binary f) = ⟨.finite (f.rnd (a * b))⟩ :=
  ofRat_finite f (a * b) h

theorem binary_sub (f : Format) (a b : ℚ) (h : |a - b| < f.threshold) :
    (⟨.finite a⟩ - ⟨.finite b⟩ : Binary f) = ⟨.finite (f.rnd (a - b))⟩ := by
  rw [sub_eq_add_neg] at h ⊢
  exact ofRat_finite f (a + -b) h

theorem binary_add (f : Format) (a b : ℚ) (h : |a + b| < f.threshold) :
    (⟨.finite a⟩ + ⟨.finite b⟩ : Binary f) = ⟨.finite (f.rnd (a + b))⟩ :=
  ofRat_finite f (a + b) h

theorem binary_div (f : Format) (a b : ℚ) (hb : b ≠ 0) (h : |a / b| < f.threshold) :
    (⟨.finite a⟩ / ⟨.finite b⟩ : Binary f) = ⟨.finite (f.rnd (a / b))⟩ := by
  have e : (⟨.finite a⟩ / ⟨.finite b⟩ : Binary f) = Binary.ofRat (a / b) := by
    show (⟨f.round (Fp.div (.finite a) (.finite b))⟩ : Binary f) = _
    simp only [Fp.div]
    rw [if_neg hb]
    rfl
  rw [e]
  exact ofRat_finite f (a / b) h

theorem binary_neg (f : Format) (a : ℚ) :
    (-(⟨.finite a⟩ : Binary f)) = ⟨.finite (-a)⟩ := rfl

theorem threshold32 : binary32.threshold = 2 ^ 128 - 2 ^ 103 := by
  norm_num [Format.threshold, binary32]

theorem threshold64 : binary64.threshold = 2 ^ 1024 - 2 ^ 970 := by
  norm_num [Format.threshold, binary64]

theorem lt_threshold32 {q : ℚ} (h : |q| ≤ 8589934592) : |q| < binary32.threshold := by
  rw [threshold32]
  refine lt_of_le_of_lt h ?_
  norm_num

theorem rnd32_nine_tenths : binary32.rnd 0.9 = 15099494 / 16777216 := by
  rw [rnd_eq_of_near_pos binary32 0.9 (-1) 15099494 (by norm_num) (by norm_num)
    (by decide) (by norm_num [binary32]) (by norm_num [binary32])]
  norm_num [binary32]

theorem rnd32_one : binary32.rnd 1 = 1 := by
  simpa using rnd_two_zpow binary32 (by decide) 0 (by decide)

theorem rnd32_top : binary32.rnd 2147483648 = 2147483648 := by
  have := rnd_two_zpow binary32 (by decide) 31 (by decide)
  norm_num at this
  exact this

theorem zebra_bounds (layers i : Int) (h1 : 1 ≤ layers) (h2 : layers ≤ 2147483647)
    (hi0 : 0 ≤ i) (hi : i < layers) :
    (1 ≤ binary32.rnd layers ∧ binary32.rnd layers ≤ 2147483648) ∧
    (0 ≤ binary32.rnd 0.9 / binary32.rnd layers ∧
      binary32.rnd 0.9 / binary32.rnd layers ≤ 1) ∧
    (0 ≤ binary32.rnd (binary32.rnd 0.9 / binary32.rnd layers) ∧
      binary32.rnd (binary32.rnd 0.9 / binary32.rnd layers) ≤ 1) ∧
    (0 ≤ binary32.rnd i ∧ binary32.rnd i ≤ 2147483648) ∧
    (0 ≤ binary32.rnd i * binary32.rnd (binary32.rnd 0.9 / binary32.rnd layers) ∧
      binary32.rnd i * binary32.rnd (binary32.rnd 0.9 / binary32.rnd layers) ≤ 2147483648) ∧
    (0 ≤ binary32.rnd (binary32.rnd i *
        binary32.rnd (binary32.rnd 0.9 / binary32.rnd layers)) ∧
      binary32.rnd (binary32.rnd i *
        binary32.rnd (binary32.rnd 0.9 / binary32.rnd layers)) ≤ 2147483648) := by
  have hp : 1 ≤ binary32.p := by decide
  have hL1 : (1 : ℚ) ≤ (layers : ℚ) := by exact_mod_cast h1
  have hL2 : (layers : ℚ) ≤ 2147483648 := by
    have : layers ≤ 2147483648 := by omega
    exact_mod_cast this
  have hi1 : (0 : ℚ) ≤ (i : ℚ) := by exact_mod_cast hi0
  have hi2 : (i : ℚ) ≤ 2147483648 := le_trans (by exact_mod_cast le_of_lt hi) hL2
  have aL : 1 ≤ binary32.rnd layers := by
    have := rnd_mono binary32 hp hL1
    rwa [rnd32_one] at this
  have bL : binary32.rnd layers ≤ 2147483648 := by
    have := rnd_mono binary32 hp hL2
    rwa [rnd32_top] at this
  have hc := rnd32_nine_tenths
  have hq0 : 0 ≤ binary32.rnd 0.9 / binary32.rnd layers := by
    rw [hc]
    exact div_nonneg (by norm_num) (by linarith)
  have hq1 : binary32.rnd 0.9 / binary32.rnd layers ≤ 1 := by
    rw [hc, div_le_one (by linarith)]
    refine le_trans ?_ aL
    norm_num
  have at0 := rnd_nonneg binary32 hq0
  have at1 : binary32.rnd (binary32.rnd 0.9 / binary32.rnd layers) ≤ 1 := by
    have := rnd_mono binary32 hp hq1
    rwa [rnd32_one] at this
  have ai0 := rnd_nonneg binary32 hi1
  have ai1 : binary32.rnd i ≤ 2147483648 := by
    have := rnd_mono binary32 hp hi2
    rwa [rnd32_top] at this
  have hm0 : 0 ≤ binary32.rnd i * binary32.rnd (binary32.rnd 0.9 / binary32.rnd layers) :=
    mul_nonneg ai0 at0
  have hm1 : binary32.rnd i * binary32.rnd (binary32.rnd 0.9 / binary32.rnd layers) ≤
      2147483648 := by
    calc binary32.rnd i * binary32.rnd (binary32.rnd 0.9 / binary32.rnd layers)
        ≤ 2147483648 * 1 := mul_le_mul ai1 at1 at0 (by norm_num)
      _ = 2147483648 := mul_one _
  refine ⟨⟨aL, bL⟩, ⟨hq0, hq1⟩, ⟨at0, at1⟩, ⟨ai0, ai1⟩, ⟨hm0, hm1⟩,
    rnd_nonneg binary32 hm0, ?_⟩
  have := rnd_mono binary32 hp hm1
  rwa [rnd32_top] at this

theorem zebra_size_eq (layers i : Int) (h1 : 1 ≤ layers) (h2 : layers ≤ 2147483647)
    (hi0 : 0 ≤ i) (hi : i < layers) :
    ((0.9 : F32) - (i : F32) * ((0.9 : F32) / (layers : F32))) =
      ⟨.finite (zebraSize layers i)⟩ := by
  obtain ⟨⟨aL, bL⟩, ⟨hq0, hq1⟩, ⟨at0, at1⟩, ⟨ai0, ai1⟩, ⟨hm0, hm1⟩, ap0, ap1⟩ :=
    zebra_bounds layers i h1 h2 hi0 hi
  have hc := rnd32_nine_tenths
  have elit : (0.9 : F32) = ⟨.finite (binary32.rnd 0.9)⟩ :=
    ofRat_finite binary32 0.9 (lt_threshold32 (by rw [abs_of_pos (by norm_num)]; norm_num))
  have eL : ((layers : ℤ) : F32) = ⟨.finite (binary32.rnd layers)⟩ := by
    refine binary_intCast binary32 layers (lt_threshold32 ?_)
    rw [abs_of_nonneg (by exact_mod_cast (by omega : (0 : ℤ) ≤ layers))]
    have : (layers : ℚ) ≤ 2147483648 := by
      have : layers ≤ 2147483648 := by omega
      exact_mod_cast this
    linarith
  have eI : ((i : ℤ) : F32) = ⟨.finite (binary32.rnd i)⟩ := by
    refine binary_intCast binary32 i (lt_threshold32 ?_)
    rw [abs_of_nonneg (by exact_mod_cast hi0)]
    have : (i : ℚ) ≤ 2147483648 := by
      have : i ≤ 2147483648 := by omega
      exact_mod_cast this
    linarith
  rw [elit, eL, eI]
  rw [binary_div binary32 _ _ (by linarith) (lt_threshold32 (by
    rw [abs_of_nonneg hq0]; linarith))]
  rw [binary_mul binary32 _ _ (lt_threshold32 (by rw [abs_of_nonneg hm0]; linarith))]
  have hc0 : 0 ≤ binary32.rnd 0.9 := by rw [hc]; norm_num
  have hc1 : binary32.rnd 0.9 ≤ 1 := by rw [hc]; norm_num
  rw [binary_sub binary32 _ _ (lt_threshold32 (by
    rw [abs_le]
    constructor <;> linarith))]
  rfl

theorem zebra_size_antitone (layers i j : Int) (h1 : 1 ≤ layers) (h2 : layers ≤ 2147483647)
    (hi0 : 0 ≤ i) (hij : i ≤ j) (hj : j < layers) :
    zebraSize layers j ≤ zebraSize layers i := by
  have hp : 1 ≤ binary32.p := by decide
  obtain ⟨-, -, ⟨at0, -⟩, -, -, -⟩ := zebra_bounds layers i h1 h2 hi0 (by omega)
  unfold zebraSize
  refine rnd_mono binary32 hp (sub_le_sub_left (rnd_mono binary32 hp ?_) _)
  exact mul_le_mul_of_nonneg_right
    (rnd_mono binary32 hp (by exact_mod_cast hij)) at0

theorem rnd32_step_low : binary32.rnd (binary32.rnd 0.9 / 7000000) = 9047410 / 2 ^ 46 := by
  rw [rnd32_nine_tenths]
  rw [rnd_eq_of_near_pos binary32 _ (-23) 9047410 (by norm_num) (by norm_num)
    (by decide) (by norm_num [binary32]) (by norm_num [binary32])]
  norm_num [binary32]

theorem zebra_size_strict (layers i j : Int) (h1 : 1 ≤ layers) (h2 : layers ≤ 7000000)
    (hi0 : 0 ≤ i) (hij : i < j) (hj : j < layers) :
    zebraSize layers j < zebraSize layers i := by
  have hp : 1 ≤ binary32.p := by decide
  have he : binary32.emin ≤ 0 := by decide
  have hc := rnd32_nine_tenths
  have hc0 : 0 ≤ binary32.rnd 0.9 := by rw [hc]; norm_num
  have hc1 : binary32.rnd 0.9 ≤ 15099494 / 16777216 := by rw [hc]
  have hc2 : (15099494 : ℚ) / 16777216 ≤ binary32.rnd 0.9 := by rw [hc]
  have small : ∀ n : ℤ, 0 ≤ n → n ≤ layers → binary32.rnd (n : ℚ) = n := by
    intro n hn0 hn
    refine rnd_intCast binary32 hp he n ?_
    rw [abs_of_nonneg hn0]
    have : (2 : ℤ) ^ binary32.p = 16777216 := by decide
    omega
  have eL := small layers (by omega) le_rfl
  have eI := small i hi0 (by omega)
  have eJ := small j (by omega) (by omega)
  have hLq1 : (1 : ℚ) ≤ (layers : ℚ) := by exact_mod_cast h1
  have hLq2 : (layers : ℚ) ≤ 7000000 := by exact_mod_cast h2
  have hLpos : (0 : ℚ) < (layers : ℚ) := by linarith
  have hIq : (0 : ℚ) ≤ (i : ℚ) := by exact_mod_cast hi0
  have hIJ : (i : ℚ) + 1 ≤ (j : ℚ) := by exact_mod_cast (by omega : i + 1 ≤ j)
  have hJL : (j : ℚ) + 1 ≤ (layers : ℚ) := by exact_mod_cast (by omega : j + 1 ≤ layers)
  -- the step
  have hq : binary32.rnd 0.9 / 7000000 ≤ binary32.rnd 0.9 / (layers : ℚ) :=
    div_le_div_of_nonneg_left hc0 hLpos hLq2
  have hqlow : (2 : ℚ) ^ (-23 : ℤ) ≤ |binary32.rnd 0.9 / (layers : ℚ)| := by
    rw [abs_of_nonneg (div_nonneg hc0 (le_of_lt hLpos))]
    refine le_trans ?_ hq
    rw [hc]
    norm_num
  have htlow : 9047410 / 2 ^ 46 ≤ binary32.rnd (binary32.rnd 0.9 / (layers : ℚ)) := by
    have := rnd_mono binary32 hp hq
    rwa [rnd32_step_low] at this
  have hterr := rnd_error binary32 (binary32.rnd 0.9 / (layers : ℚ))
  have hqu := quantum_le_rel binary32 (-23) (by decide) hqlow
  rw [abs_of_nonneg (div_nonneg hc0 (le_of_lt hLpos))] at hqu
  have hpw : (2 : ℚ) ^ (-((binary32.p : ℤ) - 1)) = 1 / 8388608 := by norm_num [binary32]
  rw [hpw] at hqu
  have hthi : binary32.rnd (binary32.rnd 0.9 / (layers : ℚ)) * (layers : ℚ) ≤
      binary32.rnd 0.9 * (1 + 1 / 16777216) := by
    have h3 := (abs_le.mp hterr).2
    have h4 : binary32.rnd (binary32.rnd 0.9 / (layers : ℚ)) ≤
        binary32.rnd 0.9 / (layers : ℚ) * (1 + 1 / 16777216) := by linarith
    calc binary32.rnd (binary32.rnd 0.9 / (layers : ℚ)) * (layers : ℚ)
        ≤ binary32.rnd 0.9 / (layers : ℚ) * (1 + 1 / 16777216) * (layers : ℚ) :=
          mul_le_mul_of_nonneg_right h4 (le_of_lt hLpos)
      _ = binary32.rnd 0.9 * (1 + 1 / 16777216) := by
        field_simp
        ring
  have ht0 : 0 < binary32.rnd (binary32.rnd 0.9 / (layers : ℚ)) :=
    lt_of_lt_of_le (by norm_num) htlow
  -- the products
  have prod : ∀ n : ℚ, 0 ≤ n → n + 1 ≤ (layers : ℚ) →
      |binary32.rnd (n * binary32.rnd (binary32.rnd 0.9 / (layers : ℚ))) -
        n * binary32.rnd (binary32.rnd 0.9 / (layers : ℚ))| ≤ 1 / 33554432 ∧
      0 ≤ binary32.rnd (n * binary32.rnd (binary32.rnd 0.9 / (layers : ℚ))) ∧
      binary32.rnd (n * binary32.rnd (binary32.rnd 0.9 / (layers : ℚ))) ≤ 1 := by
    intro n hn0 hn1
    have hm0 : 0 ≤ n * binary32.rnd (binary32.rnd 0.9 / (layers : ℚ)) :=
      mul_nonneg hn0 (le_of_lt ht0)
    have hm1 : n * binary32.rnd (binary32.rnd 0.9 / (layers : ℚ)) < 1 := by
      have : n * binary32.rnd (binary32.rnd 0.9 / (layers : ℚ)) ≤
          (layers : ℚ) * binary32.rnd (binary32.rnd 0.9 / (layers : ℚ)) :=
        mul_le_mul_of_nonneg_right (by linarith) (le_of_lt ht0)
      have h5 : binary32.rnd 0.9 * (1 + 1 / 16777216) < 1 := by
        rw [hc]
        norm_num
      linarith
    have hquant := quantum_le_of_abs_lt binary32 0 (by decide)
      (q := n * binary32.rnd (binary32.rnd 0.9 / (layers : ℚ)))
      (by rw [abs_of_nonneg hm0]; simpa using hm1)
    have hpw2 : (2 : ℚ) ^ ((0 : ℤ) - 1 - ((binary32.p : ℤ) - 1)) = 1 / 16777216 := by
      norm_num [binary32]
    rw [hpw2] at hquant
    have herr := rnd_error binary32 (n * binary32.rnd (binary32.rnd 0.9 / (layers : ℚ)))
    refine ⟨by linarith, rnd_nonneg binary32 hm0, ?_⟩
    have := rnd_mono binary32 hp (le_of_lt hm1)
    rwa [rnd32_one] at this
  obtain ⟨ei, pi0, pi1⟩ := prod (i : ℚ) hIq (by linarith)
  obtain ⟨ej, pj0, pj1⟩ := prod (j : ℚ) (by linarith) hJL
  -- the differences
  have diff : ∀ x : ℚ, 0 ≤ x → x ≤ 1 →
      |binary32.rnd (binary32.rnd 0.9 - x) - (binary32.rnd 0.9 - x)| ≤ 1 / 33554432 := by
    intro x hx0 hx1
    have hquant := quantum_le_of_abs_lt binary32 0 (by decide) (q := binary32.rnd 0.9 - x)
      (by
        rw [abs_lt]
        constructor
        · have : (0 : ℚ) < binary32.rnd 0.9 := by rw [hc]; norm_num
          simp only [zpow_zero]
          linarith
        · have : binary32.rnd 0.9 < 1 := by rw [hc]; norm_num
          simp only [zpow_zero]
          linarith)
    have hpw2 : (2 : ℚ) ^ ((0 : ℤ) - 1 - ((binary32.p : ℤ) - 1)) = 1 / 16777216 := by
      norm_num [binary32]
    rw [hpw2] at hquant
    have herr := rnd_error binary32 (binary32.rnd 0.9 - x)
    linarith
  have di := abs_le.mp (diff _ pi0 pi1)
  have dj := abs_le.mp (diff _ pj0 pj1)
  have ei' := abs_le.mp ei
  have ej' := abs_le.mp ej
  unfold zebraSize
  rw [eL, eI, eJ]
  have hstep : (1 : ℚ) / 8388608 <
      binary32.rnd (binary32.rnd 0.9 / (layers : ℚ)) := by
    refine lt_of_lt_of_le ?_ htlow
    norm_num
  have hmul : ((i : ℚ) + 1) * binary32.rnd (binary32.rnd 0.9 / (layers : ℚ)) ≤
      (j : ℚ) * binary32.rnd (binary32.rnd 0.9 / (layers : ℚ)) :=
    mul_le_mul_of_nonneg_right hIJ (le_of_lt ht0)
  linarith [di.1, di.2, dj.1, dj.2, ei'.1, ei'.2, ej'.1, ej'.2]

theorem rnd32_small_nat (n : ℕ) (h : n ≤ 16777216) : binary32.rnd (n : ℚ) = n := by
  have := rnd_intCast binary32 (by decide) (by decide) (n : ℤ) (by
    rw [abs_of_nonneg (by omega)]
    have : (2 : ℤ) ^ binary32.p = 16777216 := by decide
    omega)
  simpa using this

theorem zebraSize_collision :
    zebraSize 16000000 8 = 15099486 / 16777216 ∧
    zebraSize 16000000 9 = 15099486 / 16777216 := by
  have eL : binary32.rnd (16000000 : ℚ) = 16000000 := by
    simpa using rnd32_small_nat 16000000 (by norm_num)
  have e8 : binary32.rnd (8 : ℚ) = 8 := by simpa using rnd32_small_nat 8 (by norm_num)
  have e9 : binary32.rnd (9 : ℚ) = 9 := by simpa using rnd32_small_nat 9 (by norm_num)
  have et : binary32.rnd (15099494 / 16777216 / 16000000) = 15832967 / 2 ^ 48 := by
    rw [rnd_eq_of_near_pos binary32 _ (-25) 15832967 (by norm_num) (by norm_num)
      (by decide) (by norm_num [binary32]) (by norm_num [binary32])]
    norm_num [binary32]
  have p8 : binary32.rnd (8 * (15832967 / 2 ^ 48)) = 15832967 / 2 ^ 45 := by
    rw [rnd_eq_of_near_pos binary32 _ (-22) 15832967 (by norm_num) (by norm_num)
      (by decide) (by norm_num [binary32]) (by norm_num [binary32])]
    norm_num [binary32]
  have p9 : binary32.rnd (9 * (15832967 / 2 ^ 48)) = 8906044 / 2 ^ 44 := by
    rw [rnd_eq_of_near_pos binary32 _ (-21) 8906044 (by norm_num) (by norm_num)
      (by decide) (by norm_num [binary32]) (by norm_num [binary32])]
    norm_num [binary32]
  have s8 : binary32.rnd (15099494 / 16777216 - 15832967 / 2 ^ 45) =
      15099486 / 16777216 := by
    rw [rnd_eq_of_near_pos binary32 _ (-1) 15099486 (by norm_num) (by norm_num)
      (by decide) (by norm_num [binary32]) (by norm_num [binary32])]
    norm_num [binary32]
  have s9 : binary32.rnd (15099494 / 16777216 - 8906044 / 2 ^ 44) =
      15099486 / 16777216 := by
    rw [rnd_eq_of_near_pos binary32 _ (-1) 15099486 (by norm_num) (by norm_num)
      (by decide) (by norm_num [binary32]) (by norm_num [binary32])]
    norm_num [binary32]
  unfold zebraSize
  simp only [Int.cast_ofNat]
  rw [rnd32_nine_tenths, eL, et, e8, e9, p8, p9, s8, s9]
  exact ⟨rfl, rfl⟩

theorem zebraSize_eight_one : zebraSize 8 1 = 13212057 / 16777216 := by
  have e8 : binary32.rnd (8 : ℚ) = 8 := by simpa using rnd32_small_nat 8 (by norm_num)
  have e1 : binary32.rnd (1 : ℚ) = 1 := rnd32_one
  have et : binary32.rnd (15099494 / 16777216 / 8) = 15099494 / 2 ^ 27 := by
    rw [rnd_eq_of_near_pos binary32 _ (-4) 15099494 (by norm_num) (by norm_num)
      (by decide) (by norm_num [binary32]) (by norm_num [binary32])]
    norm_num [binary32]
  have p1 : binary32.rnd (1 * (15099494 / 2 ^ 27)) = 15099494 / 2 ^ 27 := by
    rw [rnd_eq_of_near_pos binary32 _ (-4) 15099494 (by norm_num) (by norm_num)
      (by decide) (by norm_num [binary32]) (by norm_num [binary32])]
    norm_num [binary32]
  have s1 : binary32.rnd (15099494 / 16777216 - 15099494 / 2 ^ 27) =
      13212057 / 16777216 := by
    rw [rnd_eq_of_near_pos binary32 _ (-1) 13212057 (by norm_num) (by norm_num)
      (by decide) (by norm_num [binary32]) (by norm_num [binary32])]
    norm_num [binary32]
  unfold zebraSize
  simp only [Int.cast_ofNat, Int.cast_one]
  rw [rnd32_nine_tenths, e8, et, e1, p1, s1]

theorem zebra_vertex (vertices : List F32) (layers : Int) (i j : Nat) (h1 : 1 ≤ layers)
    (h2 : layers ≤ 2147483647) (hi : (i : Int) < layers) (hj : j < 6) :
    vertexAt (Shapes.buildZebraSquare vertices layers) (6 * i + j) =
      vertexAt (Shapes.buildZebraSquare.body (α := F32) (0.9 / ((layers : Int) : F32)) i [])
        j ∧
    ((0.9 : F32) - ((i : Int) : F32) * ((0.9 : F32) / ((layers : Int) : F32))) =
      ⟨.finite (zebraSize layers i)⟩ :=
  ⟨zebra_quad vertices layers i j hi hj,
    zebra_size_eq layers i h1 h2 (by omega) hi⟩

/-! ## The sizes of the zebra layers in `float` arithmetic -/

theorem zebra_layout (vertices : List F32) (layers : Int) (i : Nat) (h1 : 1 ≤ layers)
    (h2 : layers ≤ 2147483647) (hi : (i : Int) < layers) (s c : F32)
    (hs : s = ⟨.finite (zebraSize layers i)⟩) (hc : c = if i % 2 = 0 then 1.0 else 0.0) :
    vertexAt (Shapes.buildZebraSquare vertices layers) (6 * i) = [-s, -s, c, c, c] ∧
    vertexAt (Shapes.buildZebraSquare vertices layers) (6 * i + 1) = [s, -s, c, c, c] ∧
    vertexAt (Shapes.buildZebraSquare vertices layers) (6 * i + 2) = [s, s, c, c, c] ∧
    vertexAt (Shapes.buildZebraSquare vertices layers) (6 * i + 3) = [-s, -s, c, c, c] ∧
    vertexAt (Shapes.buildZebraSquare vertices layers) (6 * i + 4) = [s, s, c, c, c] ∧
    vertexAt (Shapes.buildZebraSquare vertices layers) (6 * i + 5) = [-s, s, c, c, c] := by
  have h0 := zebra_quad vertices layers i 0 hi (by omega)
  have h1' := zebra_quad vertices layers i 1 hi (by omega)
  have h2' := zebra_quad vertices layers i 2 hi (by omega)
  have h3 := zebra_quad vertices layers i 3 hi (by omega)
  have h4 := zebra_quad vertices layers i 4 hi (by omega)
  have h5 := zebra_quad vertices layers i 5 hi (by omega)
  have hsize := zebra_size_eq layers i h1 h2 (by omega) hi
  rw [Nat.add_zero] at h0
  rw [h0, h1', h2', h3, h4, h5]
  simp only [Shapes.buildZebraSquare.body, insert_end, vertexAt, zebra_color_parity, hsize,
    ← hs, ← hc]
  simp

/-- Counterexample to C3: in the `float` arithmetic of the program the sizes are not strictly
decreasing and are not the exact values. With `layers = 16000000` the layers 8 and 9 have the
same size `15099486 / 2^24` (vertex 2 of each quad is `(size, size)`), and with `layers = 8`,
the value `main` passes, layer 1 has size `13212057 / 2^24`, which is not `0.9 - 0.9 / 8`. -/
theorem zebra_sizes_collide :
    vertexAt (Shapes.buildZebraSquare ([] : List F32) 16000000) (6 * 8 + 2) =
      [⟨.finite (15099486 / 16777216)⟩, ⟨.finite (15099486 / 16777216)⟩, 1.0, 1.0, 1.0] ∧
    vertexAt (Shapes.buildZebraSquare ([] : List F32) 16000000) (6 * 9 + 2) =
      [⟨.finite (15099486 / 16777216)⟩, ⟨.finite (15099486 / 16777216)⟩, 0.0, 0.0, 0.0] ∧
    vertexAt (Shapes.buildZebraSquare ([] : List F32) 8) (6 * 1 + 2) =
      [⟨.finite (13212057 / 16777216)⟩, ⟨.finite (13212057 / 16777216)⟩, 0.0, 0.0, 0.0] ∧
    (13212057 / 16777216 : ℚ) ≠ 0.9 - 1 * (0.9 / 8) := by
  refine ⟨?_, ?_, ?_, by norm_num⟩
  · have h := (zebra_layout [] 16000000 8 (by decide) (by decide) (by decide) _ _ rfl rfl).2.2.1
    rw [show ((8 : Nat) : Int) = 8 from rfl, zebraSize_collision.1,
      if_pos (by decide)] at h
    exact h
  · have h := (zebra_layout [] 16000000 9 (by decide) (by decide) (by decide) _ _ rfl rfl).2.2.1
    rw [show ((9 : Nat) : Int) = 9 from rfl, zebraSize_collision.2,
      if_neg (by decide)] at h
    exact h
  · have h := (zebra_layout [] 8 1 (by decide) (by decide) (by decide) _ _ rfl rfl).2.2.1
    rw [show ((1 : Nat) : Int) = 1 from rfl, zebraSize_eight_one,
      if_neg (by decide)] at h
    exact h

/-- C3, amended: in the `float` arithmetic of the program, for every `int` `layers ≥ 1` and
every layer index `i < layers`, the vertices `6i .. 6i+5` of the output of `buildZebraSquare`
are `(-s,-s), (s,-s), (s,s), (-s,-s), (s,s), (-s,s)`, where `s` is the finite binary32 value
of `0.9f - i * (0.9f / layers)` with every operation rounded to nearest (`zebraSize`), each
with colour `(c, c, c)` where `c = 1` for even `i` and `c = 0` for odd `i`. The size never
increases with `i`, and for `layers ≤ 7000000` it is strictly decreasing in `i`. -/
theorem zebra_layers (vertices : List F32) (layers : Int) (h1 : 1 ≤ layers)
    (h2 : layers ≤ 2147483647) :
    (∀ i : Nat, (i : Int) < layers →
      ∀ s c : F32, s = ⟨.finite (zebraSize layers i)⟩ →
        c = (if i % 2 = 0 then 1.0 else 0.0) →
        s = (0.9 : F32) - ((i : Int) : F32) * ((0.9 : F32) / ((layers : Int) : F32)) ∧
        vertexAt (Shapes.buildZebraSquare vertices layers) (6 * i) = [-s, -s, c, c, c] ∧
        vertexAt (Shapes.buildZebraSquare vertices layers) (6 * i + 1) = [s, -s, c, c, c] ∧
        vertexAt (Shapes.buildZebraSquare vertices layers) (6 * i + 2) = [s, s, c, c, c] ∧
        vertexAt (Shapes.buildZebraSquare vertices layers) (6 * i + 3) = [-s, -s, c, c, c] ∧
        vertexAt (Shapes.buildZebraSquare vertices layers) (6 * i + 4) = [s, s, c, c, c] ∧
        vertexAt (Shapes.buildZebraSquare vertices layers) (6 * i + 5) = [-s, s, c, c, c]) ∧
    (∀ i j : Nat, i < j → (j : Int) < layers → zebraSize layers j ≤ zebraSize layers i) ∧
    (layers ≤ 7000000 →
      ∀ i j : Nat, i < j → (j : Int) < layers → zebraSize layers j < zebraSize layers i) := by
  refine ⟨fun i hi s c hs hc => ⟨?_, zebra_layout vertices layers i h1 h2 hi s c hs hc⟩,
    fun i j hij hj => zebra_size_antitone layers i j h1 h2 (by omega) (by omega) hj,
    fun h3 i j hij hj => zebra_size_strict layers i j h1 h3 (by omega) (by omega) hj⟩
  rw [hs]
  exact (zebra_size_eq layers i h1 h2 (by omega) hi).symm

/-- Witness of C3, amended: `layers = 8`, the value `main` passes, at the layers 3 and 4. -/
theorem zebra_layers_witness :
    ((1 : Int) ≤ 8 ∧ (8 : Int) ≤ 2147483647) ∧
    vertexAt (Shapes.buildZebraSquare ([] : List F32) 8) (6 * 3) =
      [-⟨.finite (zebraSize 8 3)⟩, -⟨.finite (zebraSize 8 3)⟩, 0.0, 0.0, 0.0] ∧
    zebraSize 8 4 ≤ zebraSize 8 3 ∧
    ((8 : Int) ≤ 7000000 ∧ zebraSize 8 4 < zebraSize 8 3) :=
  ⟨⟨by decide, by decide⟩,
    ((zebra_layers [] 8 (by decide) (by decide)).1 3 (by decide) _ _ rfl rfl).2.1,
    (zebra_layers [] 8 (by decide) (by decide)).2.1 3 4 (by decide) (by decide),
    by decide,
    (zebra_layers [] 8 (by decide) (by decide)).2.2 (by decide) 3 4 (by decide) (by decide)⟩

/-! ## Error bounds and the closing angle -/

theorem rnd_error_le (f : Format) (q : ℚ) :
    |f.rnd q - q| ≤ |q| * 2 ^ (-(f.p : ℤ)) + 2 ^ (f.emin - (f.p : ℤ)) := by
  have h := rnd_error f q
  have hq : 0 ≤ |q| * (2 : ℚ) ^ (-(f.p : ℤ)) := mul_nonneg (abs_nonneg q) (by positivity)
  have hs : (0 : ℚ) < 2 ^ (f.emin - (f.p : ℤ)) := by positivity
  rcases lt_or_eq_of_le (binade_ge f q) with hlt | heq
  · have h2 := binade_le_abs f q hlt
    have h3 : f.quantum q / 2 ≤ |q| * 2 ^ (-(f.p : ℤ)) := by
      unfold Format.quantum
      have e : (2 : ℚ) ^ (f.binade q - ((f.p : ℤ) - 1)) / 2 =
          2 ^ f.binade q * 2 ^ (-(f.p : ℤ)) := by
        rw [show f.binade q - ((f.p : ℤ) - 1) = f.binade q + -(f.p : ℤ) + 1 by ring,
          zpow_add₀ (by norm_num : (2 : ℚ) ≠ 0), zpow_add₀ (by norm_num : (2 : ℚ) ≠ 0)]
        norm_num
      rw [e]
      exact mul_le_mul_of_nonneg_right h2 (by positivity)
    linarith
  · have h3 : f.quantum q / 2 = 2 ^ (f.emin - (f.p : ℤ)) := by
      unfold Format.quantum
      rw [← heq, show f.emin - ((f.p : ℤ) - 1) = f.emin - (f.p : ℤ) + 1 by ring,
        zpow_add₀ (by norm_num : (2 : ℚ) ≠ 0)]
      norm_num
    linarith

theorem rnd64_error (q : ℚ) :
    |binary64.rnd q - q| ≤ |q| * (1 / 2 ^ 53) + 1 / 2 ^ 1075 := by
  have h := rnd_error_le binary64 q
  have e1 : (2 : ℚ) ^ (-(binary64.p : ℤ)) = 1 / 2 ^ 53 := by norm_num [binary64]
  have e2 : (2 : ℚ) ^ (binary64.emin - (binary64.p : ℤ)) = 1 / 2 ^ 1075 := by
    norm_num [binary64]
  rwa [e1, e2] at h

theorem rnd64_error_coarse (q : ℚ) :
    |binary64.rnd q - q| ≤ |q| * (1 / 2 ^ 53) + 1 / 2 ^ 60 := by
  refine le_trans (rnd64_error q) (add_le_add_left ?_ _)
  exact one_div_le_one_div_of_le (by positivity) (by norm_num)

theorem rnd32_error (q : ℚ) :
    |binary32.rnd q - q| ≤ |q| * (1 / 2 ^ 24) + 1 / 2 ^ 150 := by
  have h := rnd_error_le binary32 q
  have e1 : (2 : ℚ) ^ (-(binary32.p : ℤ)) = 1 / 2 ^ 24 := by norm_num [binary32]
  have e2 : (2 : ℚ) ^ (binary32.emin - (binary32.p : ℤ)) = 1 / 2 ^ 150 := by
    norm_num [binary32]
  rwa [e1, e2] at h

theorem lt_threshold64 {q : ℚ} (h : |q| ≤ 1099511627776) : |q| < binary64.threshold := by
  rw [threshold64]
  refine lt_of_le_of_lt h ?_
  norm_num

theorem rnd64_two_pi :
    binary64.rnd (2 * binary64.rnd 3.14159265358979323846) = 884279719003555 / 2 ^ 47 := by
  have e : binary64.rnd 3.14159265358979323846 = 884279719003555 / 2 ^ 48 := by
    rw [rnd_eq_of_near_pos binary64 _ 1 7074237752028440 (by norm_num) (by norm_num)
      (by decide) (by norm_num [binary64]) (by norm_num [binary64])]
    norm_num [binary64]
  rw [e, rnd_eq_of_near_pos binary64 _ 2 7074237752028440 (by norm_num) (by norm_num)
    (by decide) (by norm_num [binary64]) (by norm_num [binary64])]
  norm_num [binary64]

theorem rnd32_closing_low : binary32.rnd (62831853 / 10000000) = closingAngle := by
  rw [rnd_eq_of_near_pos binary32 _ 2 13176795 (by norm_num) (by norm_num)
    (by decide) (by norm_num [binary32]) (by norm_num [binary32])]
  norm_num [binary32, closingAngle]

theorem rnd32_closing_high : binary32.rnd (62831854 / 10000000) = closingAngle := by
  rw [rnd_eq_of_near_pos binary32 _ 2 13176795 (by norm_num) (by norm_num)
    (by decide) (by norm_num [binary32]) (by norm_num [binary32])]
  norm_num [binary32, closingAngle]

/-- For every positive count `n` the angle computed for the last rim vertex is the `float`
nearest to `2π`. -/
theorem closing_angle_rounds (n : ℚ) (h1 : 1 ≤ n) (h2 : n ≤ 2147483648) :
    |binary64.rnd (884279719003555 / 2 ^ 47 * n)| < binary64.threshold ∧
    |binary64.rnd (884279719003555 / 2 ^ 47 * n) / n| < binary64.threshold ∧
    |binary64.rnd (binary64.rnd (884279719003555 / 2 ^ 47 * n) / n)| < binary32.threshold ∧
    binary32.rnd (binary64.rnd (binary64.rnd (884279719003555 / 2 ^ 47 * n) / n)) =
      closingAngle := by
  have hp : 1 ≤ binary32.p := by decide
  have hn : (0 : ℚ) < n := by linarith
  have hA : (0 : ℚ) < 884279719003555 / 2 ^ 47 * n := by positivity
  have e1 := abs_le.mp (rnd64_error_coarse (884279719003555 / 2 ^ 47 * n))
  rw [abs_of_pos hA] at e1
  -- the product
  have d1lo : 884279719003555 / 2 ^ 47 * n * (1 - 1 / 2 ^ 53) - 1 / 2 ^ 60 ≤
      binary64.rnd (884279719003555 / 2 ^ 47 * n) := by linarith [e1.1]
  have d1hi : binary64.rnd (884279719003555 / 2 ^ 47 * n) ≤
      884279719003555 / 2 ^ 47 * n * (1 + 1 / 2 ^ 53) + 1 / 2 ^ 60 := by linarith [e1.2]
  have d1pos : 0 < binary64.rnd (884279719003555 / 2 ^ 47 * n) := by
    have : (6 : ℚ) ≤ 884279719003555 / 2 ^ 47 * n * (1 - 1 / 2 ^ 53) := by
      have : (6 : ℚ) ≤ 884279719003555 / 2 ^ 47 * (1 - 1 / 2 ^ 53) := by norm_num
      nlinarith
    have : (0 : ℚ) < 1 / 2 ^ 60 := by positivity
    have : (1 : ℚ) / 2 ^ 60 ≤ 1 := by norm_num
    linarith
  -- the quotient
  have q1lo : 884279719003555 / 2 ^ 47 * (1 - 1 / 2 ^ 53) - 1 / 2 ^ 60 ≤
      binary64.rnd (884279719003555 / 2 ^ 47 * n) / n := by
    rw [le_div_iff₀ hn]
    have : 1 / 2 ^ 60 * n ≥ (1 : ℚ) / 2 ^ 60 := by nlinarith
    nlinarith
  have q1hi : binary64.rnd (884279719003555 / 2 ^ 47 * n) / n ≤
      884279719003555 / 2 ^ 47 * (1 + 1 / 2 ^ 53) + 1 / 2 ^ 60 := by
    rw [div_le_iff₀ hn]
    have : 1 / 2 ^ 60 * n ≥ (1 : ℚ) / 2 ^ 60 := by nlinarith
    nlinarith
  have q1pos : 0 < binary64.rnd (884279719003555 / 2 ^ 47 * n) / n := div_pos d1pos hn
  have e2 := abs_le.mp
    (rnd64_error_coarse (binary64.rnd (884279719003555 / 2 ^ 47 * n) / n))
  rw [abs_of_pos q1pos] at e2
  have q1lo' : (62831853 : ℚ) / 10000000 + 1 / 2 ^ 30 ≤
      binary64.rnd (884279719003555 / 2 ^ 47 * n) / n := by
    refine le_trans ?_ q1lo
    norm_num
  have q1hi' : binary64.rnd (884279719003555 / 2 ^ 47 * n) / n ≤
      62831854 / 10000000 - 1 / 2 ^ 30 := by
    refine le_trans q1hi ?_
    norm_num
  have d2lo : (62831853 : ℚ) / 10000000 ≤
      binary64.rnd (binary64.rnd (884279719003555 / 2 ^ 47 * n) / n) := by
    have : binary64.rnd (884279719003555 / 2 ^ 47 * n) / n * (1 / 2 ^ 53) ≤ 1 / 2 ^ 40 := by
      have : binary64.rnd (884279719003555 / 2 ^ 47 * n) / n ≤ 8 := by
        refine le_trans q1hi' ?_
        norm_num
      have h8 : (8 : ℚ) * (1 / 2 ^ 53) ≤ 1 / 2 ^ 40 := by norm_num
      nlinarith
    have : (1 : ℚ) / 2 ^ 40 + 1 / 2 ^ 60 ≤ 1 / 2 ^ 30 := by norm_num
    linarith [e2.1]
  have d2hi : binary64.rnd (binary64.rnd (884279719003555 / 2 ^ 47 * n) / n) ≤
      62831854 / 10000000 := by
    have : binary64.rnd (884279719003555 / 2 ^ 47 * n) / n * (1 / 2 ^ 53) ≤ 1 / 2 ^ 40 := by
      have : binary64.rnd (884279719003555 / 2 ^ 47 * n) / n ≤ 8 := by
        refine le_trans q1hi' ?_
        norm_num
      have h8 : (8 : ℚ) * (1 / 2 ^ 53) ≤ 1 / 2 ^ 40 := by norm_num
      nlinarith
    have : (1 : ℚ) / 2 ^ 40 + 1 / 2 ^ 60 ≤ 1 / 2 ^ 30 := by norm_num
    linarith [e2.2]
  refine ⟨?_, ?_, ?_, ?_⟩
  · refine lt_threshold64 ?_
    rw [abs_of_pos d1pos]
    have h7 : (884279719003555 : ℚ) / 2 ^ 47 * (1 + 1 / 2 ^ 53) ≤ 7 := by norm_num
    have h8 : 884279719003555 / 2 ^ 47 * n * (1 + 1 / 2 ^ 53) ≤ 7 * 2147483648 := by
      calc 884279719003555 / 2 ^ 47 * n * (1 + 1 / 2 ^ 53)
          = 884279719003555 / 2 ^ 47 * (1 + 1 / 2 ^ 53) * n := by ring
        _ ≤ 7 * 2147483648 := mul_le_mul h7 h2 (le_of_lt hn) (by norm_num)
    have h9 : (7 : ℚ) * 2147483648 + 1 / 2 ^ 60 ≤ 1099511627776 := by norm_num
    linarith only [d1hi, h8, h9]
  · refine lt_threshold64 ?_
    rw [abs_of_pos q1pos]
    have h9 : (62831854 : ℚ) / 10000000 - 1 / 2 ^ 30 ≤ 1099511627776 := by norm_num
    linarith only [q1hi', h9]
  · refine lt_threshold32 ?_
    rw [abs_of_pos (lt_of_lt_of_le (by norm_num) d2lo)]
    have h9 : (62831854 : ℚ) / 10000000 ≤ 8589934592 := by norm_num
    linarith only [d2hi, h9]
  · refine le_antisymm ?_ ?_
    · have := rnd_mono binary32 hp d2hi
      rwa [rnd32_closing_high] at this
    · have := rnd_mono binary32 hp d2lo
      rwa [rnd32_closing_low] at this

/-! ## The real cosine and sine at the closing angle -/

theorem closingAngle_sub_two_pi :
    (174845560 : ℝ) / 10 ^ 15 < ((closingAngle : ℚ) : ℝ) - 2 * Real.pi ∧
    ((closingAngle : ℚ) : ℝ) - 2 * Real.pi < 174845561 / 10 ^ 15 := by
  have h1 := Real.pi_gt_d20
  have h2 := Real.pi_lt_d20
  have e : ((closingAngle : ℚ) : ℝ) = 13176795 / 2097152 := by
    unfold closingAngle
    push_cast
    rfl
  rw [e]
  constructor
  · norm_num at h2 ⊢
    linarith
  · norm_num at h1 ⊢
    linarith

theorem cos_closingAngle :
    1 - 1 / 2 ^ 45 ≤ Real.cos ((closingAngle : ℚ) : ℝ) ∧
    Real.cos ((closingAngle : ℚ) : ℝ) ≤ 1 := by
  obtain ⟨h1, h2⟩ := closingAngle_sub_two_pi
  refine ⟨?_, Real.cos_le_one _⟩
  rw [← Real.cos_sub_two_pi]
  refine le_trans ?_ Real.one_sub_sq_div_two_le_cos
  have hy0 : 0 ≤ ((closingAngle : ℚ) : ℝ) - 2 * Real.pi := by
    have : (0 : ℝ) < 174845560 / 10 ^ 15 := by norm_num
    linarith
  have hsq : (((closingAngle : ℚ) : ℝ) - 2 * Real.pi) ^ 2 ≤ (174845561 / 10 ^ 15) ^ 2 :=
    pow_le_pow_left₀ hy0 (le_of_lt h2) 2
  have : ((174845561 : ℝ) / 10 ^ 15) ^ 2 / 2 ≤ 1 / 2 ^ 45 := by norm_num
  linarith

theorem sin_closingAngle :
    (174845559 : ℝ) / 10 ^ 15 ≤ Real.sin ((closingAngle : ℚ) : ℝ) ∧
    Real.sin ((closingAngle : ℚ) : ℝ) ≤ 174845561 / 10 ^ 15 := by
  obtain ⟨h1, h2⟩ := closingAngle_sub_two_pi
  have hy0 : 0 < ((closingAngle : ℚ) : ℝ) - 2 * Real.pi := by
    have : (0 : ℝ) < 174845560 / 10 ^ 15 := by norm_num
    linarith
  rw [← Real.sin_sub_two_pi]
  constructor
  · have h3 := Real.sin_gt_sub_cube hy0 (by
      have : (174845561 : ℝ) / 10 ^ 15 ≤ 1 := by norm_num
      linarith)
    have hcube : (((closingAngle : ℚ) : ℝ) - 2 * Real.pi) ^ 3 ≤ (174845561 / 10 ^ 15) ^ 3 :=
      pow_le_pow_left₀ (le_of_lt hy0) (le_of_lt h2) 3
    have : ((174845561 : ℝ) / 10 ^ 15) ^ 3 / 4 ≤ 1 / 10 ^ 15 := by norm_num
    linarith
  · exact le_trans (Real.sin_le (le_of_lt hy0)) (le_of_lt h2)

theorem sampleMath_accurate : sampleMath.Accurate := by
  refine ⟨rfl, ⟨1, rfl, ?_⟩, ⟨1, rfl, ?_⟩, ⟨0, rfl, ?_⟩, ⟨174845560 / 10 ^ 15, ?_, ?_⟩⟩
  · simp
  · obtain ⟨h1, h2⟩ := cos_closingAngle
    rw [abs_le]
    have : (1 : ℝ) / 2 ^ 45 ≤ 1 / 2 ^ 40 := by norm_num
    push_cast
    constructor <;> linarith
  · simp
  · show (if (⟨.finite closingAngle⟩ : F64) = ⟨.finite 0⟩ then _ else _) = _
    rw [if_neg (by
      intro h
      have h2 : closingAngle = 0 := by
        injection h with h1
        injection h1
      norm_num [closingAngle] at h2)]
  · obtain ⟨h1, h2⟩ := sin_closingAngle
    rw [abs_le]
    have : (2 : ℝ) / 10 ^ 15 ≤ 1 / 2 ^ 40 := by norm_num
    push_cast
    constructor <;> linarith

/-! ## A coordinate `r * cos(theta)` stored in a `float` -/

theorem store_error (q : ℚ) (hq : |q| ≤ 2 ^ 128 - 2 ^ 104 + 2 ^ 90) :
    |q| < binary64.threshold ∧ |binary64.rnd q| < binary32.threshold ∧
    |binary32.rnd (binary64.rnd q) - q| ≤ |q| / 2 ^ 23 + 1 / 2 ^ 149 := by
  have h0 := abs_nonneg q
  have e64 := rnd64_error q
  have e32 := rnd32_error (binary64.rnd q)
  have hz : |binary64.rnd q| ≤ |q| + (|q| * (1 / 2 ^ 53) + 1 / 2 ^ 1075) := by
    have := abs_sub_abs_le_abs_sub (binary64.rnd q) q
    linarith only [this, e64]
  have tiny : (1 : ℚ) / 2 ^ 1075 ≤ 1 / 2 ^ 200 :=
    one_div_le_one_div_of_le (by positivity) (by norm_num)
  refine ⟨?_, ?_, ?_⟩
  · rw [threshold64]
    have : (2 : ℚ) ^ 128 - 2 ^ 104 + 2 ^ 90 < 2 ^ 1024 - 2 ^ 970 := by norm_num
    linarith only [hq, this]
  · rw [threshold32]
    have h1 : (2 ^ 128 - 2 ^ 104 + 2 ^ 90 : ℚ) * (1 + 1 / 2 ^ 53) + 1 / 2 ^ 200 <
        2 ^ 128 - 2 ^ 103 := by norm_num
    have h2 : |q| * (1 + 1 / 2 ^ 53) ≤ (2 ^ 128 - 2 ^ 104 + 2 ^ 90 : ℚ) * (1 + 1 / 2 ^ 53) :=
      mul_le_mul_of_nonneg_right hq (by norm_num)
    linarith only [hz, tiny, h1, h2]
  · have tri : |binary32.rnd (binary64.rnd q) - q| ≤
        |binary32.rnd (binary64.rnd q) - binary64.rnd q| + |binary64.rnd q - q| := by
      have := abs_add (binary32.rnd (binary64.rnd q) - binary64.rnd q) (binary64.rnd q - q)
      rwa [sub_add_sub_cancel] at this
    have h3 : |binary64.rnd q| * (1 / 2 ^ 24) ≤
        (|q| + (|q| * (1 / 2 ^ 53) + 1 / 2 ^ 200)) * (1 / 2 ^ 24) :=
      mul_le_mul_of_nonneg_right (by linarith only [hz, tiny]) (by norm_num)
    have h4 : (1 : ℚ) / 2 ^ 200 + 1 / 2 ^ 200 * (1 / 2 ^ 24) + 1 / 2 ^ 150 ≤ 1 / 2 ^ 149 := by
      norm_num
    have h5 : |q| * (1 / 2 ^ 53) + (|q| + |q| * (1 / 2 ^ 53)) * (1 / 2 ^ 24) ≤
        |q| / 2 ^ 23 := by
      have : |q| * (1 / 2 ^ 53) + (|q| + |q| * (1 / 2 ^ 53)) * (1 / 2 ^ 24) =
          |q| * (1 / 2 ^ 53 + 1 / 2 ^ 24 + 1 / 2 ^ 77) := by ring
      have k : (1 / 2 ^ 53 + 1 / 2 ^ 24 + 1 / 2 ^ 77 : ℚ) ≤ 1 / 2 ^ 23 := by norm_num
      have k2 := mul_le_mul_of_nonneg_left k h0
      have k3 : |q| / 2 ^ 23 = |q| * (1 / 2 ^ 23) := by ring
      linarith only [this, k2, k3]
    have h6 : (|q| + (|q| * (1 / 2 ^ 53) + 1 / 2 ^ 200)) * (1 / 2 ^ 24) =
        (|q| + |q| * (1 / 2 ^ 53)) * (1 / 2 ^ 24) + 1 / 2 ^ 200 * (1 / 2 ^ 24) := by ring
    linarith only [tri, e64, e32, h3, h4, h5, h6, tiny]

theorem store_near_radius (rv c : ℚ)
    (hr : |rv| ≤ 2 ^ 128 - 2 ^ 104) (hc : |c - 1| ≤ 1 / 2 ^ 39) :
    |rv * c| < binary64.threshold ∧ |binary64.rnd (rv * c)| < binary32.threshold ∧
    |binary32.rnd (binary64.rnd (rv * c)) - rv| ≤ |rv| / 2 ^ 22 + 1 / 2 ^ 149 := by
  have h0 := abs_nonneg rv
  have hd : |rv * c - rv| ≤ |rv| * (1 / 2 ^ 39) := by
    rw [show rv * c - rv = rv * (c - 1) by ring, abs_mul]
    exact mul_le_mul_of_nonneg_left hc h0
  have hq : |rv * c| ≤ |rv| + |rv| * (1 / 2 ^ 39) := by
    have := abs_sub_abs_le_abs_sub (rv * c) rv
    linarith only [this, hd]
  have hB : |rv * c| ≤ 2 ^ 128 - 2 ^ 104 + 2 ^ 90 := by
    have h1 : |rv| * (1 / 2 ^ 39) ≤ (2 ^ 128 - 2 ^ 104 : ℚ) * (1 / 2 ^ 39) :=
      mul_le_mul_of_nonneg_right hr (by norm_num)
    have h2 : (2 ^ 128 - 2 ^ 104 : ℚ) * (1 / 2 ^ 39) ≤ 2 ^ 90 := by norm_num
    linarith only [hq, hr, h1, h2]
  obtain ⟨t1, t2, t3⟩ := store_error (rv * c) hB
  refine ⟨t1, t2, ?_⟩
  have tri : |binary32.rnd (binary64.rnd (rv * c)) - rv| ≤
      |binary32.rnd (binary64.rnd (rv * c)) - rv * c| + |rv * c - rv| := by
    have := abs_add (binary32.rnd (binary64.rnd (rv * c)) - rv * c) (rv * c - rv)
    rwa [sub_add_sub_cancel] at this
  have h3 : |rv * c| / 2 ^ 23 ≤ (|rv| + |rv| * (1 / 2 ^ 39)) / 2 ^ 23 :=
    div_le_div_of_nonneg_right hq (by norm_num)
  have h4 : (|rv| + |rv| * (1 / 2 ^ 39)) / 2 ^ 23 + |rv| * (1 / 2 ^ 39) ≤ |rv| / 2 ^ 22 := by
    have : (|rv| + |rv| * (1 / 2 ^ 39)) / 2 ^ 23 + |rv| * (1 / 2 ^ 39) =
        |rv| * (1 / 2 ^ 23 + 1 / 2 ^ 62 + 1 / 2 ^ 39) := by ring
    have k : (1 / 2 ^ 23 + 1 / 2 ^ 62 + 1 / 2 ^ 39 : ℚ) ≤ 1 / 2 ^ 22 := by norm_num
    have k2 := mul_le_mul_of_nonneg_left k h0
    have k3 : |rv| / 2 ^ 22 = |rv| * (1 / 2 ^ 22) := by ring
    linarith only [this, k2, k3]
  linarith only [tri, t3, hd, h3, h4]

theorem store_near_zero (rv s : ℚ)
    (hr : |rv| ≤ 2 ^ 128 - 2 ^ 104) (hs : |s| ≤ 3 / 2 ^ 24) :
    |rv * s| < binary64.threshold ∧ |binary64.rnd (rv * s)| < binary32.threshold ∧
    |binary32.rnd (binary64.rnd (rv * s))| ≤ |rv| / 2 ^ 22 + 1 / 2 ^ 149 := by
  have h0 := abs_nonneg rv
  have hq : |rv * s| ≤ |rv| * (3 / 2 ^ 24) := by
    rw [abs_mul]
    exact mul_le_mul_of_nonneg_left hs h0
  have hB : |rv * s| ≤ 2 ^ 128 - 2 ^ 104 + 2 ^ 90 := by
    have h1 : |rv| * (3 / 2 ^ 24) ≤ (2 ^ 128 - 2 ^ 104 : ℚ) * (3 / 2 ^ 24) :=
      mul_le_mul_of_nonneg_right hr (by norm_num)
    have h2 : (2 ^ 128 - 2 ^ 104 : ℚ) * (3 / 2 ^ 24) ≤ 2 ^ 128 - 2 ^ 104 + 2 ^ 90 := by
      norm_num
    linarith only [hq, h1, h2]
  obtain ⟨t1, t2, t3⟩ := store_error (rv * s) hB
  refine ⟨t1, t2, ?_⟩
  have tri : |binary32.rnd (binary64.rnd (rv * s))| ≤
      |binary32.rnd (binary64.rnd (rv * s)) - rv * s| + |rv * s| := by
    have := abs_add (binary32.rnd (binary64.rnd (rv * s)) - rv * s) (rv * s)
    rwa [sub_add_cancel] at this
  have h3 : |rv * s| / 2 ^ 23 ≤ |rv| * (3 / 2 ^ 24) / 2 ^ 23 :=
    div_le_div_of_nonneg_right hq (by norm_num)
  have h4 : |rv| * (3 / 2 ^ 24) / 2 ^ 23 + |rv| * (3 / 2 ^ 24) ≤ |rv| / 2 ^ 22 := by
    have : |rv| * (3 / 2 ^ 24) / 2 ^ 23 + |rv| * (3 / 2 ^ 24) =
        |rv| * (3 / 2 ^ 47 + 3 / 2 ^ 24) := by ring
    have k : (3 / 2 ^ 47 + 3 / 2 ^ 24 : ℚ) ≤ 1 / 2 ^ 22 := by norm_num
    have k2 := mul_le_mul_of_nonneg_left k h0
    have k3 : |rv| / 2 ^ 22 = |rv| * (1 / 2 ^ 22) := by ring
    linarith only [this, k2, k3]
  linarith only [tri, t3, hq, h3, h4]

theorem store_eval (rv c : ℚ) (h1 : |rv * c| < binary64.threshold)
    (h2 : |binary64.rnd (rv * c)| < binary32.threshold) :
    Binary.toFloat ((⟨.finite rv⟩ : F32).toDouble * (⟨.finite c⟩ : F64)) =
      ⟨.finite (binary32.rnd (binary64.rnd (rv * c)))⟩ := by
  have e : (⟨.finite rv⟩ : F32).toDouble = (⟨.finite rv⟩ : F64) := rfl
  rw [e, binary_mul binary64 rv c h1]
  simp only [Binary.toFloat, Format.round]
  rw [if_neg (not_le.mpr h2)]

/-! ## The angles of the first and the last rim vertex -/

theorem f32_two : ((2.0 : F32)).toDouble = (⟨.finite 2⟩ : F64) := by
  have e : (2.0 : F32) = ⟨.finite (binary32.rnd 2.0)⟩ :=
    ofRat_finite binary32 2.0 (lt_threshold32 (by rw [abs_of_pos (by norm_num)]; norm_num))
  have e2 : binary32.rnd 2.0 = 2 := by
    have := rnd32_small_nat 2 (by norm_num)
    norm_num at this ⊢
    exact this
  rw [e, e2]
  rfl

theorem f64_two_pi (m : CMath F64) (hM : m.M_PI = 3.14159265358979323846) :
    (⟨.finite 2⟩ : F64) * m.M_PI = ⟨.finite (884279719003555 / 2 ^ 47)⟩ := by
  have e : (3.14159265358979323846 : F64) =
      ⟨.finite (binary64.rnd 3.14159265358979323846)⟩ :=
    ofRat_finite binary64 3.14159265358979323846
      (lt_threshold64 (by rw [abs_of_pos (by norm_num)]; norm_num))
  have e2 : binary64.rnd 3.14159265358979323846 = 884279719003555 / 2 ^ 48 := by
    rw [rnd_eq_of_near_pos binary64 _ 1 7074237752028440 (by norm_num) (by norm_num)
      (by decide) (by norm_num [binary64]) (by norm_num [binary64])]
    norm_num [binary64]
  rw [hM, e, binary_mul binary64 _ _ (lt_threshold64 (by
    rw [e2, abs_of_pos (by norm_num)]; norm_num)), rnd64_two_pi]

theorem theta_last (n : ℚ) (h1 : 1 ≤ n) (h2 : n ≤ 2147483648) :
    Binary.toFloat ((⟨.finite (884279719003555 / 2 ^ 47)⟩ : F64) * ⟨.finite n⟩ / ⟨.finite n⟩) =
      ⟨.finite closingAngle⟩ := by
  obtain ⟨-, t2, t3, t4⟩ := closing_angle_rounds n h1 h2
  have hn : (0 : ℚ) < n := by linarith
  rw [binary_mul binary64 _ _ (lt_threshold64 (by
    rw [abs_of_pos (by positivity)]
    have h7 : (884279719003555 : ℚ) / 2 ^ 47 ≤ 7 := by norm_num
    have := mul_le_mul h7 h2 (le_of_lt hn) (by norm_num)
    have h9 : (7 : ℚ) * 2147483648 ≤ 1099511627776 := by norm_num
    linarith only [this, h9]))]
  rw [binary_div binary64 _ _ (ne_of_gt hn) t2]
  simp only [Binary.toFloat, Format.round]
  rw [if_neg (not_le.mpr t3), t4]

theorem theta_first (d : ℚ) (hd : d ≠ 0) :
    Binary.toFloat ((⟨.finite (884279719003555 / 2 ^ 47)⟩ : F64) * ⟨.finite 0⟩ / ⟨.finite d⟩) =
      ⟨.finite 0⟩ := by
  have z64 : binary64.rnd 0 = 0 := rnd_zero binary64
  have z32 : binary32.rnd 0 = 0 := rnd_zero binary32
  rw [binary_mul binary64 _ _ (lt_threshold64 (by simp))]
  rw [mul_zero, z64]
  rw [binary_div binary64 _ _ hd (lt_threshold64 (by simp))]
  rw [zero_div, z64]
  simp only [Binary.toFloat, Format.round]
  rw [if_neg (not_le.mpr (lt_threshold32 (by simp))), z32]

theorem f32_count (n : ℤ) (h1 : 0 ≤ n) (h2 : n ≤ 2147483647) :
    (((n : Int) : F32)).toDouble = (⟨.finite (binary32.rnd n)⟩ : F64) := by
  have e : ((n : Int) : F32) = ⟨.finite (binary32.rnd n)⟩ := by
    refine binary_intCast binary32 n (lt_threshold32 ?_)
    rw [abs_of_nonneg (by exact_mod_cast h1)]
    have : (n : ℚ) ≤ 2147483647 := by exact_mod_cast h2
    linarith only [this]
  rw [e]
  rfl

theorem f64_count (n : ℤ) (h1 : 0 ≤ n) (h2 : n ≤ 2147483647) :
    ((n : Int) : F64) = ⟨.finite (binary64.rnd n)⟩ := by
  refine binary_intCast binary64 n (lt_threshold64 ?_)
  rw [abs_of_nonneg (by exact_mod_cast h1)]
  have : (n : ℚ) ≤ 2147483647 := by exact_mod_cast h2
  linarith only [this]

theorem rnd32_count (n : ℤ) (h1 : 1 ≤ n) (h2 : n ≤ 2147483647) :
    1 ≤ binary32.rnd n ∧ binary32.rnd n ≤ 2147483648 := by
  have hp : 1 ≤ binary32.p := by decide
  constructor
  · have := rnd_mono binary32 hp (show (1 : ℚ) ≤ (n : ℚ) by exact_mod_cast h1)
    rwa [rnd32_one] at this
  · have := rnd_mono binary32 hp (show (n : ℚ) ≤ 2147483648 by
      have : n ≤ 2147483648 := by omega
      exact_mod_cast this)
    rwa [rnd32_top] at this

theorem rnd64_count (n : ℤ) (h1 : 0 ≤ n) (h2 : n ≤ 2147483647) :
    binary64.rnd n = n := by
  refine rnd_intCast binary64 (by decide) (by decide) n ?_
  rw [abs_of_nonneg h1]
  have : (2147483647 : ℤ) ≤ 2 ^ binary64.p := by decide
  omega

/-! ## Closed forms of the builders in the arithmetic of the program -/

theorem ieee_shapes_buildCircle_eq (m : CMath F64) (vertices : List F32) (segments : Int)
    (r : F32) (gradient : Bool) :
    IEEE.Shapes.buildCircle m vertices segments r gradient =
      [0.0, 0.0, 1.0, 0.0, 0.0] ++
        blocks (fun i => IEEE.Shapes.buildCircle.body m segments r gradient i []) 0
          (segments + 1).toNat := by
  unfold IEEE.Shapes.buildCircle
  refine forLE_blocks segments _ _ ?_ _ 0 _ (by simp)
  intro i vs
  cases gradient <;> simp [IEEE.Shapes.buildCircle.body, push_back]

theorem ieee_shapes_buildEllipse_eq (m : CMath F64) (vertices : List F32) (segments : Int)
    (rx ry : F32) :
    IEEE.Shapes.buildEllipse m vertices segments rx ry =
      [0.0, 0.0, 1.0, 0.0, 0.0] ++
        blocks (fun i => IEEE.Shapes.buildEllipse.body m segments rx ry i []) 0
          (segments + 1).toNat := by
  unfold IEEE.Shapes.buildEllipse
  refine forLE_blocks segments _ _ ?_ _ 0 _ (by simp)
  intro i vs
  simp [IEEE.Shapes.buildEllipse.body, push_back]

theorem ieee_creative_buildCircle_eq (m : CMath F64) (segments : Int)
    (radius r g b : F32) :
    IEEE.Creative.buildCircle m segments radius r g b =
      [0.0, 0.0, r, g, b] ++
        blocks (fun i => IEEE.Creative.buildCircle.body m segments radius r g b i []) 0
          (segments + 1).toNat := by
  unfold IEEE.Creative.buildCircle
  refine forLE_blocks segments _ _ ?_ _ 0 _ (by simp)
  intro i vs
  simp [IEEE.Creative.buildCircle.body, push_back]

theorem ieee_shapes_buildCircle_rim (m : CMath F64) (vertices : List F32) (segments : Int)
    (r : F32) (gradient : Bool) (i : Nat) (hi : (i : Int) ≤ segments) :
    positionAt (IEEE.Shapes.buildCircle m vertices segments r gradient) (i + 1) =
      (IEEE.Shapes.buildCircle.body m segments r gradient i []).take 2 := by
  unfold positionAt
  rw [ieee_shapes_buildCircle_eq]
  rw [vertexAt_fan _ _ (by rfl) (fun j => by
    cases gradient <;> simp [IEEE.Shapes.buildCircle.body, push_back]) _ i (by omega)]

theorem ieee_shapes_buildEllipse_rim (m : CMath F64) (vertices : List F32) (segments : Int)
    (rx ry : F32) (i : Nat) (hi : (i : Int) ≤ segments) :
    positionAt (IEEE.Shapes.buildEllipse m vertices segments rx ry) (i + 1) =
      (IEEE.Shapes.buildEllipse.body m segments rx ry i []).take 2 := by
  unfold positionAt
  rw [ieee_shapes_buildEllipse_eq]
  rw [vertexAt_fan _ _ (by rfl) (fun j => by
    simp [IEEE.Shapes.buildEllipse.body, push_back]) _ i (by omega)]

theorem ieee_creative_buildCircle_rim (m : CMath F64) (segments : Int)
    (radius r g b : F32) (i : Nat) (hi : (i : Int) ≤ segments) :
    positionAt (IEEE.Creative.buildCircle m segments radius r g b) (i + 1) =
      (IEEE.Creative.buildCircle.body m segments radius r g b i []).take 2 := by
  unfold positionAt
  rw [ieee_creative_buildCircle_eq]
  rw [vertexAt_fan _ _ (by rfl) (fun j => by
    simp [IEEE.Creative.buildCircle.body, push_back]) _ i (by omega)]

/-! ## The first and the last rim vertex in the arithmetic of the program -/

theorem accurate_cos (m : CMath F64) (hm : m.Accurate) :
    (∃ c : ℚ, m.cos ⟨.finite 0⟩ = ⟨.finite c⟩ ∧ |c - 1| ≤ 1 / 2 ^ 39) ∧
    (∃ c : ℚ, m.cos ⟨.finite closingAngle⟩ = ⟨.finite c⟩ ∧ |c - 1| ≤ 1 / 2 ^ 39) := by
  obtain ⟨-, ⟨c0, e0, a0⟩, ⟨c1, e1, a1⟩, -, -⟩ := hm
  constructor
  · refine ⟨c0, e0, ?_⟩
    have h : |(c0 : ℝ) - 1| ≤ 1 / 2 ^ 39 := by
      rw [Rat.cast_zero, Real.cos_zero] at a0
      refine le_trans a0 ?_
      norm_num
    have hq : ((|c0 - 1| : ℚ) : ℝ) ≤ ((1 / 2 ^ 39 : ℚ) : ℝ) := by
      push_cast
      exact h
    exact Rat.cast_le.mp hq
  · refine ⟨c1, e1, ?_⟩
    obtain ⟨l, u⟩ := cos_closingAngle
    have a := abs_le.mp a1
    have h : |(c1 : ℝ) - 1| ≤ 1 / 2 ^ 39 := by
      rw [abs_le]
      have k : (1 : ℝ) / 2 ^ 40 + 1 / 2 ^ 45 ≤ 1 / 2 ^ 39 := by norm_num
      constructor <;> linarith only [a.1, a.2, l, u, k]
    have hq : ((|c1 - 1| : ℚ) : ℝ) ≤ ((1 / 2 ^ 39 : ℚ) : ℝ) := by
      push_cast
      exact h
    exact Rat.cast_le.mp hq

theorem accurate_sin (m : CMath F64) (hm : m.Accurate) :
    (∃ s : ℚ, m.sin ⟨.finite 0⟩ = ⟨.finite s⟩ ∧ |s| ≤ 3 / 2 ^ 24) ∧
    (∃ s : ℚ, m.sin ⟨.finite closingAngle⟩ = ⟨.finite s⟩ ∧ |s| ≤ 3 / 2 ^ 24) := by
  obtain ⟨-, -, -, ⟨s0, e0, a0⟩, ⟨s1, e1, a1⟩⟩ := hm
  constructor
  · refine ⟨s0, e0, ?_⟩
    have h : |(s0 : ℝ)| ≤ 3 / 2 ^ 24 := by
      rw [Rat.cast_zero, Real.sin_zero, sub_zero] at a0
      refine le_trans a0 ?_
      norm_num
    have hq : ((|s0| : ℚ) : ℝ) ≤ ((3 / 2 ^ 24 : ℚ) : ℝ) := by
      push_cast
      exact h
    exact Rat.cast_le.mp hq
  · refine ⟨s1, e1, ?_⟩
    obtain ⟨l, u⟩ := sin_closingAngle
    have a := abs_le.mp a1
    have h : |(s1 : ℝ)| ≤ 3 / 2 ^ 24 := by
      rw [abs_le]
      have k : (174845561 : ℝ) / 10 ^ 15 + 1 / 2 ^ 40 ≤ 3 / 2 ^ 24 := by norm_num
      have k2 : (0 : ℝ) ≤ 174845559 / 10 ^ 15 - 1 / 2 ^ 40 := by norm_num
      have k3 : (0 : ℝ) ≤ 3 / 2 ^ 24 := by norm_num
      constructor <;> linarith only [a.1, a.2, l, u, k, k2, k3]
    have hq : ((|s1| : ℚ) : ℝ) ≤ ((3 / 2 ^ 24 : ℚ) : ℝ) := by
      push_cast
      exact h
    exact Rat.cast_le.mp hq

/-- The two coordinates computed from a radius at one of the two angles: both are finite, the
first within the tolerance of the radius and the second within the tolerance of zero. -/
theorem rim_coordinates (m : CMath F64) (rx ry c s : ℚ) (theta : F32)
    (hc : m.cos theta.toDouble = ⟨.finite c⟩) (hc1 : |c - 1| ≤ 1 / 2 ^ 39)
    (hs : m.sin theta.toDouble = ⟨.finite s⟩) (hs1 : |s| ≤ 3 / 2 ^ 24)
    (hx : |rx| ≤ 2 ^ 128 - 2 ^ 104) (hy : |ry| ≤ 2 ^ 128 - 2 ^ 104) :
    ∃ x y : ℚ,
      Binary.toFloat ((⟨.finite rx⟩ : F32).toDouble * m.cos theta.toDouble) = ⟨.finite x⟩ ∧
      Binary.toFloat ((⟨.finite ry⟩ : F32).toDouble * m.sin theta.toDouble) = ⟨.finite y⟩ ∧
      |x - rx| ≤ |rx| / 2 ^ 22 + 1 / 2 ^ 149 ∧ |y| ≤ |ry| / 2 ^ 22 + 1 / 2 ^ 149 := by
  obtain ⟨a1, a2, a3⟩ := store_near_radius rx c hx hc1
  obtain ⟨b1, b2, b3⟩ := store_near_zero ry s hy hs1
  refine ⟨_, _, ?_, ?_, a3, b3⟩
  · rw [hc]
    exact store_eval rx c a1 a2
  · rw [hs]
    exact store_eval ry s b1 b2

theorem tolerance_of_two {a b r : ℚ} (ha : |a - r| ≤ |r| / 2 ^ 22 + 1 / 2 ^ 149)
    (hb : |b - r| ≤ |r| / 2 ^ 22 + 1 / 2 ^ 149) :
    |a - b| ≤ |r| / 2 ^ 21 + 1 / 2 ^ 148 := by
  have tri : |a - b| ≤ |a - r| + |b - r| := by
    have := abs_sub_le a r b
    rwa [abs_sub_comm r b] at this
  have e : |r| / 2 ^ 21 + 1 / 2 ^ 148 = 2 * (|r| / 2 ^ 22 + 1 / 2 ^ 149) := by ring
  linarith only [tri, ha, hb, e]

theorem tolerance_of_two_zero {a b r : ℚ} (ha : |a| ≤ |r| / 2 ^ 22 + 1 / 2 ^ 149)
    (hb : |b| ≤ |r| / 2 ^ 22 + 1 / 2 ^ 149) :
    |a - b| ≤ |r| / 2 ^ 21 + 1 / 2 ^ 148 := by
  have tri : |a - b| ≤ |a| + |b| := abs_sub a b
  have e : |r| / 2 ^ 21 + 1 / 2 ^ 148 = 2 * (|r| / 2 ^ 22 + 1 / 2 ^ 149) := by ring
  linarith only [tri, ha, hb, e]

theorem shapes_theta (m : CMath F64) (hM : m.M_PI = 3.14159265358979323846) (segments : Int)
    (h1 : 3 ≤ segments) (h2 : segments ≤ 2147483647) :
    Binary.toFloat ((2.0 : F32).toDouble * m.M_PI *
        ((((segments.toNat : Nat) : Int) : Int) : F32).toDouble /
        ((segments : Int) : F32).toDouble) = ⟨.finite closingAngle⟩ ∧
    Binary.toFloat ((2.0 : F32).toDouble * m.M_PI *
        ((((0 : Nat) : Int) : Int) : F32).toDouble /
        ((segments : Int) : F32).toDouble) = ⟨.finite 0⟩ := by
  obtain ⟨b1, b2⟩ := rnd32_count segments (by omega) h2
  constructor
  · rw [Int.toNat_of_nonneg (by omega), f32_two, f64_two_pi m hM,
      f32_count segments (by omega) h2]
    exact theta_last _ b1 b2
  · rw [f32_two, f64_two_pi m hM, f32_count segments (by omega) h2,
      f32_count ((0 : Nat) : Int) (by simp) (by simp)]
    have z : binary32.rnd (((0 : Nat) : Int) : ℚ) = 0 := by
      simpa using rnd_zero binary32
    rw [z]
    exact theta_first _ (by linarith only [b1])

theorem creative_theta (m : CMath F64) (hM : m.M_PI = 3.14159265358979323846)
    (segments : Int) (h1 : 3 ≤ segments) (h2 : segments ≤ 2147483647) :
    Binary.toFloat ((2.0 : F32).toDouble * m.M_PI *
        ((((segments.toNat : Nat) : Int) : Int) : F64) / ((segments : Int) : F64)) =
      ⟨.finite closingAngle⟩ ∧
    Binary.toFloat ((2.0 : F32).toDouble * m.M_PI *
        ((((0 : Nat) : Int) : Int) : F64) / ((segments : Int) : F64)) = ⟨.finite 0⟩ := by
  have e := rnd64_count segments (by omega) h2
  have b1 : (1 : ℚ) ≤ (segments : ℚ) := by exact_mod_cast (by omega : (1 : Int) ≤ segments)
  have b2 : (segments : ℚ) ≤ 2147483648 := by
    have : segments ≤ 2147483648 := by omega
    exact_mod_cast this
  constructor
  · rw [Int.toNat_of_nonneg (by omega), f32_two, f64_two_pi m hM,
      f64_count segments (by omega) h2, e]
    exact theta_last _ b1 b2
  · rw [f32_two, f64_two_pi m hM, f64_count segments (by omega) h2,
      f64_count ((0 : Nat) : Int) (by simp) (by simp), e]
    have z : binary64.rnd (((0 : Nat) : Int) : ℚ) = 0 := by
      simpa using rnd_zero binary64
    rw [z]
    exact theta_first _ (by linarith only [b1])

/-- The first and the last rim vertex for given angles `0` and `closingAngle`. -/
theorem closed_within_tolerance (m : CMath F64) (hm : m.Accurate) (rx ry : ℚ)
    (hx : |rx| ≤ 2 ^ 128 - 2 ^ 104) (hy : |ry| ≤ 2 ^ 128 - 2 ^ 104) :
    ∃ x₀ y₀ x₁ y₁ : ℚ,
      Binary.toFloat ((⟨.finite rx⟩ : F32).toDouble *
        m.cos (⟨.finite 0⟩ : F32).toDouble) = ⟨.finite x₀⟩ ∧
      Binary.toFloat ((⟨.finite ry⟩ : F32).toDouble *
        m.sin (⟨.finite 0⟩ : F32).toDouble) = ⟨.finite y₀⟩ ∧
      Binary.toFloat ((⟨.finite rx⟩ : F32).toDouble *
        m.cos (⟨.finite closingAngle⟩ : F32).toDouble) = ⟨.finite x₁⟩ ∧
      Binary.toFloat ((⟨.finite ry⟩ : F32).toDouble *
        m.sin (⟨.finite closingAngle⟩ : F32).toDouble) = ⟨.finite y₁⟩ ∧
      |x₁ - x₀| ≤ |rx| / 2 ^ 21 + 1 / 2 ^ 148 ∧ |y₁ - y₀| ≤ |ry| / 2 ^ 21 + 1 / 2 ^ 148 := by
  obtain ⟨⟨c0, ec0, hc0⟩, ⟨c1, ec1, hc1⟩⟩ := accurate_cos m hm
  obtain ⟨⟨s0, es0, hs0⟩, ⟨s1, es1, hs1⟩⟩ := accurate_sin m hm
  obtain ⟨x0, y0, p1, p2, p3, p4⟩ :=
    rim_coordinates m rx ry c0 s0 ⟨.finite 0⟩ ec0 hc0 es0 hs0 hx hy
  obtain ⟨x1, y1, q1, q2, q3, q4⟩ :=
    rim_coordinates m rx ry c1 s1 ⟨.finite closingAngle⟩ ec1 hc1 es1 hs1 hx hy
  exact ⟨x0, y0, x1, y1, p1, p2, q1, q2, tolerance_of_two q3 p3,
    tolerance_of_two_zero q4 p4⟩

theorem ieee_shapes_circle_closed (m : CMath F64) (hm : m.Accurate) (vertices : List F32)
    (segments : Int) (h1 : 3 ≤ segments) (h2 : segments ≤ 2147483647) (q : ℚ)
    (hq : |q| ≤ 2 ^ 128 - 2 ^ 104) (gradient : Bool) :
    ∃ x₀ y₀ x₁ y₁ : ℚ,
      positionAt (IEEE.Shapes.buildCircle m vertices segments ⟨.finite q⟩ gradient) 1 =
        [⟨.finite x₀⟩, ⟨.finite y₀⟩] ∧
      positionAt (IEEE.Shapes.buildCircle m vertices segments ⟨.finite q⟩ gradient)
        (segments.toNat + 1) = [⟨.finite x₁⟩, ⟨.finite y₁⟩] ∧
      |x₁ - x₀| ≤ |q| / 2 ^ 21 + 1 / 2 ^ 148 ∧ |y₁ - y₀| ≤ |q| / 2 ^ 21 + 1 / 2 ^ 148 := by
  obtain ⟨x0, y0, x1, y1, e1, e2, e3, e4, t1, t2⟩ := closed_within_tolerance m hm q q hq hq
  obtain ⟨a1, a0⟩ := shapes_theta m hm.1 segments h1 h2
  refine ⟨x0, y0, x1, y1, ?_, ?_, t1, t2⟩
  · have := ieee_shapes_buildCircle_rim m vertices segments ⟨.finite q⟩ gradient 0 (by omega)
    rw [Nat.zero_add] at this
    rw [this]
    have body : (IEEE.Shapes.buildCircle.body m segments ⟨.finite q⟩ gradient
        ((0 : Nat) : Int) []).take 2 =
        [Binary.toFloat ((⟨.finite q⟩ : F32).toDouble * m.cos (Binary.toFloat
            ((2.0 : F32).toDouble * m.M_PI * ((((0 : Nat) : Int) : Int) : F32).toDouble /
              ((segments : Int) : F32).toDouble)).toDouble),
         Binary.toFloat ((⟨.finite q⟩ : F32).toDouble * m.sin (Binary.toFloat
            ((2.0 : F32).toDouble * m.M_PI * ((((0 : Nat) : Int) : Int) : F32).toDouble /
              ((segments : Int) : F32).toDouble)).toDouble)] := by
      cases gradient <;> rfl
    rw [body, a0, e1, e2]
  · rw [ieee_shapes_buildCircle_rim m vertices segments ⟨.finite q⟩ gradient segments.toNat
      (by omega)]
    have body : (IEEE.Shapes.buildCircle.body m segments ⟨.finite q⟩ gradient
        ((segments.toNat : Nat) : Int) []).take 2 =
        [Binary.toFloat ((⟨.finite q⟩ : F32).toDouble * m.cos (Binary.toFloat
            ((2.0 : F32).toDouble * m.M_PI *
              ((((segments.toNat : Nat) : Int) : Int) : F32).toDouble /
              ((segments : Int) : F32).toDouble)).toDouble),
         Binary.toFloat ((⟨.finite q⟩ : F32).toDouble * m.sin (Binary.toFloat
            ((2.0 : F32).toDouble * m.M_PI *
              ((((segments.toNat : Nat) : Int) : Int) : F32).toDouble /
              ((segments : Int) : F32).toDouble)).toDouble)] := by
      cases gradient <;> rfl
    rw [body, a1, e3, e4]

theorem ieee_shapes_ellipse_closed (m : CMath F64) (hm : m.Accurate) (vertices : List F32)
    (segments : Int) (h1 : 3 ≤ segments) (h2 : segments ≤ 2147483647) (qx qy : ℚ)
    (hx : |qx| ≤ 2 ^ 128 - 2 ^ 104) (hy : |qy| ≤ 2 ^ 128 - 2 ^ 104) :
    ∃ x₀ y₀ x₁ y₁ : ℚ,
      positionAt (IEEE.Shapes.buildEllipse m vertices segments ⟨.finite qx⟩ ⟨.finite qy⟩) 1 =
        [⟨.finite x₀⟩, ⟨.finite y₀⟩] ∧
      positionAt (IEEE.Shapes.buildEllipse m vertices segments ⟨.finite qx⟩ ⟨.finite qy⟩)
        (segments.toNat + 1) = [⟨.finite x₁⟩, ⟨.finite y₁⟩] ∧
      |x₁ - x₀| ≤ |qx| / 2 ^ 21 + 1 / 2 ^ 148 ∧ |y₁ - y₀| ≤ |qy| / 2 ^ 21 + 1 / 2 ^ 148 := by
  obtain ⟨x0, y0, x1, y1, e1, e2, e3, e4, t1, t2⟩ := closed_within_tolerance m hm qx qy hx hy
  obtain ⟨a1, a0⟩ := shapes_theta m hm.1 segments h1 h2
  refine ⟨x0, y0, x1, y1, ?_, ?_, t1, t2⟩
  · have := ieee_shapes_buildEllipse_rim m vertices segments ⟨.finite qx⟩ ⟨.finite qy⟩ 0
      (by omega)
    rw [Nat.zero_add] at this
    rw [this]
    have body : (IEEE.Shapes.buildEllipse.body m segments ⟨.finite qx⟩ ⟨.finite qy⟩
        ((0 : Nat) : Int) []).take 2 =
        [Binary.toFloat ((⟨.finite qx⟩ : F32).toDouble * m.cos (Binary.toFloat
            ((2.0 : F32).toDouble * m.M_PI * ((((0 : Nat) : Int) : Int) : F32).toDouble /
              ((segments : Int) : F32).toDouble)).toDouble),
         Binary.toFloat ((⟨.finite qy⟩ : F32).toDouble * m.sin (Binary.toFloat
            ((2.0 : F32).toDouble * m.M_PI * ((((0 : Nat) : Int) : Int) : F32).toDouble /
              ((segments : Int) : F32).toDouble)).toDouble)] := rfl
    rw [body, a0, e1, e2]
  · rw [ieee_shapes_buildEllipse_rim m vertices segments ⟨.finite qx⟩ ⟨.finite qy⟩
      segments.toNat (by omega)]
    have body : (IEEE.Shapes.buildEllipse.body m segments ⟨.finite qx⟩ ⟨.finite qy⟩
        ((segments.toNat : Nat) : Int) []).take 2 =
        [Binary.toFloat ((⟨.finite qx⟩ : F32).toDouble * m.cos (Binary.toFloat
            ((2.0 : F32).toDouble * m.M_PI *
              ((((segments.toNat : Nat) : Int) : Int) : F32).toDouble /
              ((segments : Int) : F32).toDouble)).toDouble),
         Binary.toFloat ((⟨.finite qy⟩ : F32).toDouble * m.sin (Binary.toFloat
            ((2.0 : F32).toDouble * m.M_PI *
              ((((segments.toNat : Nat) : Int) : Int) : F32).toDouble /
              ((segments : Int) : F32).toDouble)).toDouble)] := rfl
    rw [body, a1, e3, e4]

theorem ieee_creative_circle_closed (m : CMath F64) (hm : m.Accurate) (segments : Int)
    (h1 : 3 ≤ segments) (h2 : segments ≤ 2147483647) (q : ℚ)
    (hq : |q| ≤ 2 ^ 128 - 2 ^ 104) (r g b : F32) :
    ∃ x₀ y₀ x₁ y₁ : ℚ,
      positionAt (IEEE.Creative.buildCircle m segments ⟨.finite q⟩ r g b) 1 =
        [⟨.finite x₀⟩, ⟨.finite y₀⟩] ∧
      positionAt (IEEE.Creative.buildCircle m segments ⟨.finite q⟩ r g b)
        (segments.toNat + 1) = [⟨.finite x₁⟩, ⟨.finite y₁⟩] ∧
      |x₁ - x₀| ≤ |q| / 2 ^ 21 + 1 / 2 ^ 148 ∧ |y₁ - y₀| ≤ |q| / 2 ^ 21 + 1 / 2 ^ 148 := by
  obtain ⟨x0, y0, x1, y1, e1, e2, e3, e4, t1, t2⟩ := closed_within_tolerance m hm q q hq hq
  obtain ⟨a1, a0⟩ := creative_theta m hm.1 segments h1 h2
  refine ⟨x0, y0, x1, y1, ?_, ?_, t1, t2⟩
  · have := ieee_creative_buildCircle_rim m segments ⟨.finite q⟩ r g b 0 (by omega)
    rw [Nat.zero_add] at this
    rw [this]
    have body : (IEEE.Creative.buildCircle.body m segments ⟨.finite q⟩ r g b
        ((0 : Nat) : Int) []).take 2 =
        [Binary.toFloat ((⟨.finite q⟩ : F32).toDouble * m.cos (Binary.toFloat
            ((2.0 : F32).toDouble * m.M_PI * ((((0 : Nat) : Int) : Int) : F64) /
              ((segments : Int) : F64))).toDouble),
         Binary.toFloat ((⟨.finite q⟩ : F32).toDouble * m.sin (Binary.toFloat
            ((2.0 : F32).toDouble * m.M_PI * ((((0 : Nat) : Int) : Int) : F64) /
              ((segments : Int) : F64))).toDouble)] := rfl
    rw [body, a0, e1, e2]
  · rw [ieee_creative_buildCircle_rim m segments ⟨.finite q⟩ r g b segments.toNat (by omega)]
    have body : (IEEE.Creative.buildCircle.body m segments ⟨.finite q⟩ r g b
        ((segments.toNat : Nat) : Int) []).take 2 =
        [Binary.toFloat ((⟨.finite q⟩ : F32).toDouble * m.cos (Binary.toFloat
            ((2.0 : F32).toDouble * m.M_PI * ((((segments.toNat : Nat) : Int) : Int) : F64) /
              ((segments : Int) : F64))).toDouble),
         Binary.toFloat ((⟨.finite q⟩ : F32).toDouble * m.sin (Binary.toFloat
            ((2.0 : F32).toDouble * m.M_PI * ((((segments.toNat : Nat) : Int) : Int) : F64) /
              ((segments : Int) : F64))).toDouble)] := rfl
    rw [body, a1, e3, e4]

/-- The `float` literal `0.12f` of `main` of creative.cpp. -/
theorem f32_radius : (0.12 : F32) = ⟨.finite (16106127 / 134217728)⟩ := by
  have e : (0.12 : F32) = ⟨.finite (binary32.rnd 0.12)⟩ :=
    ofRat_finite binary32 0.12 (lt_threshold32 (by rw [abs_of_pos (by norm_num)]; norm_num))
  have e2 : binary32.rnd 0.12 = 16106127 / 134217728 := by
    rw [rnd_eq_of_near_pos binary32 0.12 (-4) 16106127 (by norm_num) (by norm_num)
      (by decide) (by norm_num [binary32]) (by norm_num [binary32])]
    norm_num [binary32]
  rw [e, e2]

/-- C8: for every `segments ≥ 3` the fans built by `buildCircle` of shapes.cpp, by
`buildCircle` of creative.cpp and by `buildEllipse` are closed. Over the real numbers, for
every radius, the last rim vertex (rim index `segments`, angle `2π`) has exactly the position
of the first rim vertex (rim index `0`, angle `0`), namely `(r, 0)`, for the ellipse `(rx, 0)`.
In the arithmetic of the program (`float` is binary32, `double` is binary64, every operation
rounded to nearest, ties to even), for `segments` an `int`, every finite `float` radius and a
`<cmath>` that is accurate at the two angles `0` and `closingAngle`, both positions are finite
and each coordinate of the last rim vertex differs from that of the first by at most
`|r| / 2^21 + 2^-148`, for the ellipse with `rx` for the abscissa and `ry` for the ordinate. -/
theorem fan_closed (vertices : List ℝ) (segments : Int) (radius rx ry r g b : ℝ)
    (gradient : Bool) (h : 3 ≤ segments) :
    ((positionAt (Shapes.buildCircle ⟨Real.pi, Real.cos, Real.sin⟩ vertices segments radius
        gradient) (segments.toNat + 1) =
      positionAt (Shapes.buildCircle ⟨Real.pi, Real.cos, Real.sin⟩ vertices segments radius
        gradient) 1 ∧
     positionAt (Shapes.buildCircle ⟨Real.pi, Real.cos, Real.sin⟩ vertices segments radius
        gradient) 1 = [radius, 0]) ∧
    (positionAt (Creative.buildCircle ⟨Real.pi, Real.cos, Real.sin⟩ segments radius r g b)
        (segments.toNat + 1) =
      positionAt (Creative.buildCircle ⟨Real.pi, Real.cos, Real.sin⟩ segments radius r g b)
        1 ∧
     positionAt (Creative.buildCircle ⟨Real.pi, Real.cos, Real.sin⟩ segments radius r g b)
        1 = [radius, 0]) ∧
    (positionAt (Shapes.buildEllipse ⟨Real.pi, Real.cos, Real.sin⟩ vertices segments rx ry)
        (segments.toNat + 1) =
      positionAt (Shapes.buildEllipse ⟨Real.pi, Real.cos, Real.sin⟩ vertices segments rx ry)
        1 ∧
     positionAt (Shapes.buildEllipse ⟨Real.pi, Real.cos, Real.sin⟩ vertices segments rx ry)
        1 = [rx, 0])) ∧
    (∀ m : CMath F64, m.Accurate → segments ≤ 2147483647 →
      (∀ (fvertices : List F32) (q : ℚ), |q| ≤ 2 ^ 128 - 2 ^ 104 →
        ∃ x₀ y₀ x₁ y₁ : ℚ,
          positionAt (IEEE.Shapes.buildCircle m fvertices segments ⟨.finite q⟩ gradient) 1 =
            [⟨.finite x₀⟩, ⟨.finite y₀⟩] ∧
          positionAt (IEEE.Shapes.buildCircle m fvertices segments ⟨.finite q⟩ gradient)
            (segments.toNat + 1) = [⟨.finite x₁⟩, ⟨.finite y₁⟩] ∧
          |x₁ - x₀| ≤ |q| / 2 ^ 21 + 1 / 2 ^ 148 ∧
          |y₁ - y₀| ≤ |q| / 2 ^ 21 + 1 / 2 ^ 148) ∧
      (∀ (q : ℚ) (fr fg fb : F32), |q| ≤ 2 ^ 128 - 2 ^ 104 →
        ∃ x₀ y₀ x₁ y₁ : ℚ,
          positionAt (IEEE.Creative.buildCircle m segments ⟨.finite q⟩ fr fg fb) 1 =
            [⟨.finite x₀⟩, ⟨.finite y₀⟩] ∧
          positionAt (IEEE.Creative.buildCircle m segments ⟨.finite q⟩ fr fg fb)
            (segments.toNat + 1) = [⟨.finite x₁⟩, ⟨.finite y₁⟩] ∧
          |x₁ - x₀| ≤ |q| / 2 ^ 21 + 1 / 2 ^ 148 ∧
          |y₁ - y₀| ≤ |q| / 2 ^ 21 + 1 / 2 ^ 148) ∧
      (∀ (fvertices : List F32) (qx qy : ℚ), |qx| ≤ 2 ^ 128 - 2 ^ 104 →
        |qy| ≤ 2 ^ 128 - 2 ^ 104 →
        ∃ x₀ y₀ x₁ y₁ : ℚ,
          positionAt (IEEE.Shapes.buildEllipse m fvertices segments ⟨.finite qx⟩
            ⟨.finite qy⟩) 1 = [⟨.finite x₀⟩, ⟨.finite y₀⟩] ∧
          positionAt (IEEE.Shapes.buildEllipse m fvertices segments ⟨.finite qx⟩
            ⟨.finite qy⟩) (segments.toNat + 1) = [⟨.finite x₁⟩, ⟨.finite y₁⟩] ∧
          |x₁ - x₀| ≤ |qx| / 2 ^ 21 + 1 / 2 ^ 148 ∧
          |y₁ - y₀| ≤ |qy| / 2 ^ 21 + 1 / 2 ^ 148)) := by
  refine ⟨fan_closed_exact vertices segments radius rx ry r g b gradient h, ?_⟩
  intro m hm h2
  refine ⟨?_, ?_, ?_⟩
  · intro fvertices q hq
    exact ieee_shapes_circle_closed m hm fvertices segments h h2 q hq gradient
  · intro q fr fg fb hq
    exact ieee_creative_circle_closed m hm segments h h2 q hq fr fg fb
  · intro fvertices qx qy hx hy
    exact ieee_shapes_ellipse_closed m hm fvertices segments h h2 qx qy hx hy

/-- Witness of C8: the circle of `main` of creative.cpp, `buildCircle(40, 0.12f, 1.0f, 1.0f,
0.0f)`, over the real numbers and in the arithmetic of the program. -/
theorem fan_closed_witness :
    (3 : Int) ≤ 40 ∧
    positionAt (Creative.buildCircle ⟨Real.pi, Real.cos, Real.sin⟩ 40 0.12 1.0 1.0 0.0)
        ((40 : Int).toNat + 1) =
      positionAt (Creative.buildCircle ⟨Real.pi, Real.cos, Real.sin⟩ 40 0.12 1.0 1.0 0.0)
        1 ∧
    sampleMath.Accurate ∧ (40 : Int) ≤ 2147483647 ∧
    (0.12 : F32) = ⟨.finite (16106127 / 134217728)⟩ ∧
    |(16106127 / 134217728 : ℚ)| ≤ 2 ^ 128 - 2 ^ 104 ∧
    ∃ x₀ y₀ x₁ y₁ : ℚ,
      positionAt (IEEE.Creative.buildCircle sampleMath 40 ⟨.finite (16106127 / 134217728)⟩
        1.0 1.0 0.0) 1 = [⟨.finite x₀⟩, ⟨.finite y₀⟩] ∧
      positionAt (IEEE.Creative.buildCircle sampleMath 40 ⟨.finite (16106127 / 134217728)⟩
        1.0 1.0 0.0) ((40 : Int).toNat + 1) = [⟨.finite x₁⟩, ⟨.finite y₁⟩] ∧
      |x₁ - x₀| ≤ |(16106127 / 134217728 : ℚ)| / 2 ^ 21 + 1 / 2 ^ 148 ∧
      |y₁ - y₀| ≤ |(16106127 / 134217728 : ℚ)| / 2 ^ 21 + 1 / 2 ^ 148 :=
  ⟨by decide,
    (fan_closed [] 40 0.12 0.25 0.15 1.0 1.0 0.0 false (by decide)).1.2.1.1,
    sampleMath_accurate, by decide, f32_radius,
    by rw [abs_of_pos (by norm_num)]; norm_num,
    ((fan_closed [] 40 0.12 0.25 0.15 1.0 1.0 0.0 false (by decide)).2 sampleMath
      sampleMath_accurate (by decide)).2.1 (16106127 / 134217728) 1.0 1.0 0.0
      (by rw [abs_of_pos (by norm_num)]; norm_num)⟩
